import Mathlib

/-!
Travel footprint map: marker store handlers and derived views.

A shallow embedding of the marker/visit data model of the travel journal
(`src/pages/Map/Map.jsx`, the form components, `src/constants/tags.js`) and of
the derived views computed from the marker list (`MemorySidebar.jsx`,
`Timeline.jsx`, `Statistics.jsx`, `MapPoster.jsx`, `MarkerDetail_new.jsx`), of
the tag selector, of the zoom choice for search results and of the import and
export of `Settings.jsx`, followed by theorems about them.

Conventions of the embedding:

* a JavaScript array is a `List`; a record field that may be absent
  (`undefined`) is an `Option`;
* React state updates `setMarkers(prev => f(prev))` are the pure function `f`
  on the marker list;
* clock readings (`Date.now()`, `new Date().toISOString()`) are explicit
  arguments;
* `new Date(s)` is an explicit parser argument `parse : String → Option Int`
  giving the time value, `none` standing for `Invalid Date` (time value `NaN`);
* `a.localeCompare(b)` is an explicit comparator argument, of which the theorems
  assume at most that it is a consistent comparison;
* the calls on local storage that raise an exception during an import are an
  explicit argument, and the `catch` block of the import is part of the model.
-/

namespace TravelFootprint

/-! ## Data model -/

/-- Identifier of a marker. `handleSubmitMarker` assigns the number `Date.now()`;
records read back from storage or from an import file may carry strings. -/
inductive MarkerId where
  | num (n : Int)
  | str (s : String)
  deriving DecidableEq, Repr

/-- Text of an id inside a template literal: the decimal digits of an integer id
(as JavaScript prints integers below 1e21, which covers every clock reading) and
the string itself for a string id. -/
def MarkerId.toText : MarkerId → String
  | .num n => toString n
  | .str s => s

/-- Stored photo: `{ dataUrl, caption }`. -/
structure Photo where
  dataUrl : String
  caption : String
  deriving DecidableEq, Repr

/-- Visit record, as built by `AddMarkerForm.handleSubmit` and
`VisitRecordForm.handleSubmit`. An empty string is the falsy string of
JavaScript. -/
structure Visit where
  id : String
  visitDate : String
  notes : String
  photos : List Photo
  createdAt : String
  deriving DecidableEq, Repr

/-- Marker record. Coordinates are kept in units of 1e-6 degree (the forms keep
six decimals); no modelled operation computes with them. The fields `visitDate`,
`notes` and `photos` are the legacy single-visit fields. Fields that some
producer of markers leaves out are optional. -/
structure Marker where
  id : MarkerId
  name : String
  latitude : Int
  longitude : Int
  tags : Option (List String)
  visits : Option (List Visit)
  createdAt : Option String
  updatedAt : Option String
  visitDate : Option String
  notes : Option String
  photos : Option (List Photo)
  deriving DecidableEq, Repr

/-- Time value of a `Date` object: `none` is `Invalid Date`. -/
abbrev TimeValue := Option Int

/-- The built-in `new Date(s)`, passed explicitly. -/
abbrev DateParser := String → TimeValue

/-- Subtraction of two dates, `x - y`: the difference of the time values, `NaN`
(here `none`) when either date is invalid. -/
def dateSub (x y : TimeValue) : Option Int :=
  match x, y with
  | some a, some b => some (a - b)
  | _, _ => none

/-! ## JavaScript string helpers -/

/-- White space and line terminators removed by `String.prototype.trim`. -/
def isTrimChar (c : Char) : Bool :=
  let n := c.toNat
  n == 0x9 || n == 0xA || n == 0xB || n == 0xC || n == 0xD || n == 0x20 || n == 0xA0 ||
  n == 0x1680 || (0x2000 ≤ n && n ≤ 0x200A) || n == 0x2028 || n == 0x2029 || n == 0x202F ||
  n == 0x205F || n == 0x3000 || n == 0xFEFF

/-- The method `s.trim()`. -/
def jsTrim (s : String) : String :=
  String.mk ((s.toList.dropWhile isTrimChar).reverse.dropWhile isTrimChar).reverse

/-- The property `s.length`: the number of UTF-16 code units. -/
def jsLength (s : String) : Nat :=
  (s.toList.map fun c => if c.toNat < 0x10000 then 1 else 2).sum

/-- The expression `s || t` on strings: the empty string is falsy. -/
def strOr (s t : String) : String :=
  if s = "" then t else s

/-! ## A date parser for the date-only form -/

/-- Value of a decimal digit. -/
def digitValue (c : Char) : Option Nat :=
  if c.isDigit then some (c.toNat - 48) else none

/-- Leap years of the proleptic Gregorian calendar. -/
def isLeapYear (y : Nat) : Bool :=
  (y % 4 == 0 && y % 100 != 0) || y % 400 == 0

/-- Number of days of month `m` (1 to 12) of year `y`. -/
def daysInMonth (y m : Nat) : Nat :=
  if m == 2 then (if isLeapYear y then 29 else 28)
  else if m == 4 || m == 6 || m == 9 || m == 11 then 30 else 31

/-- Days from 1970-01-01 to the civil date `y-m-d`. -/
def daysFromCivil (y m d : Nat) : Int :=
  let yy : Int := if m ≤ 2 then (y : Int) - 1 else y
  let era : Int := (if 0 ≤ yy then yy else yy - 399) / 400
  let yoe : Int := yy - era * 400
  let mp : Int := if 2 < m then (m : Int) - 3 else (m : Int) + 9
  let doy : Int := (153 * mp + 2) / 5 + (d : Int) - 1
  let doe : Int := yoe * 365 + yoe / 4 - yoe / 100 + doy
  era * 146097 + doe - 719468

/-- A `DateParser` for the strings the date inputs of the forms produce: the
date-only form `YYYY-MM-DD` of the ECMAScript date-time format, read as UTC
midnight in milliseconds since the epoch; the empty string gives `Invalid Date`.
It is narrower than `new Date`: the date-time forms, which engines also accept,
and days past the end of a month, which some engines roll over, give
`Invalid Date` here. It serves only to evaluate the views on concrete lists of
date-only strings with real calendar days and on the empty string; the general
theorems hold for every parser. -/
def parseIsoDate : DateParser := fun s =>
  match s.toList with
  | [y1, y2, y3, y4, s1, m1, m2, s2, d1, d2] =>
    match digitValue y1, digitValue y2, digitValue y3, digitValue y4,
        digitValue m1, digitValue m2, digitValue d1, digitValue d2 with
    | some a, some b, some c, some d, some e, some f, some g, some h =>
      let y := 1000 * a + 100 * b + 10 * c + d
      let m := 10 * e + f
      let dd := 10 * g + h
      if s1 = '-' ∧ s2 = '-' ∧ 1 ≤ m ∧ m ≤ 12 ∧ 1 ≤ dd ∧ dd ≤ daysInMonth y m then
        some (daysFromCivil y m dd * 86400000)
      else none
    | _, _, _, _, _, _, _, _ => none
  | _ => none

/-! ## `Array.prototype.sort` -/

/-- Whether a comparator result `v` of `comparefn(x, y)` asks for `x` to be placed
after `y`: `v > 0`. A `NaN` result is replaced by `+0` (ECMAScript
`SortCompare`), so it does not. -/
def comparatorPositive : Option Int → Bool
  | some v => decide (0 < v)
  | none => false

/-- Insertion of `a`, which preceded every element of the list in the input,
into the already sorted list: `a` moves right past the elements it must follow. -/
def sortInsert {α : Type} (comparefn : α → α → Option Int) (a : α) : List α → List α
  | [] => [a]
  | b :: l =>
    if comparatorPositive (comparefn a b) then b :: sortInsert comparefn a l
    else a :: b :: l

/-- The built-in `Array.prototype.sort(comparefn)`. ECMAScript requires the sort
to be stable and fixes the result whenever the comparator is consistent; this is
the stable insertion sort, with which every conforming engine agrees on such
comparators. On inconsistent comparators (possible here only through `NaN`
results, which `SortCompare` reads as `+0`) the standard leaves the order to the
engine, and engines differ from this insertion sort on some such lists (the
binary insertion of V8 places elements elsewhere). The model agrees with V8 on
the lists it is evaluated on below with invalid dates: a list in which no
element asks to be placed after its right neighbour is left as it is by this
sort, and by V8, whose run detection finds a single ascending run. -/
def arraySort {α : Type} (comparefn : α → α → Option Int) : List α → List α
  | [] => []
  | a :: l => sortInsert comparefn a (arraySort comparefn l)

/-! ## Sidebar timeline (`MemorySidebar.jsx`) -/

/-- Entry `{ marker, visit, date }` of the memory sidebar. -/
structure Memory where
  marker : Marker
  visit : Visit
  date : TimeValue
  deriving DecidableEq, Repr

/-- The comparator `(a, b) => b.date - a.date`. -/
def memoryCompare (a b : Memory) : Option Int :=
  dateSub b.date a.date

/-- The `memories` array of `timelineMemories` before sorting: the nested
`forEach` loops pushing one entry per visit. -/
def timelineMemoriesUnsorted (parse : DateParser) (markers : List Marker) : List Memory :=
  markers.foldl
    (fun memories marker =>
      match marker.visits with
      | some visits =>
        if visits.length > 0 then
          visits.foldl
            (fun memories visit =>
              memories ++ [{ marker := marker, visit := visit, date := parse visit.visitDate }])
            memories
        else memories
      | none => memories)
    []

/-- `timelineMemories` of `MemorySidebar`: all visits, newest first. -/
def timelineMemories (parse : DateParser) (markers : List Marker) : List Memory :=
  arraySort memoryCompare (timelineMemoriesUnsorted parse markers)

/-- The flattened `{marker, visit}` pairs in store order, as the specification
words them: markers in list order, each marker's visits in list order. -/
def flattenedPairs (parse : DateParser) (markers : List Marker) : List Memory :=
  markers.flatMap fun marker =>
    (marker.visits.getD []).map fun visit =>
      { marker := marker, visit := visit, date := parse visit.visitDate }

/-- Every visit date of the list parses to a valid date. -/
def AllDatesValid (parse : DateParser) (markers : List Marker) : Prop :=
  ∀ m ∈ markers, ∀ v ∈ m.visits.getD [], (parse v.visitDate).isSome = true

/-- Date order on entries with valid dates: `a` is not older than `b`. -/
def NotOlder (a b : Memory) : Prop :=
  ∀ da db : Int, a.date = some da → b.date = some db → db ≤ da

/-! ## Tag registry (`constants/tags.js`) -/

/-- Tag of the registry. -/
structure Tag where
  id : String
  name : String
  emoji : String
  color : String
  lightColor : String
  deriving DecidableEq, Repr

/-- The predefined tags, in source order. -/
def PREDEFINED_TAGS : List Tag :=
  [ { id := "sightseeing", name := "观景", emoji := "🏞️", color := "#6BA5D6",
      lightColor := "rgba(107, 165, 214, 0.15)" },
    { id := "family", name := "家庭旅游", emoji := "👨‍👩‍👧‍👦", color := "#E89AC7",
      lightColor := "rgba(232, 154, 199, 0.15)" },
    { id := "friends", name := "与朋友之行", emoji := "👯‍♀️", color := "#FFB86C",
      lightColor := "rgba(255, 184, 108, 0.15)" },
    { id := "celebrity", name := "追星", emoji := "⭐", color := "#FFD93D",
      lightColor := "rgba(255, 217, 61, 0.15)" },
    { id := "food", name := "美食探索", emoji := "🍜", color := "#FF6B6B",
      lightColor := "rgba(255, 107, 107, 0.15)" },
    { id := "culture", name := "文化体验", emoji := "🎭", color := "#9B59B6",
      lightColor := "rgba(155, 89, 182, 0.15)" },
    { id := "adventure", name := "冒险活动", emoji := "🏔️", color := "#27AE60",
      lightColor := "rgba(39, 174, 96, 0.15)" },
    { id := "relax", name := "休闲度假", emoji := "🏖️", color := "#3498DB",
      lightColor := "rgba(52, 152, 219, 0.15)" },
    { id := "business", name := "商务出行", emoji := "💼", color := "#34495E",
      lightColor := "rgba(52, 73, 94, 0.15)" },
    { id := "photography", name := "摄影采风", emoji := "📷", color := "#16A085",
      lightColor := "rgba(22, 160, 133, 0.15)" },
    { id := "shopping", name := "购物", emoji := "🛍️", color := "#E74C3C",
      lightColor := "rgba(231, 76, 60, 0.15)" },
    { id := "festival", name := "节日庆典", emoji := "🎉", color := "#F39C12",
      lightColor := "rgba(243, 156, 18, 0.15)" } ]

/-- The default tag, used when no tag is selected. -/
def DEFAULT_TAG : Tag :=
  { id := "default", name := "未分类", emoji := "📍", color := "#95A5A6",
    lightColor := "rgba(149, 165, 166, 0.15)" }

/-- Lookup of a tag by id: `PREDEFINED_TAGS.find(tag => tag.id === id) || DEFAULT_TAG`.
An absent argument is `none`. -/
def getTagById (id : Option String) : Tag :=
  match PREDEFINED_TAGS.find? (fun tag => decide (some tag.id = id)) with
  | some tag => tag
  | none => DEFAULT_TAG

/-- Primary tag of a tag list: the default tag for a missing or empty list, else
the tag of the first element. -/
def getPrimaryTag (tags : Option (List String)) : Tag :=
  match tags with
  | none => DEFAULT_TAG
  | some [] => DEFAULT_TAG
  | some (t :: _) => getTagById (some t)

/-! ## Plain objects used as dictionaries -/

/-- Property names every plain object inherits from `Object.prototype`; each of
them reads as a truthy value (a function, or the prototype object itself for
`__proto__`) that has no `memories` property. -/
def objectPrototypeKeys : List String :=
  ["constructor", "__defineGetter__", "__defineSetter__", "hasOwnProperty",
   "__lookupGetter__", "__lookupSetter__", "isPrototypeOf", "propertyIsEnumerable",
   "toString", "valueOf", "__proto__", "toLocaleString"]

/-- Result of reading `obj[key]` on an object literal. -/
inductive PropertyLookup (β : Type) where
  | own (value : β)
  | inherited
  | absent

/-- Own properties of an object, in insertion order. This is the order in which
`Object.keys` enumerates the tag groups, none of whose keys is an array index;
`objectEntries` below gives the enumeration order in general. -/
abbrev Dict (β : Type) := List (String × β)

/-- The assignment `obj[key] = value`: replaces the value of an own key in place,
otherwise appends the key. -/
def Dict.set {β : Type} : Dict β → String → β → Dict β
  | [], key, value => [(key, value)]
  | (k, v) :: rest, key, value =>
    if k = key then (k, value) :: rest else (k, v) :: Dict.set rest key value

/-- Own-property read. -/
def Dict.get {β : Type} : Dict β → String → Option β
  | [], _ => none
  | (k, v) :: rest, key => if k = key then some v else Dict.get rest key

/-- The read `obj[key]`, through the prototype chain. -/
def Dict.lookup {β : Type} (obj : Dict β) (key : String) : PropertyLookup β :=
  match Dict.get obj key with
  | some v => .own v
  | none => if key ∈ objectPrototypeKeys then .inherited else .absent

/-- Runtime errors raised by the modelled code. -/
inductive JsError where
  | typeError
  deriving DecidableEq, Repr

/-! ## Tag-grouped view (`MemorySidebar.jsx`) -/

/-- Value `{ tag, memories }` of the `grouped` object. -/
structure TagGroup where
  tag : Tag
  memories : List Memory
  deriving DecidableEq, Repr

/-- The `grouped` object after its initialisation from the predefined tags. -/
def initialGroups : Dict TagGroup :=
  PREDEFINED_TAGS.foldl
    (fun grouped tag =>
      if tag.id ≠ "default" then Dict.set grouped tag.id { tag := tag, memories := [] }
      else grouped)
    []

/-- The expression `(marker.tags || ['default'])[0] || 'default'`. -/
def inlinePrimaryTag (marker : Marker) : String :=
  let markerTags := marker.tags.getD ["default"]
  match markerTags.head? with
  | some t => strOr t "default"
  | none => "default"

/-- The statement `grouped[primaryTag].memories.push(entry)` on an own group. -/
def pushMemory (grouped : Dict TagGroup) (primaryTag : String) (entry : Memory) :
    Dict TagGroup :=
  match Dict.get grouped primaryTag with
  | some g => Dict.set grouped primaryTag { g with memories := g.memories ++ [entry] }
  | none => grouped

/-- One round of the `markers.forEach` loop of `tagGroupedMemories`. When
`grouped[primaryTag]` is an inherited property the guard passes and
`grouped[primaryTag].memories.push` raises a `TypeError` on the first visit. -/
def groupMarker (parse : DateParser) (grouped : Dict TagGroup) (marker : Marker) :
    Except JsError (Dict TagGroup) :=
  match marker.visits with
  | some visits =>
    if visits.length > 0 then
      let primaryTag := inlinePrimaryTag marker
      if primaryTag ≠ "default" then
        match Dict.lookup grouped primaryTag with
        | .own _ =>
          .ok (visits.foldl
            (fun grouped visit =>
              pushMemory grouped primaryTag
                { marker := marker, visit := visit, date := parse visit.visitDate })
            grouped)
        | .inherited => .error JsError.typeError
        | .absent => .ok grouped
      else .ok grouped
    else .ok grouped
  | none => .ok grouped

/-- The `grouped` object after the `markers.forEach` loop. -/
def groupMarkers (parse : DateParser) :
    Dict TagGroup → List Marker → Except JsError (Dict TagGroup)
  | grouped, [] => .ok grouped
  | grouped, marker :: rest =>
    match groupMarker parse grouped marker with
    | .ok grouped1 => groupMarkers parse grouped1 rest
    | .error e => .error e

/-- The final loop over `Object.keys(grouped)`: groups without entries are
dropped, the entries of the others are sorted newest first. -/
def collectGroups (grouped : Dict TagGroup) : Dict TagGroup :=
  grouped.foldl
    (fun result kv =>
      if kv.2.memories.length > 0 then
        Dict.set result kv.1 { kv.2 with memories := arraySort memoryCompare kv.2.memories }
      else result)
    []

/-- `tagGroupedMemories` of `MemorySidebar`. -/
def tagGroupedMemories (parse : DateParser) (markers : List Marker) :
    Except JsError (Dict TagGroup) :=
  match groupMarkers parse initialGroups markers with
  | .ok grouped => .ok (collectGroups grouped)
  | .error e => .error e

/-! ## Timeline page (`Timeline.jsx`) -/

/-- Event of the timeline page. `date` is `marker.visitDate` for the entry of the
initial visit (absent on markers that have no such field) and `visit.visitDate`
for the others. -/
structure TimelineEvent where
  id : String
  markerId : MarkerId
  markerName : String
  date : Option String
  latitude : Int
  longitude : Int
  tags : Option (List String)
  notes : Option String
  photos : Option (List Photo)
  isInitialVisit : Bool
  deriving DecidableEq, Repr

/-- The event pushed first for every marker ("initial visit"). -/
def initialEvent (marker : Marker) : TimelineEvent :=
  { id := marker.id.toText ++ "-initial"
    markerId := marker.id
    markerName := marker.name
    date := marker.visitDate
    latitude := marker.latitude
    longitude := marker.longitude
    tags := marker.tags
    notes := marker.notes
    photos := marker.photos
    isInitialVisit := true }

/-- The event pushed for a visit of the `visits` array. -/
def visitEvent (marker : Marker) (visit : Visit) : TimelineEvent :=
  { id := marker.id.toText ++ "-visit-" ++ visit.id
    markerId := marker.id
    markerName := marker.name
    date := some visit.visitDate
    latitude := marker.latitude
    longitude := marker.longitude
    tags := marker.tags
    notes := some visit.notes
    photos := some visit.photos
    isInitialVisit := false }

/-- The `events` array of `timelineEvents` before sorting. -/
def timelineEventsUnsorted (markers : List Marker) : List TimelineEvent :=
  markers.foldl
    (fun events marker =>
      let events := events ++ [initialEvent marker]
      match marker.visits with
      | some visits =>
        if visits.length > 0 then
          visits.foldl (fun events visit => events ++ [visitEvent marker visit]) events
        else events
      | none => events)
    []

/-- The expression `new Date(e.date)` on an event; an absent date gives
`Invalid Date`. -/
def eventDate (parse : DateParser) (e : TimelineEvent) : TimeValue :=
  match e.date with
  | some s => parse s
  | none => none

/-- `timelineEvents` of the timeline page, sorted with
`(a, b) => new Date(b.date) - new Date(a.date)`. -/
def timelineEvents (parse : DateParser) (markers : List Marker) : List TimelineEvent :=
  arraySort (fun a b => dateSub (eventDate parse b) (eventDate parse a))
    (timelineEventsUnsorted markers)

/-- Number of visits of a marker, `marker.visits?.length || 0`. -/
def visitCount (marker : Marker) : Nat :=
  (marker.visits.getD []).length

/-! ## Forms -/

/-- Entry of the photo state of a form, as produced by the photo upload widget. -/
structure FormPhoto where
  dataUrl : String
  caption : String
  originalName : String
  size : Nat
  width : Nat
  height : Nat
  deriving DecidableEq, Repr

/-- The expression `photos.map(p => ({ dataUrl: p.dataUrl, caption: p.caption || '' }))`. -/
def submittedPhotos (photos : List FormPhoto) : List Photo :=
  photos.map fun p => { dataUrl := p.dataUrl, caption := strOr p.caption "" }

/-- State of the add-marker and edit-marker forms at submission. `latitude` and
`longitude` stand for `parseFloat(formData.latitude)` and
`parseFloat(formData.longitude)`. -/
structure MarkerFormState where
  name : String
  visitDate : String
  latitude : Int
  longitude : Int
  notes : String
  photos : List FormPhoto
  selectedTags : List String
  deriving DecidableEq, Repr

/-- Keys of the `newErrors` object built by `validateForm` of the marker forms. -/
def markerFormErrors (f : MarkerFormState) : List String :=
  (if jsTrim f.name = "" then ["name"]
   else if jsLength f.name > 50 then ["name"] else []) ++
  (if f.visitDate = "" then ["visitDate"] else []) ++
  (if f.notes ≠ "" ∧ jsLength f.notes > 500 then ["notes"] else [])

/-- `validateForm` of `AddMarkerForm` and `EditMarkerForm`. -/
def validateMarkerForm (f : MarkerFormState) : Bool :=
  (markerFormErrors f).length == 0

/-- The object `EditMarkerForm.handleSubmit` passes to `onSubmit`, `none` when
validation stops the submission. It has no `visits` property. -/
def EditMarkerForm.handleSubmit (marker : Marker) (f : MarkerFormState) (nowIso : String) :
    Option Marker :=
  if validateMarkerForm f then
    some
      { id := marker.id
        name := jsTrim f.name
        visitDate := some f.visitDate
        latitude := f.latitude
        longitude := f.longitude
        notes := if jsTrim f.notes = "" then none else some (jsTrim f.notes)
        photos := some (submittedPhotos f.photos)
        tags := some f.selectedTags
        createdAt := marker.createdAt
        updatedAt := some nowIso
        visits := none }
  else none

/-- The object `AddMarkerForm.handleSubmit` passes to `onSubmit`. -/
structure MarkerData where
  name : String
  latitude : Int
  longitude : Int
  tags : List String
  visits : List Visit
  createdAt : String
  deriving DecidableEq, Repr

/-- `AddMarkerForm.handleSubmit`, `none` when validation stops the submission. -/
def AddMarkerForm.handleSubmit (f : MarkerFormState) (nowMs : Int) (nowIso : String) :
    Option MarkerData :=
  if validateMarkerForm f then
    let initialVisit : Visit :=
      { id := "visit_" ++ toString nowMs
        visitDate := f.visitDate
        notes := strOr (jsTrim f.notes) ""
        photos := submittedPhotos f.photos
        createdAt := nowIso }
    some
      { name := jsTrim f.name
        latitude := f.latitude
        longitude := f.longitude
        tags := f.selectedTags
        visits := [initialVisit]
        createdAt := nowIso }
  else none

/-- State of the visit record form at submission. -/
structure VisitFormState where
  visitDate : String
  notes : String
  photos : List FormPhoto
  deriving DecidableEq, Repr

/-- Keys of the `newErrors` object built by `validateForm` of `VisitRecordForm`. -/
def visitFormErrors (f : VisitFormState) : List String :=
  (if f.visitDate = "" then ["visitDate"] else []) ++
  (if f.notes ≠ "" ∧ jsLength f.notes > 500 then ["notes"] else [])

/-- `validateForm` of `VisitRecordForm`. -/
def validateVisitForm (f : VisitFormState) : Bool :=
  (visitFormErrors f).length == 0

/-- `VisitRecordForm.handleSubmit`: `visit` is the record being edited, absent
when the form adds a visit. -/
def VisitRecordForm.handleSubmit (visit : Option Visit) (f : VisitFormState) (nowMs : Int)
    (nowIso : String) : Option Visit :=
  if validateVisitForm f then
    some
      { id := strOr ((visit.map Visit.id).getD "") ("visit_" ++ toString nowMs)
        visitDate := f.visitDate
        notes := strOr (jsTrim f.notes) ""
        photos := submittedPhotos f.photos
        createdAt := strOr ((visit.map Visit.createdAt).getD "") nowIso }
  else none

/-! ## Store handlers (`Map.jsx`) -/

/-- The marker `{ id: Date.now(), ...markerData }` built by `handleSubmitMarker`. -/
def newMarker (now : Int) (markerData : MarkerData) : Marker :=
  { id := .num now
    name := markerData.name
    latitude := markerData.latitude
    longitude := markerData.longitude
    tags := some markerData.tags
    visits := some markerData.visits
    createdAt := some markerData.createdAt
    updatedAt := none
    visitDate := none
    notes := none
    photos := none }

/-- `handleSubmitMarker`: the state update `prev => [...prev, newMarker]`. -/
def handleSubmitMarker (now : Int) (markerData : MarkerData) (prev : List Marker) :
    List Marker :=
  prev ++ [newMarker now markerData]

/-- `handleSubmitEdit`: the state update
`prev.map(m => m.id === updatedMarker.id ? updatedMarker : m)`. -/
def handleSubmitEdit (updatedMarker : Marker) (prev : List Marker) : List Marker :=
  prev.map fun m => if m.id = updatedMarker.id then updatedMarker else m

/-- Submission of the edit form for `marker` followed by `handleSubmitEdit`; the
list is left as it is when validation stops the submission. -/
def submitEdit (marker : Marker) (f : MarkerFormState) (nowIso : String)
    (prev : List Marker) : List Marker :=
  match EditMarkerForm.handleSubmit marker f nowIso with
  | some updatedMarker => handleSubmitEdit updatedMarker prev
  | none => prev

/-- `handleConfirmDelete`: nothing happens without a marker to delete, otherwise
the state update `prev.filter(m => m.id !== deletingMarker.id)`. -/
def handleConfirmDelete (deletingMarker : Option Marker) (prev : List Marker) : List Marker :=
  match deletingMarker with
  | none => prev
  | some d => prev.filter fun m => m.id ≠ d.id

/-- Error taxonomy of the specification. No handler of `Map.jsx` raises or
reports any of these. -/
inductive StoreError where
  | ValidationError
  | NotFoundError
  | PersistenceError
  | GatewayError
  deriving DecidableEq, Repr

/-- What a handler leaves behind when it completes: the marker list and the
notice shown through `success(...)`. -/
structure HandlerOutcome where
  markers : List Marker
  successNotice : String
  deriving DecidableEq, Repr

/-- A confirmed delete as the caller observes it. The handler has no failing
branch: it updates the list and shows the success notice naming the marker. -/
def runConfirmDelete (deletingMarker : Marker) (prev : List Marker) :
    Except StoreError HandlerOutcome :=
  .ok { markers := handleConfirmDelete (some deletingMarker) prev
        successNotice := "已删除标记：\"" ++ deletingMarker.name ++ "\"" }

/-- `handleAddVisit`. -/
def handleAddVisit (markerId : MarkerId) (visitData : Visit) (nowIso : String)
    (prev : List Marker) : List Marker :=
  prev.map fun marker =>
    if marker.id = markerId then
      { marker with
        visits := some (marker.visits.getD [] ++ [visitData])
        updatedAt := some nowIso }
    else marker

/-- `handleEditVisit`: the update of the marker list. -/
def handleEditVisit (markerId : MarkerId) (updatedVisit : Visit) (nowIso : String)
    (prev : List Marker) : List Marker :=
  prev.map fun marker =>
    if marker.id = markerId then
      { marker with
        visits := some ((marker.visits.getD []).map fun visit =>
          if visit.id = updatedVisit.id then updatedVisit else visit)
        updatedAt := some nowIso }
    else marker

/-- Editing `visit` of marker `markerId` through the visit form
(`VisitRecordForm.handleSubmit`, then `MarkerDetail.handleSubmitEdit`, then
`handleEditVisit`); the list is left as it is when validation stops the
submission. -/
def submitVisitEdit (markerId : MarkerId) (visit : Visit) (f : VisitFormState) (nowMs : Int)
    (formIso nowIso : String) (prev : List Marker) : List Marker :=
  match VisitRecordForm.handleSubmit (some visit) f nowMs formIso with
  | some updatedVisit => handleEditVisit markerId updatedVisit nowIso prev
  | none => prev

/-- `handleDeleteVisit`: the update of the marker list. `confirmed` is the answer
to `window.confirm`; nothing happens when the user declines. -/
def handleDeleteVisit (confirmed : Bool) (markerId : MarkerId) (visitId : String)
    (nowIso : String) (prev : List Marker) : List Marker :=
  if confirmed then
    prev.map fun marker =>
      if marker.id = markerId then
        { marker with
          visits := some ((marker.visits.getD []).filter fun visit => visit.id ≠ visitId)
          updatedAt := some nowIso }
      else marker
  else prev

/-! ## More JavaScript built-ins -/

/-- The first characters of a list that fit in `n` UTF-16 code units. -/
def takeUnits : Nat → List Char → List Char
  | _, [] => []
  | n, c :: cs =>
    if (if c.toNat < 0x10000 then 1 else 2) ≤ n then
      c :: takeUnits (n - (if c.toNat < 0x10000 then 1 else 2)) cs
    else []

/-- The call `s.substring(0, n)`: the first `n` UTF-16 code units of `s`. A
supplementary character that the cut would split is left out (JavaScript keeps
its leading surrogate, which is not a character of its own); strings of BMP
characters, such as every date the forms produce, are cut exactly. -/
def substring0 (s : String) (n : Nat) : String :=
  String.mk (takeUnits n s.toList)

/-- The method `set.add(x)` of a `Set`, kept as the list of its elements in
insertion order. -/
def setAdd {α : Type} [DecidableEq α] (set : List α) (x : α) : List α :=
  if x ∈ set then set else set ++ [x]

/-- The constructor `new Set(values)`. -/
def newSet {α : Type} [DecidableEq α] (values : List α) : List α :=
  values.foldl setAdd []

/-- Value of a decimal digit string, most significant digit first. -/
def digitsValue (cs : List Char) : Nat :=
  cs.foldl (fun acc c => 10 * acc + (c.toNat - 48)) 0

/-- Whether a property key is an array index: the canonical decimal form of an
integer below `2^32 - 1`. -/
def isArrayIndex (key : String) : Bool :=
  match key.toList with
  | [] => false
  | c :: cs =>
    (c :: cs).all Char.isDigit && (c != '0' || cs.isEmpty) &&
      decide (digitsValue (c :: cs) < 4294967295)

/-- The built-in `Object.entries(obj)`: the array-index keys in ascending numeric
order, then the other keys in insertion order. -/
def objectEntries {β : Type} (obj : Dict β) : List (String × β) :=
  arraySort
      (fun a b => some ((digitsValue a.1.toList : Int) - (digitsValue b.1.toList : Int)))
      (obj.filter fun kv => isArrayIndex kv.1) ++
    obj.filter fun kv => !isArrayIndex kv.1

/-- The built-in `a.localeCompare(b)`, passed explicitly: a locale-sensitive
comparison chosen by the host. -/
abbrev LocaleCompare := String → String → Int

/-! ## Statistics page (`Statistics.jsx`) -/

/-- `totalLocations`. -/
def Statistics.totalLocations (markers : List Marker) : Nat :=
  markers.length

/-- `totalVisits`: `markers.reduce((sum, marker) => sum + (marker.visits?.length || 0), 0)`. -/
def Statistics.totalVisits (markers : List Marker) : Nat :=
  markers.foldl (fun sum marker => sum + (marker.visits.getD []).length) 0

/-- The set `uniqueDates` after the loops over markers and visits. -/
def Statistics.uniqueDates (markers : List Marker) : List String :=
  markers.foldl
    (fun uniqueDates marker =>
      (marker.visits.getD []).foldl (fun uniqueDates visit => setAdd uniqueDates visit.visitDate)
        uniqueDates)
    []

/-- `totalDays`: `uniqueDates.size`. -/
def Statistics.totalDays (markers : List Marker) : Nat :=
  (Statistics.uniqueDates markers).length

/-- The set `cities`: a marker's name is added when it is truthy. -/
def Statistics.cities (markers : List Marker) : List String :=
  markers.foldl
    (fun cities marker => if marker.name ≠ "" then setAdd cities marker.name else cities)
    []

/-- `citiesCount`: `cities.size`. -/
def Statistics.citiesCount (markers : List Marker) : Nat :=
  (Statistics.cities markers).length

/-- Entry `{ name, visits }` of the rankings. -/
structure LocationCount where
  name : String
  visits : Nat
  deriving DecidableEq, Repr

/-- The comparator `(a, b) => b.visits - a.visits`. -/
def locationCompare (a b : LocationCount) : Option Int :=
  some ((b.visits : Int) - (a.visits : Int))

/-- `locationsByVisits` of the statistics page. -/
def Statistics.locationsByVisits (markers : List Marker) : List LocationCount :=
  (arraySort locationCompare
    (markers.map fun marker =>
      { name := marker.name, visits := (marker.visits.getD []).length })).take 5

/-- Value held by a counting object. A count is a number; when the key of a
first increment names a property inherited from `Object.prototype`, the
expression `(stats[key] || 0) + 1` concatenates instead of adding and the value
is a text: the source text of the inherited function `key` followed by `ones`
characters `1`. -/
inductive StatValue where
  | count (n : Nat)
  | text (key : String) (ones : Nat)
  deriving DecidableEq, Repr

/-- The statement `stats[key] = (stats[key] || 0) + 1`. Assigning a text to
`__proto__` creates no property. -/
def bumpStat (stats : Dict StatValue) (key : String) : Dict StatValue :=
  match Dict.lookup stats key with
  | .own (.count n) => Dict.set stats key (.count (n + 1))
  | .own (.text k ones) => Dict.set stats key (.text k (ones + 1))
  | .inherited => if key = "__proto__" then stats else Dict.set stats key (.text key 1)
  | .absent => Dict.set stats key (.count 1)

/-- One round of the `markers.forEach` loop that fills `monthlyStats` (`n = 7`)
or `yearlyStats` (`n = 4`): the marker's own `visitDate` when truthy, then the
truthy `visitDate` of each visit. -/
def bumpMarker (n : Nat) (stats : Dict StatValue) (marker : Marker) : Dict StatValue :=
  let stats :=
    match marker.visitDate with
    | some d => if d ≠ "" then bumpStat stats (substring0 d n) else stats
    | none => stats
  (marker.visits.getD []).foldl
    (fun stats visit =>
      if visit.visitDate ≠ "" then bumpStat stats (substring0 visit.visitDate n) else stats)
    stats

/-- `monthlyStats`. -/
def Statistics.monthlyStats (markers : List Marker) : Dict StatValue :=
  markers.foldl (bumpMarker 7) []

/-- `yearlyStats`. -/
def Statistics.yearlyStats (markers : List Marker) : Dict StatValue :=
  markers.foldl (bumpMarker 4) []

/-- Entry of `monthlyChartData` (`month`, `visits`, `monthName`). -/
structure MonthEntry where
  month : String
  visits : StatValue
  monthName : String
  deriving DecidableEq, Repr

/-- Entry of `yearlyChartData` (`year`, `visits`). -/
structure YearEntry where
  year : String
  visits : StatValue
  deriving DecidableEq, Repr

/-- The sorted entries `Object.entries(stats).sort((a, b) => a[0].localeCompare(b[0]))`. -/
def sortedEntries (localeCompare : LocaleCompare) (stats : Dict StatValue) :
    List (String × StatValue) :=
  arraySort (fun a b => some (localeCompare a.1 b.1)) (objectEntries stats)

/-- `monthlyChartData`. -/
def Statistics.monthlyChartData (localeCompare : LocaleCompare) (markers : List Marker) :
    List MonthEntry :=
  (sortedEntries localeCompare (Statistics.monthlyStats markers)).map fun kv =>
    { month := kv.1, visits := kv.2, monthName := kv.1 }

/-- `yearlyChartData`. -/
def Statistics.yearlyChartData (localeCompare : LocaleCompare) (markers : List Marker) :
    List YearEntry :=
  (sortedEntries localeCompare (Statistics.yearlyStats markers)).map fun kv =>
    { year := kv.1, visits := kv.2 }

/-! ## Poster page (`MapPoster.jsx`) -/

/-- The `stats` object of the poster. -/
structure PosterStats where
  totalLocations : Nat
  totalVisits : Nat
  uniqueDates : Nat
  countries : Nat
  deriving DecidableEq, Repr

/-- `stats` of `MapPoster`. -/
def MapPoster.stats (markers : List Marker) : PosterStats :=
  { totalLocations := markers.length
    totalVisits := markers.foldl (fun sum m => sum + (m.visits.getD []).length) 0
    uniqueDates :=
      (newSet (markers.flatMap fun m => (m.visits.getD []).map fun v => v.visitDate)).length
    countries := (newSet (markers.map fun m => m.name)).length }

/-- `topLocations` of `MapPoster`. -/
def MapPoster.topLocations (markers : List Marker) : List LocationCount :=
  (arraySort locationCompare
    (markers.map fun m => { name := m.name, visits := (m.visits.getD []).length })).take 5

/-! ## Export (`Settings.jsx`) -/

/-- The `metadata` object of the export document. -/
structure ExportMetadata where
  totalMarkers : Nat
  totalVisits : Nat
  deriving DecidableEq, Repr

/-- The `metadata` of `handleExportData`. `stored` is the marker array read back
from the `travelMarkers` entry of local storage, absent when there is no entry. -/
def exportMetadata (stored : Option (List Marker)) : ExportMetadata :=
  { totalMarkers := match stored with
      | some markers => markers.length
      | none => 0
    totalVisits := match stored with
      | some markers => markers.foldl (fun acc m => acc + (m.visits.getD []).length) 0
      | none => 0 }

/-! ## Import and export (`Settings.jsx`) -/

/-- The two entries of local storage the application uses, already parsed: the
marker array under `travelMarkers` and the avatar under `userAvatar`, each absent
when there is no entry. The application writes only the JSON text of a marker
array under `travelMarkers`; an entry whose text cannot be read as such is
represented, where the import reads it, by `StorageFaults.parseStored`. -/
structure Storage where
  travelMarkers : Option (List Marker)
  userAvatar : Option String
  deriving DecidableEq, Repr

/-- The `markers` property of a parsed import document: absent, a value that is
not an array (with its truthiness), or an array of marker records. -/
inductive MarkersField where
  | missing
  | other (truthy : Bool)
  | array (markers : List Marker)
  deriving DecidableEq, Repr

/-- What `JSON.parse` returns for an import file: `null`, or a value whose
`markers` and `userAvatar` properties can be read (an object; a number, string
or boolean has neither property). -/
inductive ParsedDocument where
  | null
  | value (markers : MarkersField) (userAvatar : Option String)
  deriving DecidableEq, Repr

/-- How an import ends: with an error notice, with the notice that the user
declined to overwrite, or with the success notice giving the number of markers. -/
inductive ImportOutcome where
  | rejected (message : String)
  | cancelled
  | imported (count : Nat)
  deriving DecidableEq, Repr

/-- Which of the calls inside the `try` block of `reader.onload` raise an
exception when they are evaluated:

* `getItem`: `localStorage.getItem('travelMarkers')` (access to storage denied);
* `parseStored`: `JSON.parse(existingMarkers).length`, evaluated only when there
  is an entry: the entry holds text that is not JSON, or the text `null`
  (`storage.travelMarkers` then only tells that there is an entry);
* `setMarkers`: `localStorage.setItem('travelMarkers', ...)` (quota exceeded);
* `setAvatar`: `localStorage.setItem('userAvatar', ...)` (quota exceeded).

A `setItem` that raises leaves its entry as it was. -/
structure StorageFaults where
  getItem : Bool
  parseStored : Bool
  setMarkers : Bool
  setAvatar : Bool
  deriving DecidableEq, Repr

/-- The `try` block of `reader.onload` in `handleImportData` after `JSON.parse`
of the file, with its `catch` block. `confirmed` is the answer to
`window.confirm`, asked only when markers are already stored. Reading
`importData.markers` on `null` raises a `TypeError`; this and every exception of
a storage call (`faults`) end in the error notice of the `catch` block, with
local storage as the calls before the exception left it. -/
def importParsed (faults : StorageFaults) (doc : ParsedDocument) (confirmed : Bool)
    (storage : Storage) : ImportOutcome × Storage :=
  match doc with
  | .null => (.rejected "文件解析失败，请确保文件格式正确", storage)
  | .value .missing _ => (.rejected "数据格式不正确", storage)
  | .value (.other _) _ => (.rejected "数据格式不正确", storage)
  | .value (.array markers) userAvatar =>
    if faults.getItem then (.rejected "文件解析失败，请确保文件格式正确", storage)
    else if storage.travelMarkers.isSome && faults.parseStored then
      (.rejected "文件解析失败，请确保文件格式正确", storage)
    else
      let hasExistingData :=
        match storage.travelMarkers with
        | some existing => decide (existing.length > 0)
        | none => false
      if hasExistingData && !confirmed then (.cancelled, storage)
      else if faults.setMarkers then
        (.rejected "文件解析失败，请确保文件格式正确", storage)
      else
        match userAvatar with
        | some a =>
          if a ≠ "" then
            if faults.setAvatar then
              (.rejected "文件解析失败，请确保文件格式正确",
                { travelMarkers := some markers, userAvatar := storage.userAvatar })
            else
              (.imported markers.length,
                { travelMarkers := some markers, userAvatar := some a })
          else
            (.imported markers.length,
              { travelMarkers := some markers, userAvatar := storage.userAvatar })
        | none =>
          (.imported markers.length,
            { travelMarkers := some markers, userAvatar := storage.userAvatar })

/-- The `exportData` object of `handleExportData`. -/
structure ExportDocument where
  version : String
  exportDate : String
  markers : List Marker
  userAvatar : Option String
  metadata : ExportMetadata
  deriving DecidableEq, Repr

/-- `handleExportData`: the document written to the download. -/
def handleExportData (storage : Storage) (nowIso : String) : ExportDocument :=
  { version := "1.0.0"
    exportDate := nowIso
    markers := match storage.travelMarkers with
      | some markers => markers
      | none => []
    userAvatar := storage.userAvatar
    metadata := exportMetadata storage.travelMarkers }

/-- The export document as `JSON.parse` reads it back from the file written with
`JSON.stringify`. -/
def ExportDocument.parsed (d : ExportDocument) : ParsedDocument :=
  .value (.array d.markers) d.userAvatar

/-! ## Tag selection (`TagSelector.jsx`) -/

/-- `handleToggleTag`: the list passed to `onChange`, `none` when `onChange` is
not called. -/
def handleToggleTag (selectedTags : List String) (maxTags : Nat) (tagId : String) :
    Option (List String) :=
  if tagId ∈ selectedTags then
    some (selectedTags.filter fun id => id ≠ tagId)
  else if selectedTags.length < maxTags then
    some (selectedTags ++ [tagId])
  else none

/-! ## Marker detail view (`MarkerDetail_new.jsx`) -/

/-- The comparator `(a, b) => new Date(b.visitDate) - new Date(a.visitDate)`. -/
def visitCompare (parse : DateParser) (a b : Visit) : Option Int :=
  dateSub (parse b.visitDate) (parse a.visitDate)

/-- What a render of `MarkerDetail` leaves behind: the list `visits` it shows and
the marker object it was given, as it is afterwards. -/
structure MarkerDetailRender where
  visits : List Visit
  marker : Marker
  deriving DecidableEq, Repr

/-- The statement `const visits = (marker.visits || []).sort(...)` of
`MarkerDetail`. `sort` sorts the array it is called on in place and returns it:
when the marker has a `visits` array, that array itself is reordered; only an
absent array is replaced by a fresh empty one. -/
def MarkerDetail.render (parse : DateParser) (marker : Marker) : MarkerDetailRender :=
  match marker.visits with
  | some visits =>
    { visits := arraySort (visitCompare parse) visits
      marker := { marker with visits := some (arraySort (visitCompare parse) visits) } }
  | none => { visits := arraySort (visitCompare parse) [], marker := marker }

/-! ## Zoom level of a search result (`Map.jsx`) -/

/-- The fields of a search result that decide the zoom: `type` and `placeRank`,
each possibly absent. -/
structure SearchLocation where
  type : Option String
  placeRank : Option Int
  deriving DecidableEq, Repr

/-- The object literal `zoomMap`. -/
def zoomMap : Dict Nat :=
  [("country", 8), ("state", 10), ("region", 11), ("province", 11), ("city", 13),
   ("town", 14), ("village", 15), ("suburb", 15), ("neighbourhood", 16), ("road", 16),
   ("building", 17), ("amenity", 16)]

/-- Value returned by `getZoomLevelForLocationType`: a zoom level, or the value
of the property of `Object.prototype` that `zoomMap[type]` reads when `type`
names one (a function, or the prototype object). -/
inductive ZoomValue where
  | level (n : Nat)
  | inherited (key : String)
  deriving DecidableEq, Repr

/-- The expression `zoomMap[type] || 14`; an absent `type` reads the key
`undefined`. -/
def zoomByType (type : Option String) : ZoomValue :=
  match Dict.lookup zoomMap (type.getD "undefined") with
  | .own n => if n ≠ 0 then .level n else .level 14
  | .inherited => .inherited (type.getD "undefined")
  | .absent => .level 14

/-- `getZoomLevelForLocationType`. -/
def getZoomLevelForLocationType (location : SearchLocation) : ZoomValue :=
  match location.placeRank with
  | some placeRank =>
    if placeRank ≠ 0 then
      if placeRank ≤ 4 then .level 8
      else if placeRank ≤ 8 then .level 10
      else if placeRank ≤ 12 then .level 12
      else if placeRank ≤ 16 then .level 14
      else if placeRank ≤ 18 then .level 15
      else if placeRank ≤ 20 then .level 16
      else zoomByType location.type
    else zoomByType location.type
  | none => zoomByType location.type

/-! ## Specification-side definitions and sample data -/

/-- A comparator that, on the elements satisfying `valid`, is the difference
`key b - key a`: it sorts by `key`, largest first. -/
def DescendingBy {α : Type} (comparefn : α → α → Option Int) (valid : α → Prop)
    (key : α → Int) : Prop :=
  ∀ a b, valid a → valid b → comparefn a b = some (key b - key a)

/-- The events of the timeline page in store order: for every marker its
initial-visit event, then one event per visit. -/
def flattenedEvents (markers : List Marker) : List TimelineEvent :=
  markers.flatMap fun marker =>
    initialEvent marker :: (marker.visits.getD []).map (visitEvent marker)

/-- A visit with the given id and date. -/
def sampleVisit (id date : String) : Visit :=
  { id := id, visitDate := date, notes := "", photos := [],
    createdAt := "2024-01-01T00:00:00.000Z" }

/-- A marker as `handleSubmitMarker` stores it, with the given id, tags and visits. -/
def sampleMarker (id : Int) (tags : List String) (visits : List Visit) : Marker :=
  { id := .num id, name := "Tokyo Tower", latitude := 35658600, longitude := 139745400,
    tags := some tags, visits := some visits,
    createdAt := some "2024-01-01T00:00:00.000Z", updatedAt := none,
    visitDate := none, notes := none, photos := none }

/-- A state of the marker forms that passes validation. -/
def sampleMarkerForm : MarkerFormState :=
  { name := "Tokyo Tower ", visitDate := "2024-05-01", latitude := 35658600,
    longitude := 139745400, notes := "", photos := [], selectedTags := ["sightseeing"] }

/-- A state of the visit form that passes validation. -/
def sampleVisitForm : VisitFormState :=
  { visitDate := "2024-07-01", notes := " second trip ", photos := [] }

/-- A creation input as the add-marker form submits it. -/
def sampleMarkerData : MarkerData :=
  { name := "Tokyo Tower", latitude := 35658600, longitude := 139745400,
    tags := ["sightseeing"], visits := [sampleVisit "visit_1" "2024-05-01"],
    createdAt := "2024-05-02T08:00:00.000Z" }

/-- The `grouped` object whose group of each listed tag holds the entries `f tag.id`. -/
def groupsOf (tags : List Tag) (f : String → List Memory) : Dict TagGroup :=
  tags.map fun tag => (tag.id, { tag := tag, memories := f tag.id })

/-- The `{marker, visit}` pairs of one marker, in the order of its visits. -/
def markerPairs (parse : DateParser) (marker : Marker) : List Memory :=
  (marker.visits.getD []).map fun visit =>
    { marker := marker, visit := visit, date := parse visit.visitDate }

/-- The flattened pairs whose marker has the tag with id `t` as primary tag, as
the specification words the tag grouping (primary tag by `getPrimaryTag`). -/
def pairsOfTag (parse : DateParser) (markers : List Marker) (t : String) : List Memory :=
  (flattenedPairs parse markers).filter fun e =>
    decide ((getPrimaryTag e.marker.tags).id = t)

/-- No marker with visits has, as first tag, the name of a property inherited
from `Object.prototype`. -/
def NoInheritedPrimaryTag (markers : List Marker) : Prop :=
  ∀ m ∈ markers, 0 < visitCount m → inlinePrimaryTag m ∉ objectPrototypeKeys

/-- The creation input of the example scenario of the specification:
"Tokyo Tower" at 35.6586, 139.7454 with tag `sightseeing` and one visit dated
2024-05-01. -/
def scenarioMarkerData : MarkerData :=
  { name := "Tokyo Tower", latitude := 35658600, longitude := 139745400,
    tags := ["sightseeing"], visits := [sampleVisit "visit_1" "2024-05-01"],
    createdAt := "2024-05-01T08:00:00.000Z" }

/-- The dated entries of one marker, as the specification words the monthly and
yearly aggregation: the marker's own top-level `visitDate` when present and
non-empty, then the non-empty `visitDate` of each visit. -/
def markerDates (marker : Marker) : List String :=
  (match marker.visitDate with
    | some d => if d ≠ "" then [d] else []
    | none => []) ++
  ((marker.visits.getD []).filter fun visit => decide (visit.visitDate ≠ "")).map
    Visit.visitDate

/-- The dated entries of a marker list, in store order. -/
def datedEntries (markers : List Marker) : List String :=
  markers.flatMap markerDates

/-- Number of dated entries whose first `n` characters are `k`. -/
def bucketCount (n : Nat) (markers : List Marker) (k : String) : Nat :=
  ((datedEntries markers).filter fun d => decide (substring0 d n = k)).length

/-- What ECMAScript requires of `localeCompare` as a comparator, in the form the
sort needs: it is a consistent comparison function, so a positive answer is
mirrored by a negative one and "not after" is transitive. Distinct strings may
compare as equal (canonically equivalent strings must). -/
structure ConsistentComparator (cmp : LocaleCompare) : Prop where
  antisymm : ∀ a b, 0 < cmp a b → cmp b a < 0
  trans : ∀ a b c, cmp a b ≤ 0 → cmp b c ≤ 0 → cmp a c ≤ 0

/-- Lexicographic comparison of two sequences of code points. -/
def compareCodePoints : List Nat → List Nat → Int
  | [], [] => 0
  | [], _ :: _ => -1
  | _ :: _, [] => 1
  | a :: as, b :: bs =>
    if a < b then -1 else if b < a then 1 else compareCodePoints as bs

/-- Canonical composition restricted to one pair: `e` followed by the combining
acute accent U+0301 becomes the precomposed letter U+00E9. -/
def composeAcuteE : List Nat → List Nat
  | [] => []
  | [a] => [a]
  | a :: b :: rest =>
    if a = 0x65 ∧ b = 0x301 then 0xE9 :: composeAcuteE rest
    else a :: composeAcuteE (b :: rest)

/-- A comparator that stands in for the host's `localeCompare` in closed
examples: code point order after the composition above, so that it is
consistent and answers `+0` on the two canonically equivalent spellings of the
letter U+00E9, as ECMAScript requires of `localeCompare`; on strings of digits
and hyphens it is the usual order. -/
def sampleLocaleCompare : LocaleCompare := fun a b =>
  compareCodePoints (composeAcuteE (a.toList.map Char.toNat))
    (composeAcuteE (b.toList.map Char.toNat))

/-- The `{ name, visits }` entries of the markers in list order, a missing visits
list counting as 0. -/
def locationEntries (markers : List Marker) : List LocationCount :=
  markers.map fun marker => { name := marker.name, visits := visitCount marker }

/-- The `visitDate` strings of all visits of all markers, in store order. -/
def visitDates (markers : List Marker) : List String :=
  markers.flatMap fun marker => (marker.visits.getD []).map Visit.visitDate

/-- Whether the `markers` property of a parsed document is missing or is not an
array (a document that is `null` has no property at all). -/
def markersMissingOrNotArray : ParsedDocument → Bool
  | .null => true
  | .value .missing _ => true
  | .value (.other _) _ => true
  | .value (.array _) _ => false

/-- Whether an import ended with an error notice. -/
def ImportOutcome.isRejected : ImportOutcome → Bool
  | .rejected _ => true
  | _ => false

/-- Whether some storage call of the import raises when evaluated. -/
def StorageFaults.raises (faults : StorageFaults) : Bool :=
  faults.getItem || faults.parseStored || faults.setMarkers || faults.setAvatar

/-- Local storage on which every call of the import returns normally. -/
def noFaults : StorageFaults :=
  { getItem := false, parseStored := false, setMarkers := false, setAvatar := false }

/-- Local storage that is full: both writes of the import raise
`QuotaExceededError`, reads return normally. -/
def quotaExceeded : StorageFaults :=
  { getItem := false, parseStored := false, setMarkers := true, setAvatar := true }

/-- Local storage with room for the marker array but not for the avatar: only
the write of `userAvatar` raises. -/
def avatarQuotaExceeded : StorageFaults :=
  { getItem := false, parseStored := false, setMarkers := false, setAvatar := true }

/-- The stored marker collection: empty when there is no entry. -/
def Storage.markers (storage : Storage) : List Marker :=
  storage.travelMarkers.getD []

/-- A store holding two markers and an avatar. -/
def sampleStorage : Storage :=
  { travelMarkers := some
      [sampleMarker 1 ["food"] [sampleVisit "visit_1" "2024-05-01"],
       sampleMarker 2 ["culture"] [sampleVisit "visit_2" "2024-06-01"]]
    userAvatar := some "data:image/jpeg;base64,AAAA" }

/-- The count held by a value of a counting object, 0 for a text. -/
def StatValue.countOf : StatValue → Nat
  | .count n => n
  | .text _ _ => 0

/-- Whether a value of a counting object is a number. -/
def StatValue.isCount : StatValue → Bool
  | .count _ => true
  | .text _ _ => false

/-- The sum of a list of values of a counting object as a number: defined when
all of them are numbers (adding a text to a number concatenates). -/
def sumStatValues (values : List StatValue) : Option Nat :=
  if values.all StatValue.isCount then some (values.map StatValue.countOf).sum else none

/-- The values of the entries of a counting object whose key satisfies `p`. -/
def valuesWhere (p : String → Bool) (stats : Dict StatValue) : List StatValue :=
  (stats.filter fun kv => p kv.1).map Prod.snd

/-- No dated entry of the list begins with `valueOf`. -/
def NoValueOfDate (markers : List Marker) : Prop :=
  ∀ d ∈ datedEntries markers, substring0 d 7 ≠ "valueOf"

/-- A marker whose only visit carries the date string `valueOf`. -/
def valueOfMarker : Marker :=
  sampleMarker 1 ["food"] [sampleVisit "visit_1" "valueOf"]

/-! ## Lemmas on `arraySort` -/

section SortLemmas

variable {α : Type} (comparefn : α → α → Option Int)

theorem sortInsert_perm (a : α) (l : List α) :
    (sortInsert comparefn a l).Perm (a :: l) := by
  induction l with
  | nil => exact List.Perm.refl _
  | cons b l ih =>
    unfold sortInsert
    split
    · exact ((ih.cons b).trans (List.Perm.swap a b l))
    · exact List.Perm.refl _

theorem arraySort_perm (l : List α) : (arraySort comparefn l).Perm l := by
  induction l with
  | nil => exact List.Perm.refl _
  | cons a l ih =>
    unfold arraySort
    exact (sortInsert_perm comparefn a _).trans (ih.cons a)

theorem mem_arraySort {l : List α} {x : α} : x ∈ arraySort comparefn l ↔ x ∈ l :=
  (arraySort_perm comparefn l).mem_iff

theorem length_arraySort (l : List α) : (arraySort comparefn l).length = l.length :=
  (arraySort_perm comparefn l).length_eq

variable {comparefn : α → α → Option Int} {valid : α → Prop} {key : α → Int}

theorem comparatorPositive_of_descending (h : DescendingBy comparefn valid key) {a b : α}
    (ha : valid a) (hb : valid b) :
    comparatorPositive (comparefn a b) = true ↔ key a < key b := by
  rw [h a b ha hb]
  simp [comparatorPositive]

theorem sortInsert_pairwise (h : DescendingBy comparefn valid key) (a : α) (l : List α)
    (ha : valid a) (hl : ∀ x ∈ l, valid x)
    (hs : l.Pairwise (fun x y => key y ≤ key x)) :
    (sortInsert comparefn a l).Pairwise (fun x y => key y ≤ key x) := by
  induction l with
  | nil => simp [sortInsert]
  | cons b l ih =>
    have hb : valid b := hl b (List.mem_cons_self _ _)
    have hl2 : ∀ x ∈ l, valid x := fun x hx => hl x (List.mem_cons_of_mem _ hx)
    rw [List.pairwise_cons] at hs
    unfold sortInsert
    by_cases hc : comparatorPositive (comparefn a b) = true
    · rw [if_pos hc]
      have hlt : key a < key b := (comparatorPositive_of_descending h ha hb).1 hc
      rw [List.pairwise_cons]
      refine ⟨?_, ih hl2 hs.2⟩
      intro y hy
      rcases List.mem_cons.1 ((sortInsert_perm comparefn a l).mem_iff.1 hy) with e | m
      · exact e ▸ le_of_lt hlt
      · exact hs.1 y m
    · rw [if_neg hc]
      have hle : key b ≤ key a := by
        by_contra hn
        exact hc ((comparatorPositive_of_descending h ha hb).2 (lt_of_not_le hn))
      rw [List.pairwise_cons]
      refine ⟨?_, List.pairwise_cons.2 hs⟩
      intro y hy
      rcases List.mem_cons.1 hy with e | m
      · exact e ▸ hle
      · exact le_trans (hs.1 y m) hle

theorem arraySort_pairwise (h : DescendingBy comparefn valid key) (l : List α)
    (hl : ∀ x ∈ l, valid x) :
    (arraySort comparefn l).Pairwise (fun x y => key y ≤ key x) := by
  induction l with
  | nil => simp [arraySort]
  | cons a l ih =>
    have hl2 : ∀ x ∈ l, valid x := fun x hx => hl x (List.mem_cons_of_mem _ hx)
    unfold arraySort
    exact sortInsert_pairwise h a _ (hl a (List.mem_cons_self _ _))
      (fun x hx => hl2 x ((mem_arraySort comparefn).1 hx)) (ih hl2)

theorem sortInsert_filter (h : DescendingBy comparefn valid key) (p : α → Bool)
    (hp : ∀ a b, valid a → valid b → p a = true → p b = true → key a = key b)
    (a : α) (l : List α) (ha : valid a) (hl : ∀ x ∈ l, valid x) :
    (sortInsert comparefn a l).filter p = (a :: l).filter p := by
  induction l with
  | nil => simp [sortInsert]
  | cons b l ih =>
    have hb : valid b := hl b (List.mem_cons_self _ _)
    have hl2 : ∀ x ∈ l, valid x := fun x hx => hl x (List.mem_cons_of_mem _ hx)
    unfold sortInsert
    by_cases hc : comparatorPositive (comparefn a b) = true
    · rw [if_pos hc]
      have hlt : key a < key b := (comparatorPositive_of_descending h ha hb).1 hc
      have hnot : ¬ (p a = true ∧ p b = true) := fun hab =>
        absurd (hp a b ha hb hab.1 hab.2) (ne_of_lt hlt)
      rw [List.filter_cons, ih hl2]
      by_cases hpa : p a = true
      · have hpb : p b = false := by
          cases hq : p b
          · rfl
          · exact absurd ⟨hpa, hq⟩ hnot
        simp [List.filter_cons, hpa, hpb]
      · have hpa2 : p a = false := by simpa using hpa
        simp [List.filter_cons, hpa2]
    · rw [if_neg hc]

theorem arraySort_filter (h : DescendingBy comparefn valid key) (p : α → Bool)
    (hp : ∀ a b, valid a → valid b → p a = true → p b = true → key a = key b)
    (l : List α) (hl : ∀ x ∈ l, valid x) :
    (arraySort comparefn l).filter p = l.filter p := by
  induction l with
  | nil => simp [arraySort]
  | cons a l ih =>
    have hl2 : ∀ x ∈ l, valid x := fun x hx => hl x (List.mem_cons_of_mem _ hx)
    unfold arraySort
    rw [sortInsert_filter h p hp a _ (hl a (List.mem_cons_self _ _))
      (fun x hx => hl2 x ((mem_arraySort comparefn).1 hx))]
    rw [List.filter_cons, List.filter_cons, ih hl2]

end SortLemmas

/-! ## Lemmas on the flattening loops -/

theorem foldl_push_eq_append_map {β γ : Type} (g : β → γ) (l : List β) (acc : List γ) :
    l.foldl (fun acc x => acc ++ [g x]) acc = acc ++ l.map g := by
  induction l generalizing acc with
  | nil => simp
  | cons x l ih => simp [ih]

theorem timelineMemoriesUnsorted_eq (parse : DateParser) (markers : List Marker) :
    timelineMemoriesUnsorted parse markers = flattenedPairs parse markers := by
  unfold timelineMemoriesUnsorted flattenedPairs
  suffices hgen : ∀ (acc : List Memory),
      markers.foldl
        (fun memories marker =>
          match marker.visits with
          | some visits =>
            if visits.length > 0 then
              visits.foldl
                (fun memories visit =>
                  memories ++ [{ marker := marker, visit := visit, date := parse visit.visitDate }])
                memories
            else memories
          | none => memories)
        acc
      = acc ++ markers.flatMap fun marker =>
          (marker.visits.getD []).map fun visit =>
            { marker := marker, visit := visit, date := parse visit.visitDate } by
    simpa using hgen []
  induction markers with
  | nil => intro acc; simp
  | cons m ms ih =>
    intro acc
    rw [List.foldl_cons, ih, List.flatMap_cons]
    cases hv : m.visits with
    | none => simp
    | some visits =>
      cases visits with
      | nil => simp
      | cons v vs =>
        simp [foldl_push_eq_append_map
          (fun visit => ({ marker := m, visit := visit, date := parse visit.visitDate } : Memory))]

/-! ## Sidebar timeline -/

theorem memoryCompare_descending :
    DescendingBy memoryCompare (fun e : Memory => e.date.isSome = true)
      (fun e => e.date.getD 0) := by
  intro a b ha hb
  cases hda : a.date with
  | none => simp [hda] at ha
  | some x =>
    cases hdb : b.date with
    | none => simp [hdb] at hb
    | some y => simp [memoryCompare, dateSub, hda, hdb]

theorem flattenedPairs_valid (parse : DateParser) (markers : List Marker)
    (hvalid : AllDatesValid parse markers) :
    ∀ e ∈ flattenedPairs parse markers, e.date.isSome = true := by
  intro e he
  simp only [flattenedPairs, List.mem_flatMap, List.mem_map] at he
  obtain ⟨m, hm, v, hv, rfl⟩ := he
  exact hvalid m hm v hv

theorem mem_flattenedPairs {parse : DateParser} {markers : List Marker} {e : Memory} :
    e ∈ flattenedPairs parse markers ↔
      ∃ m ∈ markers, ∃ v ∈ m.visits.getD [],
        e = { marker := m, visit := v, date := parse v.visitDate } := by
  simp only [flattenedPairs, List.mem_flatMap, List.mem_map]
  constructor
  · rintro ⟨m, hm, v, hv, rfl⟩
    exact ⟨m, hm, v, hv, rfl⟩
  · rintro ⟨m, hm, v, hv, rfl⟩
    exact ⟨m, hm, v, hv, rfl⟩

theorem timelineMemories_perm (parse : DateParser) (markers : List Marker) :
    (timelineMemories parse markers).Perm (flattenedPairs parse markers) := by
  unfold timelineMemories
  rw [timelineMemoriesUnsorted_eq]
  exact arraySort_perm _ _

/-- The sidebar timeline away from the failing input of C1: on every marker list
whose visit dates all parse to valid dates, it is the flattened list of pairs (markers in list
order, each marker's visits in list order) stably sorted by date, newest first:
it is a permutation of the flattened pairs, no entry is preceded by an older
one, and for every date the entries of that date appear in their flattened
order. -/
theorem timelineMemories_sorted_stable (parse : DateParser) (markers : List Marker)
    (hvalid : AllDatesValid parse markers) :
    (timelineMemories parse markers).Perm (flattenedPairs parse markers) ∧
    (timelineMemories parse markers).Pairwise NotOlder ∧
    ∀ d : Int,
      (timelineMemories parse markers).filter (fun e => decide (e.date = some d)) =
        (flattenedPairs parse markers).filter (fun e => decide (e.date = some d)) := by
  have hv := flattenedPairs_valid parse markers hvalid
  refine ⟨timelineMemories_perm parse markers, ?_, ?_⟩
  · unfold timelineMemories
    rw [timelineMemoriesUnsorted_eq]
    refine (arraySort_pairwise memoryCompare_descending _ hv).imp ?_
    intro a b hab da db hda hdb
    simpa [hda, hdb] using hab
  · intro d
    unfold timelineMemories
    rw [timelineMemoriesUnsorted_eq]
    refine arraySort_filter memoryCompare_descending _ ?_ _ hv
    intro a b _ _ hpa hpb
    have ea : a.date = some d := by simpa using hpa
    have eb : b.date = some d := by simpa using hpb
    simp [ea, eb]

/-- The previous theorem applied to a marker with two dated visits. -/
theorem timelineMemories_sorted_stable_witness :
    AllDatesValid parseIsoDate
      [sampleMarker 1 ["food"]
        [sampleVisit "visit_1" "2024-05-01", sampleVisit "visit_2" "2024-06-01"]] ∧
    ((timelineMemories parseIsoDate
      [sampleMarker 1 ["food"]
        [sampleVisit "visit_1" "2024-05-01", sampleVisit "visit_2" "2024-06-01"]]).Perm
      (flattenedPairs parseIsoDate
        [sampleMarker 1 ["food"]
          [sampleVisit "visit_1" "2024-05-01", sampleVisit "visit_2" "2024-06-01"]]) ∧
    (timelineMemories parseIsoDate
      [sampleMarker 1 ["food"]
        [sampleVisit "visit_1" "2024-05-01", sampleVisit "visit_2" "2024-06-01"]]).Pairwise
      NotOlder ∧
    ∀ d : Int,
      (timelineMemories parseIsoDate
        [sampleMarker 1 ["food"]
          [sampleVisit "visit_1" "2024-05-01", sampleVisit "visit_2" "2024-06-01"]]).filter
          (fun e => decide (e.date = some d)) =
        (flattenedPairs parseIsoDate
          [sampleMarker 1 ["food"]
            [sampleVisit "visit_1" "2024-05-01", sampleVisit "visit_2" "2024-06-01"]]).filter
          (fun e => decide (e.date = some d))) :=
  have h : AllDatesValid parseIsoDate
      [sampleMarker 1 ["food"]
        [sampleVisit "visit_1" "2024-05-01", sampleVisit "visit_2" "2024-06-01"]] := by
    unfold AllDatesValid
    decide
  ⟨h, timelineMemories_sorted_stable parseIsoDate _ h⟩

/-- C1, evaluation at the failing input: with a visit whose date does not parse
between two dated visits, the comparator answers `NaN` for both neighbouring
pairs, the sort leaves the list in store order and the 2024 visit comes after
the 2020 visit, so the timeline is not sorted newest first. -/
theorem timelineMemories_invalid_date_unsorted :
    (timelineMemories parseIsoDate
      [sampleMarker 1 ["food"]
        [sampleVisit "visit_1" "2020-01-01", sampleVisit "visit_2" "",
         sampleVisit "visit_3" "2024-01-01"]]).map (fun e => e.visit.visitDate)
      = ["2020-01-01", "", "2024-01-01"] ∧
    ¬ (timelineMemories parseIsoDate
      [sampleMarker 1 ["food"]
        [sampleVisit "visit_1" "2020-01-01", sampleVisit "visit_2" "",
         sampleVisit "visit_3" "2024-01-01"]]).Pairwise NotOlder := by
  refine ⟨by decide, ?_⟩
  intro h
  have e : timelineMemories parseIsoDate
      [sampleMarker 1 ["food"]
        [sampleVisit "visit_1" "2020-01-01", sampleVisit "visit_2" "",
         sampleVisit "visit_3" "2024-01-01"]] =
      [ { marker := sampleMarker 1 ["food"]
            [sampleVisit "visit_1" "2020-01-01", sampleVisit "visit_2" "",
             sampleVisit "visit_3" "2024-01-01"],
          visit := sampleVisit "visit_1" "2020-01-01", date := some 1577836800000 },
        { marker := sampleMarker 1 ["food"]
            [sampleVisit "visit_1" "2020-01-01", sampleVisit "visit_2" "",
             sampleVisit "visit_3" "2024-01-01"],
          visit := sampleVisit "visit_2" "", date := none },
        { marker := sampleMarker 1 ["food"]
            [sampleVisit "visit_1" "2020-01-01", sampleVisit "visit_2" "",
             sampleVisit "visit_3" "2024-01-01"],
          visit := sampleVisit "visit_3" "2024-01-01", date := some 1704067200000 } ] := by
    decide
  rw [e] at h
  have h13 := (List.pairwise_cons.1 h).1 _ (List.mem_cons_of_mem _ (List.mem_cons_self _ _))
  have := h13 1577836800000 1704067200000 rfl rfl
  omega


/-! ## Timeline page -/

theorem timelineEventsUnsorted_eq (markers : List Marker) :
    timelineEventsUnsorted markers = flattenedEvents markers := by
  unfold timelineEventsUnsorted flattenedEvents
  suffices hgen : ∀ (acc : List TimelineEvent),
      markers.foldl
        (fun events marker =>
          let events := events ++ [initialEvent marker]
          match marker.visits with
          | some visits =>
            if visits.length > 0 then
              visits.foldl (fun events visit => events ++ [visitEvent marker visit]) events
            else events
          | none => events)
        acc
      = acc ++ markers.flatMap fun marker =>
          initialEvent marker :: (marker.visits.getD []).map (visitEvent marker) by
    simpa using hgen []
  induction markers with
  | nil => intro acc; simp
  | cons m ms ih =>
    intro acc
    rw [List.foldl_cons, ih, List.flatMap_cons]
    cases hv : m.visits with
    | none => simp
    | some visits =>
      cases visits with
      | nil => simp
      | cons v vs => simp [foldl_push_eq_append_map (visitEvent m)]

theorem length_flattenedEvents (markers : List Marker) :
    (flattenedEvents markers).length = markers.length + (markers.map visitCount).sum := by
  induction markers with
  | nil => simp [flattenedEvents]
  | cons m ms ih =>
    simp only [flattenedEvents, List.flatMap_cons, List.length_append, List.length_cons,
      List.length_map, List.map_cons, List.sum_cons] at ih ⊢
    rw [ih]
    simp only [visitCount]
    omega

/-- What the event list of the timeline page holds, whatever the markers: for
every marker the event pushed before its visits, dated by the marker's own
top-level `visitDate` (absent on the markers the application creates), and one
event per visit. It is a permutation of these events, so its length exceeds the
number of visits by the number of markers. -/
theorem timelineEvents_content (parse : DateParser) (markers : List Marker) :
    (timelineEvents parse markers).Perm (flattenedEvents markers) ∧
    (timelineEvents parse markers).length =
      markers.length + (markers.map visitCount).sum ∧
    ∀ e ∈ timelineEvents parse markers,
      (e.isInitialVisit = true ∧ ∃ m ∈ markers, e.date = m.visitDate) ∨
      (e.isInitialVisit = false ∧
        ∃ m ∈ markers, ∃ v ∈ m.visits.getD [], e.date = some v.visitDate) := by
  have hperm : (timelineEvents parse markers).Perm (flattenedEvents markers) := by
    unfold timelineEvents
    rw [timelineEventsUnsorted_eq]
    exact arraySort_perm _ _
  refine ⟨hperm, ?_, ?_⟩
  · rw [hperm.length_eq, length_flattenedEvents]
  · intro e he
    have he2 := hperm.mem_iff.1 he
    simp only [flattenedEvents, List.mem_flatMap, List.mem_cons, List.mem_map] at he2
    obtain ⟨m, hm, h | ⟨v, hv, h⟩⟩ := he2
    · left
      subst h
      exact ⟨rfl, m, hm, rfl⟩
    · right
      subst h
      exact ⟨rfl, m, hm, v, hv, rfl⟩

/-- C2, evaluation at the failing input: for the one marker the add-marker form
creates (one visit, no top-level `visitDate`) the event list has two entries,
not one: the event pushed before the visits, whose date is `undefined`, and the
event of the visit. -/
theorem timelineEvents_undated_initial_event :
    (handleSubmitMarker 1 sampleMarkerData []).map (fun m => (m.visitDate, m.visits)) =
      [(none, some [sampleVisit "visit_1" "2024-05-01"])] ∧
    ((handleSubmitMarker 1 sampleMarkerData []).map visitCount).sum = 1 ∧
    (timelineEvents parseIsoDate (handleSubmitMarker 1 sampleMarkerData [])).length = 2 ∧
    (timelineEvents parseIsoDate (handleSubmitMarker 1 sampleMarkerData [])).map
        (fun e => (e.isInitialVisit, e.date)) =
      [(true, none), (false, some "2024-05-01")] := by
  decide

/-- The undated events also defeat the sort of the timeline page: with two
markers as the application creates them, visited on 2020-01-01 and 2024-01-01,
every neighbouring comparison involves an `Invalid Date`, the list stays as
pushed and the 2020 visit is shown ahead of the 2024 visit. -/
theorem timelineEvents_undated_events_unsorted :
    (timelineEvents parseIsoDate
      [sampleMarker 1 ["food"] [sampleVisit "visit_1" "2020-01-01"],
       sampleMarker 2 ["food"] [sampleVisit "visit_2" "2024-01-01"]]).map
        (fun e => (e.isInitialVisit, e.date)) =
      [(true, none), (false, some "2020-01-01"), (true, none),
       (false, some "2024-01-01")] := by
  decide

/-! ## Tag-grouped view -/

/-- C3, evaluation at the failing input: a marker whose first tag is the name of
a property inherited from `Object.prototype` passes the guard
`grouped[primaryTag]` and makes `tagGroupedMemories` raise a `TypeError`, while
`getPrimaryTag` resolves the same tag list to the default tag. -/
theorem tagGroupedMemories_inherited_key_raises (parse : DateParser) :
    tagGroupedMemories parse
      [sampleMarker 1 ["constructor"] [sampleVisit "visit_1" "2024-05-01"]]
      = Except.error JsError.typeError ∧
    getPrimaryTag (sampleMarker 1 ["constructor"]
      [sampleVisit "visit_1" "2024-05-01"]).tags = DEFAULT_TAG := by
  constructor
  · rfl
  · decide


/-! ## Store handlers -/

theorem EditMarkerForm.handleSubmit_fields (marker : Marker) (f : MarkerFormState)
    (nowIso : String) (updated : Marker)
    (h : EditMarkerForm.handleSubmit marker f nowIso = some updated) :
    updated.id = marker.id ∧ updated.createdAt = marker.createdAt ∧
      updated.visits = none := by
  unfold EditMarkerForm.handleSubmit at h
  split at h
  · cases h
    exact ⟨rfl, rfl, rfl⟩
  · cases h

/-- C4, evaluation at the failing input: editing a marker that has one visit
replaces it by the form's object, which keeps the id and `createdAt` but has no
`visits`, so the visit is lost. -/
theorem submitEdit_drops_visits :
    (sampleMarker 1 ["food"] [sampleVisit "visit_1" "2024-05-01"]).visits
      = some [sampleVisit "visit_1" "2024-05-01"] ∧
    (submitEdit (sampleMarker 1 ["food"] [sampleVisit "visit_1" "2024-05-01"])
      sampleMarkerForm "2024-08-01T00:00:00.000Z"
      [sampleMarker 1 ["food"] [sampleVisit "visit_1" "2024-05-01"]]).map
        (fun m => (m.id, m.createdAt, m.visits))
      = [(MarkerId.num 1, some "2024-01-01T00:00:00.000Z", none)] := by
  decide

/-- C5: `handleSubmitMarker` appends exactly one marker: the result is one longer,
its first `prev.length` entries are the old list, and its last entry carries the
fields of the input, only the id being assigned. -/
theorem handleSubmitMarker_appends (now : Int) (markerData : MarkerData)
    (prev : List Marker) :
    (handleSubmitMarker now markerData prev).length = prev.length + 1 ∧
    (handleSubmitMarker now markerData prev).take prev.length = prev ∧
    ∃ m, handleSubmitMarker now markerData prev = prev ++ [m] ∧
      m.id = MarkerId.num now ∧
      m.name = markerData.name ∧ m.latitude = markerData.latitude ∧
      m.longitude = markerData.longitude ∧ m.tags = some markerData.tags ∧
      m.visits = some markerData.visits ∧ m.createdAt = some markerData.createdAt ∧
      m.updatedAt = none ∧ m.visitDate = none ∧ m.notes = none ∧ m.photos = none := by
  refine ⟨by simp [handleSubmitMarker], by simp [handleSubmitMarker], ?_⟩
  exact ⟨newMarker now markerData, rfl, rfl, rfl, rfl, rfl, rfl, rfl, rfl, rfl, rfl, rfl, rfl⟩

/-- C6 (amended): the id assigned by `handleSubmitMarker` is the clock reading;
when the ids of the list are pairwise distinct and no marker of the list already
has that reading as its id, the new id differs from every id of the list and the
ids of the new list are pairwise distinct. -/
theorem handleSubmitMarker_ids_nodup (now : Int) (markerData : MarkerData)
    (prev : List Marker) (hnodup : (prev.map Marker.id).Nodup)
    (hfresh : ∀ m ∈ prev, m.id ≠ MarkerId.num now) :
    (newMarker now markerData).id = MarkerId.num now ∧
    (∀ m ∈ prev, (newMarker now markerData).id ≠ m.id) ∧
    ((handleSubmitMarker now markerData prev).map Marker.id).Nodup := by
  refine ⟨rfl, fun m hm e => hfresh m hm e.symm, ?_⟩
  simp only [handleSubmitMarker, List.map_append, List.map_cons, List.map_nil]
  rw [List.nodup_append]
  refine ⟨hnodup, List.nodup_singleton _, ?_⟩
  intro x hx hx2
  rw [List.mem_singleton] at hx2
  subst hx2
  obtain ⟨m, hm, e⟩ := List.mem_map.1 hx
  exact hfresh m hm e

/-- Witness of C6 (amended): a list holding id 1000 and a creation at clock
reading 2000. -/
theorem handleSubmitMarker_ids_nodup_witness :
    ([sampleMarker 1000 [] []].map Marker.id).Nodup ∧
    (∀ m ∈ [sampleMarker 1000 [] []], m.id ≠ MarkerId.num 2000) ∧
    ((newMarker 2000 sampleMarkerData).id = MarkerId.num 2000 ∧
     (∀ m ∈ [sampleMarker 1000 [] []], (newMarker 2000 sampleMarkerData).id ≠ m.id) ∧
     ((handleSubmitMarker 2000 sampleMarkerData [sampleMarker 1000 [] []]).map
        Marker.id).Nodup) :=
  ⟨by decide, by decide,
    handleSubmitMarker_ids_nodup 2000 sampleMarkerData [sampleMarker 1000 [] []]
      (by decide) (by decide)⟩

/-- C6 as stated fails: when the clock reading equals the id of a stored marker,
the new marker gets that same id and the ids are no longer pairwise distinct. -/
theorem handleSubmitMarker_id_clash_counterexample :
    ([sampleMarker 1000 [] []].map Marker.id).Nodup ∧
    (newMarker 1000 sampleMarkerData).id = (sampleMarker 1000 [] []).id ∧
    ¬ ((handleSubmitMarker 1000 sampleMarkerData [sampleMarker 1000 [] []]).map
        Marker.id).Nodup := by
  decide

/-- C7: after a confirmed delete no marker of the list has the deleted id, the
result is a sublist of the old list (kept markers unchanged, in their order)
that contains every marker with a different id as often as before, and no entry
of the sidebar timeline of the result belongs to a marker with the deleted id. -/
theorem handleConfirmDelete_removes (parse : DateParser) (deletingMarker : Marker)
    (prev : List Marker) :
    (∀ m ∈ handleConfirmDelete (some deletingMarker) prev, m.id ≠ deletingMarker.id) ∧
    (handleConfirmDelete (some deletingMarker) prev).Sublist prev ∧
    (∀ m : Marker, m.id ≠ deletingMarker.id →
      (handleConfirmDelete (some deletingMarker) prev).count m = prev.count m) ∧
    ∀ e ∈ timelineMemories parse (handleConfirmDelete (some deletingMarker) prev),
      e.marker.id ≠ deletingMarker.id := by
  have hmem : ∀ m ∈ handleConfirmDelete (some deletingMarker) prev,
      m.id ≠ deletingMarker.id := by
    intro m hm
    simp only [handleConfirmDelete, List.mem_filter, decide_eq_true_eq] at hm
    exact hm.2
  refine ⟨hmem, ?_, ?_, ?_⟩
  · exact List.filter_sublist _
  · intro m hm
    simp only [handleConfirmDelete]
    rw [List.count_filter]
    simpa using hm
  · intro e he
    have he2 := (timelineMemories_perm parse _).mem_iff.1 he
    obtain ⟨m, hm, v, _, rfl⟩ := mem_flattenedPairs.1 he2
    exact hmem m hm

/-- C8 (amended): deleting with an id that no marker of the list has raises
nothing: the handler completes with its success notice and the list is
unchanged. -/
theorem runConfirmDelete_absent (deletingMarker : Marker) (prev : List Marker)
    (habsent : ∀ m ∈ prev, m.id ≠ deletingMarker.id) :
    runConfirmDelete deletingMarker prev =
      Except.ok { markers := prev
                  successNotice := "已删除标记：\"" ++ deletingMarker.name ++ "\"" } := by
  have hfilter : prev.filter (fun m => decide (m.id ≠ deletingMarker.id)) = prev := by
    rw [List.filter_eq_self]
    intro m hm
    simpa using habsent m hm
  simp only [runConfirmDelete, handleConfirmDelete, hfilter]

/-- Witness of C8 (amended): deleting id 2 from a list that holds only id 1. -/
theorem runConfirmDelete_absent_witness :
    (∀ m ∈ [sampleMarker 1 [] []], m.id ≠ (sampleMarker 2 [] []).id) ∧
    runConfirmDelete (sampleMarker 2 [] []) [sampleMarker 1 [] []]
      = Except.ok { markers := [sampleMarker 1 [] []]
                    successNotice := "已删除标记：\"" ++ (sampleMarker 2 [] []).name ++ "\"" } :=
  ⟨by decide, runConfirmDelete_absent (sampleMarker 2 [] []) [sampleMarker 1 [] []]
    (by decide)⟩

/-- C8 as stated fails: deleting id 2 from a list that holds only id 1 does not
fail with `NotFoundError`; it completes and leaves the list as it was. -/
theorem runConfirmDelete_absent_counterexample :
    (∀ m ∈ [sampleMarker 1 [] []], m.id ≠ (sampleMarker 2 [] []).id) ∧
    runConfirmDelete (sampleMarker 2 [] []) [sampleMarker 1 [] []]
      ≠ Except.error StoreError.NotFoundError ∧
    (runConfirmDelete (sampleMarker 2 [] []) [sampleMarker 1 [] []]).toOption.map
      HandlerOutcome.markers = some [sampleMarker 1 [] []] := by
  refine ⟨by decide, ?_, by decide⟩
  intro h
  cases h

/-- C9: `handleAddVisit` on a list whose entry at position `i` has the given id
puts at position `i` the same marker with the visit appended as last element of
its visits list (an absent list counting as empty), one longer than before, and
with `updatedAt` refreshed; every other field is unchanged. -/
theorem handleAddVisit_appends (markerId : MarkerId) (visitData : Visit) (nowIso : String)
    (prev : List Marker) (i : Nat) (m : Marker)
    (hm : prev[i]? = some m) (hid : m.id = markerId) :
    ∃ m2, (handleAddVisit markerId visitData nowIso prev)[i]? = some m2 ∧
      m2.visits = some (m.visits.getD [] ++ [visitData]) ∧
      (m2.visits.getD []).length = (m.visits.getD []).length + 1 ∧
      (m2.visits.getD []).getLast? = some visitData ∧
      m2.updatedAt = some nowIso ∧
      m2.id = m.id ∧ m2.name = m.name ∧ m2.latitude = m.latitude ∧
      m2.longitude = m.longitude ∧ m2.tags = m.tags ∧ m2.createdAt = m.createdAt ∧
      m2.visitDate = m.visitDate ∧ m2.notes = m.notes ∧ m2.photos = m.photos := by
  refine ⟨{ m with visits := some (m.visits.getD [] ++ [visitData]),
                   updatedAt := some nowIso }, ?_, rfl, ?_, ?_, rfl, rfl, rfl, rfl, rfl, rfl,
    rfl, rfl, rfl, rfl⟩
  · simp [handleAddVisit, List.getElem?_map, hm, hid]
  · simp
  · simp

/-- Witness of C9: adding a second visit to the only marker of a list. -/
theorem handleAddVisit_appends_witness :
    [sampleMarker 1 ["food"] [sampleVisit "visit_1" "2024-05-01"]][0]?
      = some (sampleMarker 1 ["food"] [sampleVisit "visit_1" "2024-05-01"]) ∧
    ∃ m2, (handleAddVisit (MarkerId.num 1) (sampleVisit "visit_2" "2024-06-01")
        "2024-06-02T00:00:00.000Z"
        [sampleMarker 1 ["food"] [sampleVisit "visit_1" "2024-05-01"]])[0]? = some m2 ∧
      m2.visits = some ((sampleMarker 1 ["food"]
        [sampleVisit "visit_1" "2024-05-01"]).visits.getD []
          ++ [sampleVisit "visit_2" "2024-06-01"]) ∧
      (m2.visits.getD []).length = ((sampleMarker 1 ["food"]
        [sampleVisit "visit_1" "2024-05-01"]).visits.getD []).length + 1 ∧
      (m2.visits.getD []).getLast? = some (sampleVisit "visit_2" "2024-06-01") ∧
      m2.updatedAt = some "2024-06-02T00:00:00.000Z" ∧
      m2.id = (sampleMarker 1 ["food"] [sampleVisit "visit_1" "2024-05-01"]).id ∧
      m2.name = (sampleMarker 1 ["food"] [sampleVisit "visit_1" "2024-05-01"]).name ∧
      m2.latitude = (sampleMarker 1 ["food"] [sampleVisit "visit_1" "2024-05-01"]).latitude ∧
      m2.longitude
        = (sampleMarker 1 ["food"] [sampleVisit "visit_1" "2024-05-01"]).longitude ∧
      m2.tags = (sampleMarker 1 ["food"] [sampleVisit "visit_1" "2024-05-01"]).tags ∧
      m2.createdAt
        = (sampleMarker 1 ["food"] [sampleVisit "visit_1" "2024-05-01"]).createdAt ∧
      m2.visitDate
        = (sampleMarker 1 ["food"] [sampleVisit "visit_1" "2024-05-01"]).visitDate ∧
      m2.notes = (sampleMarker 1 ["food"] [sampleVisit "visit_1" "2024-05-01"]).notes ∧
      m2.photos = (sampleMarker 1 ["food"] [sampleVisit "visit_1" "2024-05-01"]).photos :=
  ⟨rfl, handleAddVisit_appends (MarkerId.num 1) (sampleVisit "visit_2" "2024-06-01")
    "2024-06-02T00:00:00.000Z"
    [sampleMarker 1 ["food"] [sampleVisit "visit_1" "2024-05-01"]] 0
    (sampleMarker 1 ["food"] [sampleVisit "visit_1" "2024-05-01"]) rfl rfl⟩

/-- The visit the visit form submits when it edits `visit` and validation
passes. -/
theorem VisitRecordForm.handleSubmit_edit (visit : Visit) (f : VisitFormState)
    (nowMs : Int) (formIso : String) (hvalid : validateVisitForm f = true) :
    VisitRecordForm.handleSubmit (some visit) f nowMs formIso =
      some { id := strOr visit.id ("visit_" ++ toString nowMs)
             visitDate := f.visitDate
             notes := strOr (jsTrim f.notes) ""
             photos := submittedPhotos f.photos
             createdAt := strOr visit.createdAt formIso } := by
  simp [VisitRecordForm.handleSubmit, hvalid]

/-- C10 (amended): when the visit form validates and the edited visit has a
non-empty id, submitting the edit puts at the marker's position the same marker
with a visits list of the same length in which every visit with that id is
replaced by the edited visit and every visit with another id is unchanged; the
edited visit carries the form's date, trimmed notes and photos, keeps the id of
the original visit, and keeps its `createdAt` when that is non-empty. -/
theorem submitVisitEdit_replaces (markerId : MarkerId) (visit : Visit) (f : VisitFormState)
    (nowMs : Int) (formIso nowIso : String) (prev : List Marker) (i : Nat) (m : Marker)
    (hvalid : validateVisitForm f = true) (hidv : visit.id ≠ "")
    (hm : prev[i]? = some m) (hid : m.id = markerId) :
    ∃ edited m2,
      VisitRecordForm.handleSubmit (some visit) f nowMs formIso = some edited ∧
      (submitVisitEdit markerId visit f nowMs formIso nowIso prev)[i]? = some m2 ∧
      (m2.visits.getD []).length = (m.visits.getD []).length ∧
      (∀ (j : Nat) (w : Visit), (m.visits.getD [])[j]? = some w →
        (m2.visits.getD [])[j]? = some (if w.id = visit.id then edited else w)) ∧
      edited.id = visit.id ∧
      (visit.createdAt ≠ "" → edited.createdAt = visit.createdAt) ∧
      edited.visitDate = f.visitDate ∧ edited.notes = jsTrim f.notes ∧
      edited.photos = submittedPhotos f.photos := by
  have hsub := VisitRecordForm.handleSubmit_edit visit f nowMs formIso hvalid
  refine ⟨_, { m with
      visits := some ((m.visits.getD []).map fun w =>
        if w.id = strOr visit.id ("visit_" ++ toString nowMs) then
          ({ id := strOr visit.id ("visit_" ++ toString nowMs)
             visitDate := f.visitDate
             notes := strOr (jsTrim f.notes) ""
             photos := submittedPhotos f.photos
             createdAt := strOr visit.createdAt formIso } : Visit)
        else w)
      updatedAt := some nowIso }, hsub, ?_, ?_, ?_, ?_, ?_, rfl, ?_, rfl⟩
  · simp [submitVisitEdit, hsub, handleEditVisit, List.getElem?_map, hm, hid]
  · simp
  · intro j w hw
    simp [List.getElem?_map, hw, strOr, hidv]
  · simp [strOr, hidv]
  · intro hc
    simp [strOr, hc]
  · simp only [strOr]
    split
    · rename_i h
      exact h.symm
    · rfl

/-- Witness of C10 (amended): editing the first of two visits of a marker. -/
theorem submitVisitEdit_replaces_witness :
    validateVisitForm sampleVisitForm = true ∧
    (sampleVisit "visit_1" "2024-05-01").id ≠ "" ∧
    [sampleMarker 1 ["food"]
      [sampleVisit "visit_1" "2024-05-01", sampleVisit "visit_2" "2024-06-01"]][0]?
      = some (sampleMarker 1 ["food"]
          [sampleVisit "visit_1" "2024-05-01", sampleVisit "visit_2" "2024-06-01"]) ∧
    ∃ edited m2,
      VisitRecordForm.handleSubmit (some (sampleVisit "visit_1" "2024-05-01"))
        sampleVisitForm 1720000000000 "2024-07-03T00:00:00.000Z" = some edited ∧
      (submitVisitEdit (MarkerId.num 1) (sampleVisit "visit_1" "2024-05-01") sampleVisitForm
        1720000000000 "2024-07-03T00:00:00.000Z" "2024-07-03T00:00:00.001Z"
        [sampleMarker 1 ["food"]
          [sampleVisit "visit_1" "2024-05-01", sampleVisit "visit_2" "2024-06-01"]])[0]?
        = some m2 ∧
      (m2.visits.getD []).length = ((sampleMarker 1 ["food"]
        [sampleVisit "visit_1" "2024-05-01",
         sampleVisit "visit_2" "2024-06-01"]).visits.getD []).length ∧
      (∀ (j : Nat) (w : Visit), ((sampleMarker 1 ["food"]
          [sampleVisit "visit_1" "2024-05-01",
           sampleVisit "visit_2" "2024-06-01"]).visits.getD [])[j]? = some w →
        (m2.visits.getD [])[j]?
          = some (if w.id = (sampleVisit "visit_1" "2024-05-01").id then edited else w)) ∧
      edited.id = (sampleVisit "visit_1" "2024-05-01").id ∧
      ((sampleVisit "visit_1" "2024-05-01").createdAt ≠ "" →
        edited.createdAt = (sampleVisit "visit_1" "2024-05-01").createdAt) ∧
      edited.visitDate = sampleVisitForm.visitDate ∧
      edited.notes = jsTrim sampleVisitForm.notes ∧
      edited.photos = submittedPhotos sampleVisitForm.photos :=
  ⟨by decide, by decide, rfl,
    submitVisitEdit_replaces (MarkerId.num 1) (sampleVisit "visit_1" "2024-05-01")
      sampleVisitForm 1720000000000 "2024-07-03T00:00:00.000Z" "2024-07-03T00:00:00.001Z"
      [sampleMarker 1 ["food"]
        [sampleVisit "visit_1" "2024-05-01", sampleVisit "visit_2" "2024-06-01"]] 0
      (sampleMarker 1 ["food"]
        [sampleVisit "visit_1" "2024-05-01", sampleVisit "visit_2" "2024-06-01"])
      (by decide) (by decide) rfl rfl⟩

/-- C10 as stated fails on two inputs. A visit whose id is the empty string is
given a fresh id by the form, so no visit of the list is replaced and the list
stays as it was; a visit whose `createdAt` is empty is replaced by a visit whose
`createdAt` is the time of the edit. -/
theorem submitVisitEdit_falsy_fields_counterexample :
    ((submitVisitEdit (MarkerId.num 1) (sampleVisit "" "2024-05-01") sampleVisitForm
        1720000000000 "2024-07-03T00:00:00.000Z" "2024-07-03T00:00:00.001Z"
        [sampleMarker 1 ["food"] [sampleVisit "" "2024-05-01"]]).map Marker.visits
      = [some [sampleVisit "" "2024-05-01"]] ∧
     (VisitRecordForm.handleSubmit (some (sampleVisit "" "2024-05-01")) sampleVisitForm
        1720000000000 "2024-07-03T00:00:00.000Z").map Visit.id
      = some "visit_1720000000000") ∧
    ((submitVisitEdit (MarkerId.num 1)
        { id := "visit_1", visitDate := "2024-05-01", notes := "", photos := [],
          createdAt := "" }
        sampleVisitForm 1720000000000 "2024-07-03T00:00:00.000Z" "2024-07-03T00:00:00.001Z"
        [sampleMarker 1 ["food"]
          [{ id := "visit_1", visitDate := "2024-05-01", notes := "", photos := [],
             createdAt := "" }]]).map
        (fun m => (m.visits.getD []).map fun w => (w.id, w.createdAt))
      = [[("visit_1", "2024-07-03T00:00:00.000Z")]]) := by
  decide


/-! ## Tag-grouped view: the groups outside the failing case -/

theorem groupsOf_congr (tags : List Tag) (f g : String → List Memory)
    (h : ∀ tag ∈ tags, f tag.id = g tag.id) : groupsOf tags f = groupsOf tags g := by
  unfold groupsOf
  apply List.map_congr_left
  intro tag htag
  rw [h tag htag]

theorem get_groupsOf_none (tags : List Tag) (f : String → List Memory) (p : String)
    (hp : p ∉ tags.map Tag.id) : Dict.get (groupsOf tags f) p = none := by
  induction tags with
  | nil => rfl
  | cons a rest ih =>
    simp only [List.map_cons, List.mem_cons, not_or] at hp
    simp only [groupsOf, List.map_cons, Dict.get]
    rw [if_neg (fun e => hp.1 e.symm)]
    exact ih hp.2

theorem get_groupsOf_isSome (tags : List Tag) (f : String → List Memory) (p : String)
    (hp : p ∈ tags.map Tag.id) : ∃ g, Dict.get (groupsOf tags f) p = some g := by
  induction tags with
  | nil => simp at hp
  | cons a rest ih =>
    simp only [groupsOf, List.map_cons, Dict.get]
    by_cases e : a.id = p
    · rw [if_pos e]
      exact ⟨_, rfl⟩
    · rw [if_neg e]
      simp only [List.map_cons, List.mem_cons] at hp
      rcases hp with h | h
      · exact absurd h.symm e
      · exact ih h

theorem pushMemory_groupsOf (tags : List Tag) (hnd : (tags.map Tag.id).Nodup)
    (f : String → List Memory) (p : String) (e : Memory) :
    pushMemory (groupsOf tags f) p e =
      groupsOf tags (fun k => if k = p then f k ++ [e] else f k) := by
  induction tags with
  | nil => rfl
  | cons a rest ih =>
    simp only [List.map_cons, List.nodup_cons] at hnd
    by_cases hap : a.id = p
    · have hrest : groupsOf rest (fun k => if k = p then f k ++ [e] else f k)
          = groupsOf rest f := by
        apply groupsOf_congr
        intro tag htag
        have : tag.id ≠ p := by
          intro h2
          apply hnd.1
          rw [hap, ← h2]
          exact List.mem_map_of_mem _ htag
        simp [this]
      simp only [pushMemory, groupsOf, List.map_cons, Dict.get, if_pos hap, Dict.set]
      simp only [groupsOf] at hrest
      rw [hrest]
    · have ih2 := ih hnd.2
      simp only [pushMemory, groupsOf, List.map_cons, Dict.get, if_neg hap] at ih2 ⊢
      cases hget : Dict.get (List.map (fun tag => (tag.id, ({ tag := tag, memories := f tag.id } : TagGroup))) rest) p with
      | none =>
        rw [hget] at ih2
        simp only at ih2 ⊢
        rw [← ih2]
      | some g =>
        rw [hget] at ih2
        simp only [Dict.set, if_neg hap] at ih2 ⊢
        rw [ih2]

theorem foldl_pushMemory_groupsOf (tags : List Tag) (hnd : (tags.map Tag.id).Nodup)
    (p : String) (entries : List Memory) (f : String → List Memory) :
    entries.foldl (fun grouped e => pushMemory grouped p e) (groupsOf tags f) =
      groupsOf tags (fun k => if k = p then f k ++ entries else f k) := by
  induction entries generalizing f with
  | nil =>
    apply groupsOf_congr
    intro tag _
    simp
  | cons e es ih =>
    rw [List.foldl_cons, pushMemory_groupsOf tags hnd, ih]
    apply groupsOf_congr
    intro tag _
    by_cases h : tag.id = p <;> simp [h]

theorem foldl_pushMemory_map {β : Type} (g : β → Memory) (p : String) (l : List β)
    (grouped : Dict TagGroup) :
    l.foldl (fun grouped x => pushMemory grouped p (g x)) grouped =
      (l.map g).foldl (fun grouped e => pushMemory grouped p e) grouped := by
  rw [List.foldl_map]

theorem predefined_ids_nodup : (PREDEFINED_TAGS.map Tag.id).Nodup := by
  decide

theorem default_not_predefined : "default" ∉ PREDEFINED_TAGS.map Tag.id := by
  decide

theorem initialGroups_eq : initialGroups = groupsOf PREDEFINED_TAGS (fun _ => []) := by
  decide

theorem getTagById_id_of_mem (t : String) (h : t ∈ PREDEFINED_TAGS.map Tag.id) :
    (getTagById (some t)).id = t := by
  unfold getTagById
  cases hf : PREDEFINED_TAGS.find? (fun tag => decide (some tag.id = some t)) with
  | none =>
    rw [List.find?_eq_none] at hf
    obtain ⟨tag, htag, e⟩ := List.mem_map.1 h
    exact absurd (by simp [e]) (hf tag htag)
  | some tag =>
    have := List.find?_some hf
    simpa using this

theorem getTagById_of_not_mem (t : String) (h : t ∉ PREDEFINED_TAGS.map Tag.id) :
    getTagById (some t) = DEFAULT_TAG := by
  unfold getTagById
  have hf : PREDEFINED_TAGS.find? (fun tag => decide (some tag.id = some t)) = none := by
    rw [List.find?_eq_none]
    intro tag htag hq
    apply h
    have e : tag.id = t := by simpa using hq
    exact e ▸ List.mem_map_of_mem _ htag
  rw [hf]

/-- On registry ids the inline expression of the sidebar and `getPrimaryTag`
name the same primary tag. -/
theorem inlinePrimaryTag_eq_iff (m : Marker) (k : String)
    (hk : k ∈ PREDEFINED_TAGS.map Tag.id) :
    inlinePrimaryTag m = k ↔ (getPrimaryTag m.tags).id = k := by
  have hkd : k ≠ "default" := fun e => default_not_predefined (e ▸ hk)
  have hdk : ¬ ("default" = k) := fun e => hkd e.symm
  unfold inlinePrimaryTag getPrimaryTag
  cases ht : m.tags with
  | none => simp [strOr, DEFAULT_TAG]
  | some tags =>
    cases tags with
    | nil => simp [DEFAULT_TAG]
    | cons t rest =>
      simp only [Option.getD_some, List.head?_cons]
      by_cases hmem : t ∈ PREDEFINED_TAGS.map Tag.id
      · have hne : t ≠ "" := by
          intro e
          rw [e] at hmem
          revert hmem
          decide
        rw [getTagById_id_of_mem t hmem]
        simp [strOr, hne]
      · rw [getTagById_of_not_mem t hmem]
        have hkt : ¬ (t = k) := fun e => hmem (e ▸ hk)
        by_cases he : t = ""
        · simp [strOr, he, DEFAULT_TAG]
        · simp [strOr, he, DEFAULT_TAG, hkt, hdk]

theorem groupMarker_groupsOf (parse : DateParser) (f : String → List Memory) (m : Marker)
    (hm : 0 < visitCount m → inlinePrimaryTag m ∉ objectPrototypeKeys) :
    groupMarker parse (groupsOf PREDEFINED_TAGS f) m =
      Except.ok (groupsOf PREDEFINED_TAGS (fun k =>
        f k ++ (if (getPrimaryTag m.tags).id = k then markerPairs parse m else []))) := by
  have hsame : ∀ (p : String) (entries : List Memory),
      (∀ tag ∈ PREDEFINED_TAGS, tag.id ≠ p) →
      groupsOf PREDEFINED_TAGS f =
        groupsOf PREDEFINED_TAGS (fun k => f k ++ (if p = k then entries else [])) := by
    intro p entries hp
    apply groupsOf_congr
    intro tag htag
    have : ¬ (p = tag.id) := fun e => hp tag htag e.symm
    simp [this]
  have hcongr : ∀ (g : String → List Memory),
      (∀ tag ∈ PREDEFINED_TAGS, g tag.id =
        f tag.id ++ (if (getPrimaryTag m.tags).id = tag.id then markerPairs parse m else [])) →
      groupsOf PREDEFINED_TAGS g = groupsOf PREDEFINED_TAGS (fun k =>
        f k ++ (if (getPrimaryTag m.tags).id = k then markerPairs parse m else [])) := by
    intro g hg
    exact groupsOf_congr _ _ _ hg
  unfold groupMarker
  cases hv : m.visits with
  | none =>
    simp only
    congr 1
    apply hcongr
    intro tag _
    simp [markerPairs, hv]
  | some visits =>
    simp only
    by_cases hlen : visits.length > 0
    · rw [if_pos hlen]
      have hcount : 0 < visitCount m := by simpa [visitCount, hv] using hlen
      have hproto := hm hcount
      by_cases hdef : inlinePrimaryTag m ≠ "default"
      · simp only [if_pos hdef]
        by_cases hmem : inlinePrimaryTag m ∈ PREDEFINED_TAGS.map Tag.id
        · obtain ⟨g, hg⟩ := get_groupsOf_isSome PREDEFINED_TAGS f _ hmem
          simp only [Dict.lookup, hg]
          congr 1
          rw [foldl_pushMemory_map (fun visit =>
            ({ marker := m, visit := visit, date := parse visit.visitDate } : Memory)),
            foldl_pushMemory_groupsOf PREDEFINED_TAGS predefined_ids_nodup]
          apply groupsOf_congr
          intro tag htag
          have hiff := inlinePrimaryTag_eq_iff m tag.id (List.mem_map_of_mem _ htag)
          by_cases hk : tag.id = inlinePrimaryTag m
          · have h2 : (getPrimaryTag m.tags).id = tag.id := hiff.1 hk.symm
            simp [hk, h2, markerPairs, hv]
          · have h2 : ¬ ((getPrimaryTag m.tags).id = tag.id) := fun e => hk (hiff.2 e).symm
            simp [hk, h2]
        · have hg := get_groupsOf_none PREDEFINED_TAGS f _ hmem
          simp only [Dict.lookup, hg, if_neg hproto]
          congr 1
          apply hcongr
          intro tag htag
          have hiff := inlinePrimaryTag_eq_iff m tag.id (List.mem_map_of_mem _ htag)
          have h2 : ¬ ((getPrimaryTag m.tags).id = tag.id) := by
            intro e
            apply hmem
            rw [hiff.2 e]
            exact List.mem_map_of_mem _ htag
          simp [h2]
      · rw [if_neg hdef]
        congr 1
        apply hcongr
        intro tag htag
        have hiff := inlinePrimaryTag_eq_iff m tag.id (List.mem_map_of_mem _ htag)
        have h2 : ¬ ((getPrimaryTag m.tags).id = tag.id) := by
          intro e
          have h3 := hiff.2 e
          have h4 : inlinePrimaryTag m = "default" := by
            by_contra hn
            exact hdef hn
          apply default_not_predefined
          rw [← h4, h3]
          exact List.mem_map_of_mem _ htag
        simp [h2]
    · rw [if_neg hlen]
      congr 1
      apply hcongr
      intro tag _
      have : visits = [] := by
        cases visits with
        | nil => rfl
        | cons a b => simp at hlen
      simp [markerPairs, hv, this]

theorem pairsOfTag_cons (parse : DateParser) (m : Marker) (ms : List Marker) (k : String) :
    pairsOfTag parse (m :: ms) k =
      (if (getPrimaryTag m.tags).id = k then markerPairs parse m else []) ++
        pairsOfTag parse ms k := by
  simp only [pairsOfTag, flattenedPairs, List.flatMap_cons, List.filter_append]
  congr 1
  by_cases h : (getPrimaryTag m.tags).id = k
  · rw [if_pos h]
    unfold markerPairs
    rw [List.filter_eq_self]
    intro e he
    obtain ⟨v, _, rfl⟩ := List.mem_map.1 he
    simpa using h
  · rw [if_neg h, List.filter_eq_nil_iff]
    intro e he
    obtain ⟨v, _, rfl⟩ := List.mem_map.1 he
    simpa using h

theorem groupMarkers_groupsOf (parse : DateParser) (markers : List Marker)
    (f : String → List Memory) (hm : NoInheritedPrimaryTag markers) :
    groupMarkers parse (groupsOf PREDEFINED_TAGS f) markers =
      Except.ok (groupsOf PREDEFINED_TAGS (fun k => f k ++ pairsOfTag parse markers k)) := by
  induction markers generalizing f with
  | nil =>
    simp only [groupMarkers]
    congr 1
    apply groupsOf_congr
    intro tag _
    simp [pairsOfTag, flattenedPairs]
  | cons m ms ih =>
    have hm1 := hm m (List.mem_cons_self _ _)
    have hm2 : NoInheritedPrimaryTag ms := fun x hx => hm x (List.mem_cons_of_mem _ hx)
    simp only [groupMarkers]
    rw [groupMarker_groupsOf parse f m hm1]
    simp only
    rw [ih _ hm2]
    congr 1
    apply groupsOf_congr
    intro tag _
    rw [pairsOfTag_cons, List.append_assoc]

theorem dict_set_append {β : Type} (d : Dict β) (k : String) (v : β)
    (hk : k ∉ d.map Prod.fst) : Dict.set d k v = d ++ [(k, v)] := by
  induction d with
  | nil => rfl
  | cons a rest ih =>
    obtain ⟨k1, v1⟩ := a
    simp only [List.map_cons, List.mem_cons, not_or] at hk
    simp only [Dict.set, List.cons_append]
    rw [if_neg (fun e => hk.1 e.symm), ih hk.2]

/-- Spelled-out form of the final loop of `tagGroupedMemories` on a `grouped`
object with pairwise distinct keys. -/
theorem collectGroups_groupsOf (tags : List Tag) (hnd : (tags.map Tag.id).Nodup)
    (f : String → List Memory) :
    collectGroups (groupsOf tags f) =
      (tags.filter fun tag => decide (f tag.id ≠ [])).map fun tag =>
        (tag.id, { tag := tag, memories := arraySort memoryCompare (f tag.id) }) := by
  unfold collectGroups
  suffices hgen : ∀ (done : List Tag), (∀ t ∈ done, t.id ∉ tags.map Tag.id) →
      (groupsOf tags f).foldl
        (fun result kv =>
          if kv.2.memories.length > 0 then
            Dict.set result kv.1
              { kv.2 with memories := arraySort memoryCompare kv.2.memories }
          else result)
        (done.map fun tag =>
          (tag.id, ({ tag := tag, memories := arraySort memoryCompare (f tag.id) } : TagGroup)))
      = (done ++ tags.filter fun tag => decide (f tag.id ≠ [])).map fun tag =>
          (tag.id, ({ tag := tag, memories := arraySort memoryCompare (f tag.id) } : TagGroup)) by
    simpa using hgen [] (by simp)
  induction tags with
  | nil => intro done _; simp [groupsOf]
  | cons a rest ih =>
    intro done hdone
    simp only [List.map_cons, List.nodup_cons] at hnd
    simp only [groupsOf, List.map_cons, List.foldl_cons]
    by_cases hne : f a.id = []
    · have h0 : ¬ ((f a.id).length > 0) := by simp [hne]
      rw [if_neg h0]
      have := ih hnd.2 done (fun t ht hmem => hdone t ht (List.mem_cons_of_mem _ hmem))
      simp only [groupsOf] at this
      rw [this]
      simp [List.filter_cons, hne]
    · have h0 : (f a.id).length > 0 := List.length_pos.2 hne
      rw [if_pos h0]
      have hfresh : a.id ∉ (done.map fun tag =>
          (tag.id, ({ tag := tag, memories := arraySort memoryCompare (f tag.id) }
            : TagGroup))).map Prod.fst := by
        simp only [List.map_map, List.mem_map, Function.comp, not_exists, not_and]
        intro t ht e
        exact hdone t ht (by simp [e])
      rw [dict_set_append _ _ _ hfresh]
      have := ih hnd.2 (done ++ [a]) (by
        intro t ht hmem
        rcases List.mem_append.1 ht with h | h
        · exact hdone t h (List.mem_cons_of_mem _ hmem)
        · rw [List.mem_singleton] at h
          subst h
          exact hnd.1 hmem)
      simp only [groupsOf, List.map_append, List.map_cons, List.map_nil] at this
      rw [this]
      simp [List.filter_cons, hne]

/-- Outside the failing case the tag-grouped view lists, in registry order, the
registry tags that are the primary tag (by `getPrimaryTag`) of at least one
pair, each with exactly its pairs, sorted newest first. -/
theorem tagGroupedMemories_eq (parse : DateParser) (markers : List Marker)
    (hm : NoInheritedPrimaryTag markers) :
    tagGroupedMemories parse markers =
      Except.ok ((PREDEFINED_TAGS.filter fun tag =>
          decide (pairsOfTag parse markers tag.id ≠ [])).map fun tag =>
        (tag.id, { tag := tag
                   memories := arraySort memoryCompare (pairsOfTag parse markers tag.id) })) := by
  unfold tagGroupedMemories
  rw [initialGroups_eq, groupMarkers_groupsOf parse markers _ hm]
  simp only
  rw [collectGroups_groupsOf PREDEFINED_TAGS predefined_ids_nodup]
  simp

/-- The grouping property of the tag-grouped view on every marker list outside
the failing case: the view is produced, its keys are pairwise distinct, no group
is empty, and a pair is in the group keyed by `t` exactly when `t` is the id of a
registry tag other than `default` and of the primary tag of the pair's marker. -/
theorem tagGroupedMemories_groups (parse : DateParser) (markers : List Marker)
    (hm : NoInheritedPrimaryTag markers) :
    ∃ result, tagGroupedMemories parse markers = Except.ok result ∧
      (result.map Prod.fst).Nodup ∧
      (∀ kv ∈ result, kv.2.memories ≠ []) ∧
      ∀ (t : String) (e : Memory),
        (∃ kv ∈ result, kv.1 = t ∧ e ∈ kv.2.memories) ↔
          (t ∈ PREDEFINED_TAGS.map Tag.id ∧ t ≠ "default" ∧
            e ∈ flattenedPairs parse markers ∧ (getPrimaryTag e.marker.tags).id = t) := by
  refine ⟨_, tagGroupedMemories_eq parse markers hm, ?_, ?_, ?_⟩
  · rw [List.map_map]
    exact (predefined_ids_nodup.sublist ((List.filter_sublist _).map Tag.id))
  · intro kv hkv
    obtain ⟨tag, htag, rfl⟩ := List.mem_map.1 hkv
    have hne : pairsOfTag parse markers tag.id ≠ [] := by
      simpa using (List.mem_filter.1 htag).2
    intro hnil
    apply hne
    have := (arraySort_perm memoryCompare (pairsOfTag parse markers tag.id)).length_eq
    simp only at hnil
    rw [hnil] at this
    exact List.length_eq_zero.1 this.symm
  · intro t e
    constructor
    · rintro ⟨kv, hkv, rfl, he⟩
      obtain ⟨tag, htag, rfl⟩ := List.mem_map.1 hkv
      have htag2 := (List.mem_filter.1 htag).1
      have he2 : e ∈ pairsOfTag parse markers tag.id :=
        (mem_arraySort memoryCompare).1 he
      simp only [pairsOfTag, List.mem_filter, decide_eq_true_eq] at he2
      refine ⟨List.mem_map_of_mem _ htag2, ?_, he2.1, he2.2⟩
      intro hd
      apply default_not_predefined
      simp only at hd
      rw [← hd]
      exact List.mem_map_of_mem _ htag2
    · rintro ⟨ht, _, he, hp⟩
      obtain ⟨tag, htag, rfl⟩ := List.mem_map.1 ht
      have he2 : e ∈ pairsOfTag parse markers tag.id := by
        simp only [pairsOfTag, List.mem_filter, decide_eq_true_eq]
        exact ⟨he, hp⟩
      refine ⟨(tag.id,
        { tag := tag
          memories := arraySort memoryCompare (pairsOfTag parse markers tag.id) }),
        ?_, rfl, ?_⟩
      · apply List.mem_map_of_mem
        rw [List.mem_filter]
        refine ⟨htag, ?_⟩
        simp only [decide_eq_true_eq]
        exact List.ne_nil_of_mem he2
      · exact (mem_arraySort memoryCompare).2 he2


/-! ## Removing a visit -/

/-- C11: a confirmed `handleDeleteVisit` on a list whose entry at position `i` has
the given marker id keeps the length of the list and puts at position `i` the
same marker with exactly the visits of another id, in their original order (the
old visits list filtered, hence a sublist of it that holds no visit with the
removed id and every other visit as often as before); the marker stays in the
list also when that leaves it without visits, and its other fields except
`updatedAt` are unchanged. -/
theorem handleDeleteVisit_removes (markerId : MarkerId) (visitId : String)
    (nowIso : String) (prev : List Marker) (i : Nat) (m : Marker)
    (hm : prev[i]? = some m) (hid : m.id = markerId) :
    (handleDeleteVisit true markerId visitId nowIso prev).length = prev.length ∧
    ∃ m2, (handleDeleteVisit true markerId visitId nowIso prev)[i]? = some m2 ∧
      m2.visits = some ((m.visits.getD []).filter fun visit => decide (visit.id ≠ visitId)) ∧
      (m2.visits.getD []).Sublist (m.visits.getD []) ∧
      (∀ w ∈ m2.visits.getD [], w.id ≠ visitId) ∧
      (∀ w : Visit, w.id ≠ visitId →
        (m2.visits.getD []).count w = (m.visits.getD []).count w) ∧
      m2.id = m.id ∧ m2.name = m.name ∧ m2.latitude = m.latitude ∧
      m2.longitude = m.longitude ∧ m2.tags = m.tags ∧ m2.createdAt = m.createdAt ∧
      m2.visitDate = m.visitDate ∧ m2.notes = m.notes ∧ m2.photos = m.photos := by
  refine ⟨by simp [handleDeleteVisit], ?_⟩
  refine ⟨{ m with
      visits := some ((m.visits.getD []).filter fun visit => decide (visit.id ≠ visitId))
      updatedAt := some nowIso }, ?_, rfl, ?_, ?_, ?_, rfl, rfl, rfl, rfl, rfl, rfl, rfl, rfl,
    rfl⟩
  · simp [handleDeleteVisit, List.getElem?_map, hm, hid]
  · exact List.filter_sublist _
  · intro w hw
    simp only [Option.getD_some, List.mem_filter, decide_eq_true_eq] at hw
    exact hw.2
  · intro w hw
    simp only [Option.getD_some]
    rw [List.count_filter]
    simpa using hw

/-- Witness of C11: removing the only visit of the only marker leaves the marker
in the list with an empty visits list. -/
theorem handleDeleteVisit_removes_witness :
    (handleDeleteVisit true (MarkerId.num 1) "visit_1" "2024-06-02T00:00:00.000Z"
      [sampleMarker 1 ["food"] [sampleVisit "visit_1" "2024-05-01"]]).map Marker.visits
      = [some []] ∧
    ((handleDeleteVisit true (MarkerId.num 1) "visit_1" "2024-06-02T00:00:00.000Z"
      [sampleMarker 1 ["food"] [sampleVisit "visit_1" "2024-05-01"]]).length
      = [sampleMarker 1 ["food"] [sampleVisit "visit_1" "2024-05-01"]].length ∧
    ∃ m2, (handleDeleteVisit true (MarkerId.num 1) "visit_1" "2024-06-02T00:00:00.000Z"
        [sampleMarker 1 ["food"] [sampleVisit "visit_1" "2024-05-01"]])[0]? = some m2 ∧
      m2.visits = some (((sampleMarker 1 ["food"]
        [sampleVisit "visit_1" "2024-05-01"]).visits.getD []).filter
          fun visit => decide (visit.id ≠ "visit_1")) ∧
      (m2.visits.getD []).Sublist
        ((sampleMarker 1 ["food"] [sampleVisit "visit_1" "2024-05-01"]).visits.getD []) ∧
      (∀ w ∈ m2.visits.getD [], w.id ≠ "visit_1") ∧
      (∀ w : Visit, w.id ≠ "visit_1" →
        (m2.visits.getD []).count w = ((sampleMarker 1 ["food"]
          [sampleVisit "visit_1" "2024-05-01"]).visits.getD []).count w) ∧
      m2.id = (sampleMarker 1 ["food"] [sampleVisit "visit_1" "2024-05-01"]).id ∧
      m2.name = (sampleMarker 1 ["food"] [sampleVisit "visit_1" "2024-05-01"]).name ∧
      m2.latitude = (sampleMarker 1 ["food"] [sampleVisit "visit_1" "2024-05-01"]).latitude ∧
      m2.longitude
        = (sampleMarker 1 ["food"] [sampleVisit "visit_1" "2024-05-01"]).longitude ∧
      m2.tags = (sampleMarker 1 ["food"] [sampleVisit "visit_1" "2024-05-01"]).tags ∧
      m2.createdAt
        = (sampleMarker 1 ["food"] [sampleVisit "visit_1" "2024-05-01"]).createdAt ∧
      m2.visitDate
        = (sampleMarker 1 ["food"] [sampleVisit "visit_1" "2024-05-01"]).visitDate ∧
      m2.notes = (sampleMarker 1 ["food"] [sampleVisit "visit_1" "2024-05-01"]).notes ∧
      m2.photos = (sampleMarker 1 ["food"] [sampleVisit "visit_1" "2024-05-01"]).photos) :=
  ⟨by decide,
    handleDeleteVisit_removes (MarkerId.num 1) "visit_1" "2024-06-02T00:00:00.000Z"
      [sampleMarker 1 ["food"] [sampleVisit "visit_1" "2024-05-01"]] 0
      (sampleMarker 1 ["food"] [sampleVisit "visit_1" "2024-05-01"]) rfl rfl⟩

/-! ## The example scenario of the specification -/

/-- C12: the example scenario, run on the handlers (creation at clock reading
1714550400000) and on the sidebar timeline, for every date parser that reads
"2024-05-01" as an earlier date than "2024-06-01": creating "Tokyo Tower" with
one visit dated 2024-05-01 in the empty list gives one marker; adding a visit
dated 2024-06-01 gives a timeline of two entries, the 2024-06-01 visit first;
removing the first visit gives a timeline of one entry (the 2024-06-01 visit);
deleting the marker gives the empty list. -/
theorem example_scenario (parse : DateParser) (a b : Int)
    (ha : parse "2024-05-01" = some a) (hb : parse "2024-06-01" = some b) (hab : a < b) :
    (handleSubmitMarker 1714550400000 scenarioMarkerData []).length = 1 ∧
    (handleSubmitMarker 1714550400000 scenarioMarkerData []).map Marker.name
      = ["Tokyo Tower"] ∧
    (timelineMemories parse
      (handleAddVisit (MarkerId.num 1714550400000) (sampleVisit "visit_2" "2024-06-01")
        "2024-06-01T09:00:00.000Z"
        (handleSubmitMarker 1714550400000 scenarioMarkerData []))).map
          (fun e => e.visit.visitDate) = ["2024-06-01", "2024-05-01"] ∧
    (timelineMemories parse
      (handleDeleteVisit true (MarkerId.num 1714550400000) "visit_1"
        "2024-06-02T09:00:00.000Z"
        (handleAddVisit (MarkerId.num 1714550400000) (sampleVisit "visit_2" "2024-06-01")
          "2024-06-01T09:00:00.000Z"
          (handleSubmitMarker 1714550400000 scenarioMarkerData [])))).map
            (fun e => e.visit.visitDate) = ["2024-06-01"] ∧
    handleConfirmDelete (some (newMarker 1714550400000 scenarioMarkerData))
      (handleDeleteVisit true (MarkerId.num 1714550400000) "visit_1"
        "2024-06-02T09:00:00.000Z"
        (handleAddVisit (MarkerId.num 1714550400000) (sampleVisit "visit_2" "2024-06-01")
          "2024-06-01T09:00:00.000Z"
          (handleSubmitMarker 1714550400000 scenarioMarkerData []))) = [] := by
  have hpos : (0 : Int) < b - a := by omega
  refine ⟨by decide, by decide, ?_, ?_, by decide⟩
  · simp [timelineMemories, timelineMemoriesUnsorted, handleAddVisit, handleSubmitMarker,
      newMarker, scenarioMarkerData, sampleVisit, arraySort, sortInsert, memoryCompare,
      dateSub, comparatorPositive, ha, hb, hpos]
  · simp [timelineMemories, timelineMemoriesUnsorted, handleAddVisit, handleSubmitMarker,
      handleDeleteVisit, newMarker, scenarioMarkerData, sampleVisit, arraySort, sortInsert]

/-- Witness of C12 with the parser of the date-only form. -/
theorem example_scenario_witness :
    parseIsoDate "2024-05-01" = some 1714521600000 ∧
    parseIsoDate "2024-06-01" = some 1717200000000 ∧
    (1714521600000 : Int) < 1717200000000 ∧
    ((handleSubmitMarker 1714550400000 scenarioMarkerData []).length = 1 ∧
    (handleSubmitMarker 1714550400000 scenarioMarkerData []).map Marker.name
      = ["Tokyo Tower"] ∧
    (timelineMemories parseIsoDate
      (handleAddVisit (MarkerId.num 1714550400000) (sampleVisit "visit_2" "2024-06-01")
        "2024-06-01T09:00:00.000Z"
        (handleSubmitMarker 1714550400000 scenarioMarkerData []))).map
          (fun e => e.visit.visitDate) = ["2024-06-01", "2024-05-01"] ∧
    (timelineMemories parseIsoDate
      (handleDeleteVisit true (MarkerId.num 1714550400000) "visit_1"
        "2024-06-02T09:00:00.000Z"
        (handleAddVisit (MarkerId.num 1714550400000) (sampleVisit "visit_2" "2024-06-01")
          "2024-06-01T09:00:00.000Z"
          (handleSubmitMarker 1714550400000 scenarioMarkerData [])))).map
            (fun e => e.visit.visitDate) = ["2024-06-01"] ∧
    handleConfirmDelete (some (newMarker 1714550400000 scenarioMarkerData))
      (handleDeleteVisit true (MarkerId.num 1714550400000) "visit_1"
        "2024-06-02T09:00:00.000Z"
        (handleAddVisit (MarkerId.num 1714550400000) (sampleVisit "visit_2" "2024-06-01")
          "2024-06-01T09:00:00.000Z"
          (handleSubmitMarker 1714550400000 scenarioMarkerData []))) = []) :=
  ⟨by decide, by decide, by decide,
    example_scenario parseIsoDate 1714521600000 1717200000000 (by decide) (by decide)
      (by decide)⟩


/-! ## Order inside the tag groups -/

theorem prototypeKeys_not_predefined :
    ∀ p ∈ objectPrototypeKeys, p ∉ PREDEFINED_TAGS.map Tag.id ∧ p ≠ "default" := by
  decide

theorem groupMarker_inherited_raises (parse : DateParser) (f : String → List Memory)
    (m : Marker) (hcount : 0 < visitCount m)
    (hp : inlinePrimaryTag m ∈ objectPrototypeKeys) :
    groupMarker parse (groupsOf PREDEFINED_TAGS f) m = Except.error JsError.typeError := by
  have hnot := prototypeKeys_not_predefined _ hp
  unfold groupMarker
  cases hv : m.visits with
  | none => simp [visitCount, hv] at hcount
  | some visits =>
    have hlen : visits.length > 0 := by simpa [visitCount, hv] using hcount
    simp only [if_pos hlen, if_pos hnot.2, Dict.lookup,
      get_groupsOf_none PREDEFINED_TAGS f _ hnot.1, if_pos hp]

theorem groupMarkers_ok_noInherited (parse : DateParser) (markers : List Marker)
    (f : String → List Memory) (g : Dict TagGroup)
    (h : groupMarkers parse (groupsOf PREDEFINED_TAGS f) markers = Except.ok g) :
    NoInheritedPrimaryTag markers := by
  induction markers generalizing f with
  | nil => intro m hm; simp at hm
  | cons m ms ih =>
    by_cases hbad : 0 < visitCount m ∧ inlinePrimaryTag m ∈ objectPrototypeKeys
    · simp only [groupMarkers, groupMarker_inherited_raises parse f m hbad.1 hbad.2] at h
      cases h
    · have hm1 : 0 < visitCount m → inlinePrimaryTag m ∉ objectPrototypeKeys :=
        fun hc hp => hbad ⟨hc, hp⟩
      simp only [groupMarkers, groupMarker_groupsOf parse f m hm1] at h
      have hrest := ih _ h
      intro x hx
      rcases List.mem_cons.1 hx with e | e
      · subst e
        exact hm1
      · exact hrest x e

/-- Whenever the tag-grouped view is produced, no marker with visits has an
inherited property name as first tag. -/
theorem tagGroupedMemories_ok_noInherited (parse : DateParser) (markers : List Marker)
    (result : Dict TagGroup) (h : tagGroupedMemories parse markers = Except.ok result) :
    NoInheritedPrimaryTag markers := by
  unfold tagGroupedMemories at h
  rw [initialGroups_eq] at h
  cases hg : groupMarkers parse (groupsOf PREDEFINED_TAGS fun _ => []) markers with
  | error e => simp [hg] at h
  | ok g => exact groupMarkers_ok_noInherited parse markers _ g hg

theorem pairsOfTag_valid (parse : DateParser) (markers : List Marker) (t : String)
    (hvalid : AllDatesValid parse markers) :
    ∀ e ∈ pairsOfTag parse markers t, e.date.isSome = true := by
  intro e he
  exact flattenedPairs_valid parse markers hvalid e (List.mem_filter.1 he).1

/-- The tag-grouped view away from the failing input of C13: on every marker
list whose visit dates all parse to valid dates, every group of the view holds the pairs of its tag (the
flattened pairs whose marker has that primary tag) stably sorted by date, newest
first: a permutation of them in which no entry is preceded by an older one and
in which, for every date, the entries of that date appear in their flattened
(store) order. -/
theorem tagGroupedMemories_sorted_stable (parse : DateParser) (markers : List Marker)
    (result : Dict TagGroup) (hvalid : AllDatesValid parse markers)
    (hres : tagGroupedMemories parse markers = Except.ok result) :
    ∀ kv ∈ result,
      kv.2.memories.Perm (pairsOfTag parse markers kv.1) ∧
      (pairsOfTag parse markers kv.1).Sublist (flattenedPairs parse markers) ∧
      kv.2.memories.Pairwise NotOlder ∧
      ∀ d : Int,
        kv.2.memories.filter (fun e => decide (e.date = some d)) =
          (pairsOfTag parse markers kv.1).filter (fun e => decide (e.date = some d)) := by
  have hni := tagGroupedMemories_ok_noInherited parse markers result hres
  rw [tagGroupedMemories_eq parse markers hni] at hres
  injection hres with hres
  subst hres
  intro kv hkv
  obtain ⟨tag, _, rfl⟩ := List.mem_map.1 hkv
  have hv := pairsOfTag_valid parse markers tag.id hvalid
  refine ⟨arraySort_perm _ _, List.filter_sublist _, ?_, ?_⟩
  · refine (arraySort_pairwise memoryCompare_descending _ hv).imp ?_
    intro a b hab da db hda hdb
    simpa [hda, hdb] using hab
  · intro d
    refine arraySort_filter memoryCompare_descending _ ?_ _ hv
    intro a b _ _ hpa hpb
    have ea : a.date = some d := by simpa using hpa
    have eb : b.date = some d := by simpa using hpb
    simp [ea, eb]

theorem notOlder_of_pairwise (l : List Memory) (h : l.Pairwise NotOlder) (i j : Nat)
    (hij : i < j) (x y : Memory) (hx : l[i]? = some x) (hy : l[j]? = some y)
    (da db : Int) (hda : x.date = some da) (hdb : y.date = some db) : db ≤ da := by
  obtain ⟨hi, rfl⟩ := List.getElem?_eq_some_iff.1 hx
  obtain ⟨hj, rfl⟩ := List.getElem?_eq_some_iff.1 hy
  exact (List.pairwise_iff_getElem.1 h) i j hi hj hij da db hda hdb

/-- The previous theorem applied to two markers tagged `food` with dated
visits. -/
theorem tagGroupedMemories_sorted_stable_witness :
    ∃ result,
      AllDatesValid parseIsoDate
        [sampleMarker 1 ["food"] [sampleVisit "visit_1" "2024-05-01"],
         sampleMarker 2 ["food"] [sampleVisit "visit_2" "2024-06-01"]] ∧
      tagGroupedMemories parseIsoDate
        [sampleMarker 1 ["food"] [sampleVisit "visit_1" "2024-05-01"],
         sampleMarker 2 ["food"] [sampleVisit "visit_2" "2024-06-01"]] = Except.ok result ∧
      result.map (fun kv => (kv.1, kv.2.memories.map fun e => e.visit.visitDate))
        = [("food", ["2024-06-01", "2024-05-01"])] ∧
      ∀ kv ∈ result,
        kv.2.memories.Perm (pairsOfTag parseIsoDate
          [sampleMarker 1 ["food"] [sampleVisit "visit_1" "2024-05-01"],
           sampleMarker 2 ["food"] [sampleVisit "visit_2" "2024-06-01"]] kv.1) ∧
        (pairsOfTag parseIsoDate
          [sampleMarker 1 ["food"] [sampleVisit "visit_1" "2024-05-01"],
           sampleMarker 2 ["food"] [sampleVisit "visit_2" "2024-06-01"]] kv.1).Sublist
          (flattenedPairs parseIsoDate
            [sampleMarker 1 ["food"] [sampleVisit "visit_1" "2024-05-01"],
             sampleMarker 2 ["food"] [sampleVisit "visit_2" "2024-06-01"]]) ∧
        kv.2.memories.Pairwise NotOlder ∧
        ∀ d : Int,
          kv.2.memories.filter (fun e => decide (e.date = some d)) =
            (pairsOfTag parseIsoDate
              [sampleMarker 1 ["food"] [sampleVisit "visit_1" "2024-05-01"],
               sampleMarker 2 ["food"] [sampleVisit "visit_2" "2024-06-01"]] kv.1).filter
              (fun e => decide (e.date = some d)) :=
  have hvalid : AllDatesValid parseIsoDate
      [sampleMarker 1 ["food"] [sampleVisit "visit_1" "2024-05-01"],
       sampleMarker 2 ["food"] [sampleVisit "visit_2" "2024-06-01"]] := by
    unfold AllDatesValid
    decide
  ⟨_, hvalid, rfl, by decide,
    tagGroupedMemories_sorted_stable parseIsoDate _ _ hvalid rfl⟩

/-- C13, evaluation at the failing input: in the group of a marker whose visits
are dated 2020-01-01, an unparseable date and 2024-01-01, in that order, the sort
leaves the entries in store order and the 2024 visit comes after the 2020 visit,
so the group is not sorted by date. -/
theorem tagGroupedMemories_invalid_date_unsorted :
    ∃ group,
      tagGroupedMemories parseIsoDate
        [sampleMarker 1 ["food"]
          [sampleVisit "visit_1" "2020-01-01", sampleVisit "visit_2" "",
           sampleVisit "visit_3" "2024-01-01"]] = Except.ok [("food", group)] ∧
      group.memories.map (fun e => e.visit.visitDate) = ["2020-01-01", "", "2024-01-01"] ∧
      ¬ group.memories.Pairwise NotOlder := by
  refine ⟨_, rfl, by decide, ?_⟩
  intro h
  have := notOlder_of_pairwise _ h 0 2 (by decide) _ _ rfl rfl
    1577836800000 1704067200000 (by decide) (by decide)
  omega


/-! ## Counting objects: `monthlyStats` and `yearlyStats` -/

theorem Dict.get_set {β : Type} (d : Dict β) (k k2 : String) (v : β) :
    Dict.get (Dict.set d k v) k2 = if k2 = k then some v else Dict.get d k2 := by
  induction d with
  | nil =>
    simp only [Dict.set, Dict.get]
    by_cases h : k = k2
    · simp [h]
    · have h2 : ¬ (k2 = k) := fun e => h e.symm
      simp [h, h2]
  | cons a rest ih =>
    obtain ⟨k1, v1⟩ := a
    simp only [Dict.set]
    by_cases h1 : k1 = k
    · rw [if_pos h1]
      simp only [Dict.get]
      by_cases h2 : k1 = k2
      · have : k2 = k := h2 ▸ h1
        simp [h2, this]
      · have : ¬ (k2 = k) := fun e => h2 (h1.trans e.symm)
        simp [h2, this]
    · rw [if_neg h1]
      simp only [Dict.get]
      by_cases h2 : k1 = k2
      · have : ¬ (k2 = k) := fun e => h1 (h2.trans e)
        simp [h2, this]
      · simp [h2, ih]

theorem Dict.keys_set {β : Type} (d : Dict β) (k : String) (v : β) :
    (Dict.set d k v).map Prod.fst =
      if k ∈ d.map Prod.fst then d.map Prod.fst else d.map Prod.fst ++ [k] := by
  induction d with
  | nil => simp [Dict.set]
  | cons a rest ih =>
    obtain ⟨k1, v1⟩ := a
    simp only [Dict.set]
    by_cases h1 : k1 = k
    · simp [h1]
    · rw [if_neg h1]
      have h2 : ¬ (k = k1) := fun e => h1 e.symm
      simp only [List.map_cons, ih, List.mem_cons, h2, false_or]
      split <;> simp

theorem Dict.nodup_keys_set {β : Type} (d : Dict β) (k : String) (v : β)
    (h : (d.map Prod.fst).Nodup) : ((Dict.set d k v).map Prod.fst).Nodup := by
  rw [Dict.keys_set]
  split
  · exact h
  · rename_i hk
    rw [List.nodup_append]
    refine ⟨h, List.nodup_singleton _, ?_⟩
    intro x hx hx2
    rw [List.mem_singleton] at hx2
    exact hk (hx2 ▸ hx)

theorem Dict.get_eq_none_iff {β : Type} (d : Dict β) (k : String) :
    Dict.get d k = none ↔ k ∉ d.map Prod.fst := by
  induction d with
  | nil => simp [Dict.get]
  | cons a rest ih =>
    obtain ⟨k1, v1⟩ := a
    simp only [Dict.get, List.map_cons, List.mem_cons, not_or]
    by_cases h : k1 = k
    · simp [h]
    · have h2 : ¬ (k = k1) := fun e => h e.symm
      simp [h, h2, ih]

theorem bumpStat_nodup_keys (stats : Dict StatValue) (key : String)
    (h : (stats.map Prod.fst).Nodup) : ((bumpStat stats key).map Prod.fst).Nodup := by
  unfold bumpStat
  split
  · exact Dict.nodup_keys_set _ _ _ h
  · exact Dict.nodup_keys_set _ _ _ h
  · split
    · exact h
    · exact Dict.nodup_keys_set _ _ _ h
  · exact Dict.nodup_keys_set _ _ _ h

/-- Increment on a key that is not inherited, in an object that holds counts. -/
theorem bumpStat_counts (stats : Dict StatValue) (done : List String) (key : String)
    (hkey : key ∉ objectPrototypeKeys)
    (hstats : ∀ k, Dict.get stats k =
      if done.count k = 0 then none else some (StatValue.count (done.count k))) :
    ∀ k, Dict.get (bumpStat stats key) k =
      if (done ++ [key]).count k = 0 then none
      else some (StatValue.count ((done ++ [key]).count k)) := by
  intro k
  have hk := hstats key
  unfold bumpStat Dict.lookup
  by_cases h0 : done.count key = 0
  · rw [if_pos h0] at hk
    simp only [hk, if_neg hkey]
    rw [Dict.get_set, hstats k]
    by_cases e : k = key
    · subst e
      simp [h0]
    · have e2 : ¬ (key = k) := fun h => e h.symm
      simp [e, List.count_append, List.count_singleton, e2]
  · rw [if_neg h0] at hk
    simp only [hk]
    rw [Dict.get_set, hstats k]
    by_cases e : k = key
    · subst e
      simp [List.count_append]
    · have e2 : ¬ (key = k) := fun h => e h.symm
      simp [e, List.count_append, List.count_singleton, e2]

theorem foldl_bumpStat_counts (keys done : List String) (stats : Dict StatValue)
    (hkeys : ∀ k ∈ keys, k ∉ objectPrototypeKeys)
    (hstats : ∀ k, Dict.get stats k =
      if done.count k = 0 then none else some (StatValue.count (done.count k))) :
    ∀ k, Dict.get (keys.foldl bumpStat stats) k =
      if (done ++ keys).count k = 0 then none
      else some (StatValue.count ((done ++ keys).count k)) := by
  induction keys generalizing done stats with
  | nil => simpa using hstats
  | cons key rest ih =>
    have h1 := bumpStat_counts stats done key (hkeys key (List.mem_cons_self _ _)) hstats
    have h2 := ih (done ++ [key]) (bumpStat stats key)
      (fun k hk => hkeys k (List.mem_cons_of_mem _ hk)) h1
    simpa using h2

theorem foldl_bumpStat_nodup (keys : List String) (stats : Dict StatValue)
    (h : (stats.map Prod.fst).Nodup) :
    ((keys.foldl bumpStat stats).map Prod.fst).Nodup := by
  induction keys generalizing stats with
  | nil => exact h
  | cons key rest ih => exact ih _ (bumpStat_nodup_keys stats key h)

theorem foldl_filter_map_bump {β : Type} (p : β → Bool) (g : β → String) (l : List β)
    (stats : Dict StatValue) :
    l.foldl (fun stats x => if p x = true then bumpStat stats (g x) else stats) stats =
      ((l.filter p).map g).foldl bumpStat stats := by
  induction l generalizing stats with
  | nil => rfl
  | cons x l ih =>
    simp only [List.foldl_cons, List.filter_cons]
    by_cases h : p x = true
    · simp [h, ih]
    · simp [h, ih]

theorem bumpMarker_eq (n : Nat) (stats : Dict StatValue) (marker : Marker) :
    bumpMarker n stats marker =
      ((markerDates marker).map fun d => substring0 d n).foldl bumpStat stats := by
  unfold bumpMarker markerDates
  have hinner : ∀ s0 : Dict StatValue,
      (marker.visits.getD []).foldl
        (fun stats visit =>
          if visit.visitDate ≠ "" then bumpStat stats (substring0 visit.visitDate n)
          else stats) s0 =
      ((((marker.visits.getD []).filter fun visit => decide (visit.visitDate ≠ "")).map
        Visit.visitDate).map fun d => substring0 d n).foldl bumpStat s0 := by
    intro s0
    rw [List.map_map]
    rw [← foldl_filter_map_bump (fun visit => decide (visit.visitDate ≠ ""))
      ((fun d => substring0 d n) ∘ Visit.visitDate)]
    congr 1
    funext stats visit
    simp
  rw [List.map_append, List.foldl_append, hinner]
  congr 1
  cases marker.visitDate with
  | none => rfl
  | some d =>
    by_cases hd : d = ""
    · simp [hd]
    · simp [hd]

theorem foldl_bumpMarker_eq (n : Nat) (markers : List Marker) (stats : Dict StatValue) :
    markers.foldl (bumpMarker n) stats =
      ((datedEntries markers).map fun d => substring0 d n).foldl bumpStat stats := by
  induction markers generalizing stats with
  | nil => rfl
  | cons m ms ih =>
    rw [List.foldl_cons, ih, bumpMarker_eq]
    simp [datedEntries, List.flatMap_cons, List.foldl_append]

theorem count_map_substring0 (n : Nat) (dates : List String) (k : String) :
    (dates.map fun d => substring0 d n).count k =
      (dates.filter fun d => decide (substring0 d n = k)).length := by
  induction dates with
  | nil => rfl
  | cons d ds ih =>
    simp only [List.map_cons, List.count_cons, List.filter_cons, ih]
    by_cases h : substring0 d n = k
    · simp [h]
    · simp [h]

/-- The counting object built from dated entries none of whose keys is
inherited: every key is mapped to its number of entries, and keys without
entries are absent. -/
theorem stats_get_of_safe (n : Nat) (markers : List Marker)
    (hsafe : ∀ d ∈ datedEntries markers, substring0 d n ∉ objectPrototypeKeys) (k : String) :
    Dict.get (markers.foldl (bumpMarker n) []) k =
      if bucketCount n markers k = 0 then none
      else some (StatValue.count (bucketCount n markers k)) := by
  rw [foldl_bumpMarker_eq]
  have h := foldl_bumpStat_counts ((datedEntries markers).map fun d => substring0 d n) [] []
    (by
      intro key hkey
      obtain ⟨d, hd, rfl⟩ := List.mem_map.1 hkey
      exact hsafe d hd)
    (by intro k; simp [Dict.get]) k
  simp only [List.nil_append, count_map_substring0] at h
  exact h

theorem length_takeUnits_le (n : Nat) (cs : List Char) : (takeUnits n cs).length ≤ n := by
  induction cs generalizing n with
  | nil => simp [takeUnits]
  | cons c cs ih =>
    by_cases hw : (if c.toNat < 0x10000 then 1 else 2) ≤ n
    · have h1 := ih (n - (if c.toNat < 0x10000 then 1 else 2))
      have hpos : 1 ≤ (if c.toNat < 0x10000 then 1 else 2) := by split <;> omega
      rw [takeUnits, if_pos hw, List.length_cons]
      omega
    · rw [takeUnits, if_neg hw]
      simp

theorem length_substring0_le (s : String) (n : Nat) : (substring0 s n).length ≤ n := by
  simp only [substring0, String.length]
  exact length_takeUnits_le n _

theorem substring0_four_not_inherited (s : String) :
    substring0 s 4 ∉ objectPrototypeKeys := by
  intro h
  have hlen := length_substring0_le s 4
  have hall : ∀ p ∈ objectPrototypeKeys, 7 ≤ p.length := by decide
  have := hall _ h
  omega

theorem substring0_seven_inherited (s : String)
    (h : substring0 s 7 ∈ objectPrototypeKeys) : substring0 s 7 = "valueOf" := by
  have hlen := length_substring0_le s 7
  have hall : ∀ p ∈ objectPrototypeKeys, p.length ≤ 7 → p = "valueOf" := by decide
  exact hall _ h hlen

/-- The `yearlyStats` half of C14, on every marker list: each key is mapped to the
number of dated entries whose first four characters are that key, and a key
without such an entry is absent. -/
theorem yearlyStats_get (markers : List Marker) (k : String) :
    Dict.get (Statistics.yearlyStats markers) k =
      if bucketCount 4 markers k = 0 then none
      else some (StatValue.count (bucketCount 4 markers k)) :=
  stats_get_of_safe 4 markers (fun d _ => substring0_four_not_inherited d) k

/-- The `monthlyStats` half of C14 outside the failing case: when no dated entry
begins with `valueOf`, each key is mapped to the number of dated entries whose
first seven characters are that key, and a key without such an entry is
absent. -/
theorem monthlyStats_get (markers : List Marker)
    (hsafe : ∀ d ∈ datedEntries markers, substring0 d 7 ≠ "valueOf") (k : String) :
    Dict.get (Statistics.monthlyStats markers) k =
      if bucketCount 7 markers k = 0 then none
      else some (StatValue.count (bucketCount 7 markers k)) :=
  stats_get_of_safe 7 markers
    (fun d hd h => hsafe d hd (substring0_seven_inherited d h)) k

/-- C14, evaluation at the failing input: a visit whose `visitDate` is the string
`valueOf` is a dated entry of month key `valueOf`, but `monthlyStats` does not
map that key to the number 1: `(monthlyStats[month] || 0) + 1` reads the
inherited function `Object.prototype.valueOf` and stores its source text
followed by `1`. The yearly key `valu` of the same entry is counted as 1. -/
theorem monthlyStats_inherited_key_not_counted :
    bucketCount 7 [sampleMarker 1 ["food"] [sampleVisit "visit_1" "valueOf"]] "valueOf" = 1 ∧
    Statistics.monthlyStats [sampleMarker 1 ["food"] [sampleVisit "visit_1" "valueOf"]]
      = [("valueOf", StatValue.text "valueOf" 1)] ∧
    Statistics.yearlyStats [sampleMarker 1 ["food"] [sampleVisit "visit_1" "valueOf"]]
      = [("valu", StatValue.count 1)] := by
  decide


/-! ## Chart data: the sorted entries of a counting object -/

theorem compareCodePoints_antisymm (x y : List Nat) (h : 0 < compareCodePoints x y) :
    compareCodePoints y x < 0 := by
  induction x generalizing y with
  | nil =>
    cases y with
    | nil => simp [compareCodePoints] at h
    | cons b bs => simp [compareCodePoints] at h
  | cons a as ih =>
    cases y with
    | nil => simp [compareCodePoints]
    | cons b bs =>
      simp only [compareCodePoints] at h ⊢
      by_cases h1 : a < b
      · simp [h1] at h
      · by_cases h2 : b < a
        · simp [h2]
        · simp only [h1, h2, if_false] at h ⊢
          exact ih bs h

theorem compareCodePoints_trans (x y z : List Nat) (hxy : compareCodePoints x y ≤ 0)
    (hyz : compareCodePoints y z ≤ 0) : compareCodePoints x z ≤ 0 := by
  induction x generalizing y z with
  | nil =>
    cases z with
    | nil => simp [compareCodePoints]
    | cons c cs => simp [compareCodePoints]
  | cons a as ih =>
    cases y with
    | nil => simp [compareCodePoints] at hxy
    | cons b bs =>
      cases z with
      | nil => simp [compareCodePoints] at hyz
      | cons c cs =>
        simp only [compareCodePoints] at hxy hyz ⊢
        by_cases hab : a < b
        · by_cases hbc : b < c
          · have : a < c := by omega
            simp [this]
          · by_cases hcb : c < b
            · simp [hbc, hcb] at hyz
            · have : a < c := by omega
              simp [this]
        · by_cases hba : b < a
          · simp [hab, hba] at hxy
          · simp only [hab, hba, if_false] at hxy
            by_cases hbc : b < c
            · have : a < c := by omega
              simp [this]
            · by_cases hcb : c < b
              · simp [hbc, hcb] at hyz
              · simp only [hbc, hcb, if_false] at hyz
                have h1 : ¬ a < c := by omega
                have h2 : ¬ c < a := by omega
                simp only [h1, h2, if_false]
                exact ih bs cs hxy hyz

theorem sampleLocaleCompare_consistent : ConsistentComparator sampleLocaleCompare where
  antisymm := fun _ _ h => compareCodePoints_antisymm _ _ h
  trans := fun _ _ _ h1 h2 => compareCodePoints_trans _ _ _ h1 h2

section EntrySort

variable {β : Type} (cmp : LocaleCompare)

theorem sortInsert_entries_pairwise (hc : ConsistentComparator cmp) (a : String × β)
    (l : List (String × β)) (hs : l.Pairwise (fun x y => cmp x.1 y.1 ≤ 0)) :
    (sortInsert (fun a b => some (cmp a.1 b.1)) a l).Pairwise
      (fun x y => cmp x.1 y.1 ≤ 0) := by
  induction l with
  | nil => simp [sortInsert]
  | cons b l ih =>
    rw [List.pairwise_cons] at hs
    unfold sortInsert
    by_cases hpos : 0 < cmp a.1 b.1
    · have hcp : comparatorPositive (some (cmp a.1 b.1)) = true := by
        simp [comparatorPositive, hpos]
      rw [if_pos hcp, List.pairwise_cons]
      refine ⟨?_, ih hs.2⟩
      intro y hy
      rcases List.mem_cons.1 ((sortInsert_perm _ a l).mem_iff.1 hy) with e | m
      · subst e
        exact le_of_lt (hc.antisymm _ _ hpos)
      · exact hs.1 y m
    · have hcp : ¬ comparatorPositive (some (cmp a.1 b.1)) = true := by
        simp [comparatorPositive, hpos]
      rw [if_neg hcp, List.pairwise_cons]
      have hle : cmp a.1 b.1 ≤ 0 := le_of_not_lt hpos
      refine ⟨?_, List.pairwise_cons.2 hs⟩
      intro y hy
      rcases List.mem_cons.1 hy with e | m
      · subst e
        exact hle
      · exact hc.trans _ _ _ hle (hs.1 y m)

theorem arraySort_entries_pairwise (hc : ConsistentComparator cmp) (l : List (String × β)) :
    (arraySort (fun a b => some (cmp a.1 b.1)) l).Pairwise
      (fun x y => cmp x.1 y.1 ≤ 0) := by
  induction l with
  | nil => simp [arraySort]
  | cons a l ih =>
    unfold arraySort
    exact sortInsert_entries_pairwise cmp hc a _ ih

end EntrySort

theorem objectEntries_perm {β : Type} (obj : Dict β) : (objectEntries obj).Perm obj := by
  unfold objectEntries
  refine ((arraySort_perm _ _).append_right _).trans ?_
  exact List.filter_append_perm _ obj

theorem sortedEntries_perm (cmp : LocaleCompare) (stats : Dict StatValue) :
    (sortedEntries cmp stats).Perm stats :=
  (arraySort_perm _ _).trans (objectEntries_perm stats)

theorem Dict.get_of_mem {β : Type} (d : Dict β) (h : (d.map Prod.fst).Nodup)
    (kv : String × β) (hkv : kv ∈ d) : Dict.get d kv.1 = some kv.2 := by
  induction d with
  | nil => simp at hkv
  | cons a rest ih =>
    obtain ⟨k1, v1⟩ := a
    simp only [List.map_cons, List.nodup_cons] at h
    simp only [Dict.get]
    rcases List.mem_cons.1 hkv with e | m
    · subst e
      simp
    · have hne : k1 ≠ kv.1 := by
        intro e
        apply h.1
        rw [e]
        exact List.mem_map_of_mem _ m
      rw [if_neg hne]
      exact ih h.2 m

/-- The sorted entries of a counting object with pairwise distinct keys: every
bucket once, each with its value, in ascending order of the comparator, and
strictly ascending when the comparator separates the keys. -/
theorem sortedEntries_spec (cmp : LocaleCompare) (hc : ConsistentComparator cmp)
    (stats : Dict StatValue) (hnd : (stats.map Prod.fst).Nodup) :
    ((sortedEntries cmp stats).map Prod.fst).Perm (stats.map Prod.fst) ∧
    ((sortedEntries cmp stats).map Prod.fst).Nodup ∧
    (∀ kv ∈ sortedEntries cmp stats, Dict.get stats kv.1 = some kv.2) ∧
    (sortedEntries cmp stats).Pairwise (fun x y => cmp x.1 y.1 ≤ 0) ∧
    ((∀ a ∈ stats.map Prod.fst, ∀ b ∈ stats.map Prod.fst, cmp a b = 0 → a = b) →
      (sortedEntries cmp stats).Pairwise (fun x y => cmp x.1 y.1 < 0)) := by
  have hperm := sortedEntries_perm cmp stats
  have hkeys := hperm.map Prod.fst
  have hnd2 : ((sortedEntries cmp stats).map Prod.fst).Nodup := hkeys.nodup_iff.2 hnd
  have hsorted : (sortedEntries cmp stats).Pairwise (fun x y => cmp x.1 y.1 ≤ 0) :=
    arraySort_entries_pairwise cmp hc _
  refine ⟨hkeys, hnd2, ?_, hsorted, ?_⟩
  · intro kv hkv
    exact Dict.get_of_mem stats hnd kv (hperm.mem_iff.1 hkv)
  · intro hsep
    have hne : (sortedEntries cmp stats).Pairwise (fun x y => x.1 ≠ y.1) :=
      (List.pairwise_map.1 hnd2)
    refine (hsorted.and hne).imp_of_mem ?_
    intro x y hx hy hxy
    have hx2 : x.1 ∈ stats.map Prod.fst := hkeys.mem_iff.1 (List.mem_map_of_mem _ hx)
    have hy2 : y.1 ∈ stats.map Prod.fst := hkeys.mem_iff.1 (List.mem_map_of_mem _ hy)
    rcases lt_or_eq_of_le hxy.1 with h1 | h1
    · exact h1
    · exact absurd (hsep _ hx2 _ hy2 h1) hxy.2

theorem monthlyStats_nodup (markers : List Marker) :
    ((Statistics.monthlyStats markers).map Prod.fst).Nodup := by
  unfold Statistics.monthlyStats
  rw [foldl_bumpMarker_eq]
  exact foldl_bumpStat_nodup _ _ (by simp)

theorem yearlyStats_nodup (markers : List Marker) :
    ((Statistics.yearlyStats markers).map Prod.fst).Nodup := by
  unfold Statistics.yearlyStats
  rw [foldl_bumpMarker_eq]
  exact foldl_bumpStat_nodup _ _ (by simp)

/-- C15 (amended): for every comparator `localeCompare` that is a consistent
comparison, `monthlyChartData` and `yearlyChartData` list every bucket of
`monthlyStats` / `yearlyStats` exactly once (their keys are a duplicate-free
permutation of the keys of the counting object), each entry carries the value
of its bucket, and the entries are in ascending order of `localeCompare` on the
keys; the order is strictly ascending when no two distinct bucket keys compare
as equal. -/
theorem chartData_sorted (localeCompare : LocaleCompare)
    (hc : ConsistentComparator localeCompare) (markers : List Marker) :
    (((Statistics.monthlyChartData localeCompare markers).map MonthEntry.month).Perm
        ((Statistics.monthlyStats markers).map Prod.fst) ∧
      ((Statistics.monthlyChartData localeCompare markers).map MonthEntry.month).Nodup ∧
      (∀ e ∈ Statistics.monthlyChartData localeCompare markers,
        Dict.get (Statistics.monthlyStats markers) e.month = some e.visits ∧
          e.monthName = e.month) ∧
      (Statistics.monthlyChartData localeCompare markers).Pairwise
        (fun x y => localeCompare x.month y.month ≤ 0) ∧
      ((∀ a ∈ (Statistics.monthlyStats markers).map Prod.fst,
          ∀ b ∈ (Statistics.monthlyStats markers).map Prod.fst,
            localeCompare a b = 0 → a = b) →
        (Statistics.monthlyChartData localeCompare markers).Pairwise
          (fun x y => localeCompare x.month y.month < 0))) ∧
    (((Statistics.yearlyChartData localeCompare markers).map YearEntry.year).Perm
        ((Statistics.yearlyStats markers).map Prod.fst) ∧
      ((Statistics.yearlyChartData localeCompare markers).map YearEntry.year).Nodup ∧
      (∀ e ∈ Statistics.yearlyChartData localeCompare markers,
        Dict.get (Statistics.yearlyStats markers) e.year = some e.visits) ∧
      (Statistics.yearlyChartData localeCompare markers).Pairwise
        (fun x y => localeCompare x.year y.year ≤ 0) ∧
      ((∀ a ∈ (Statistics.yearlyStats markers).map Prod.fst,
          ∀ b ∈ (Statistics.yearlyStats markers).map Prod.fst,
            localeCompare a b = 0 → a = b) →
        (Statistics.yearlyChartData localeCompare markers).Pairwise
          (fun x y => localeCompare x.year y.year < 0))) := by
  obtain ⟨m1, m2, m3, m4, m5⟩ := sortedEntries_spec localeCompare hc
    (Statistics.monthlyStats markers) (monthlyStats_nodup markers)
  obtain ⟨y1, y2, y3, y4, y5⟩ := sortedEntries_spec localeCompare hc
    (Statistics.yearlyStats markers) (yearlyStats_nodup markers)
  have hm : (Statistics.monthlyChartData localeCompare markers).map MonthEntry.month =
      (sortedEntries localeCompare (Statistics.monthlyStats markers)).map Prod.fst := by
    simp [Statistics.monthlyChartData, List.map_map, Function.comp]
  have hy : (Statistics.yearlyChartData localeCompare markers).map YearEntry.year =
      (sortedEntries localeCompare (Statistics.yearlyStats markers)).map Prod.fst := by
    simp [Statistics.yearlyChartData, List.map_map, Function.comp]
  refine ⟨⟨hm ▸ m1, hm ▸ m2, ?_, ?_, ?_⟩, ⟨hy ▸ y1, hy ▸ y2, ?_, ?_, ?_⟩⟩
  · intro e he
    obtain ⟨kv, hkv, rfl⟩ := List.mem_map.1 he
    exact ⟨m3 kv hkv, rfl⟩
  · exact List.pairwise_map.2 m4
  · intro hsep
    exact List.pairwise_map.2 (m5 hsep)
  · intro e he
    obtain ⟨kv, hkv, rfl⟩ := List.mem_map.1 he
    exact y3 kv hkv
  · exact List.pairwise_map.2 y4
  · intro hsep
    exact List.pairwise_map.2 (y5 hsep)

/-- Witness of C15 (amended): three dated visits in two months of two years, with
the sample comparator; the charts come out as shown. -/
theorem chartData_sorted_witness :
    ConsistentComparator sampleLocaleCompare ∧
    Statistics.monthlyChartData sampleLocaleCompare
      [sampleMarker 1 ["food"]
        [sampleVisit "visit_1" "2024-06-01", sampleVisit "visit_2" "2023-05-01",
         sampleVisit "visit_3" "2024-06-15"]]
      = [{ month := "2023-05", visits := StatValue.count 1, monthName := "2023-05" },
         { month := "2024-06", visits := StatValue.count 2, monthName := "2024-06" }] ∧
    ((Statistics.yearlyChartData sampleLocaleCompare
      [sampleMarker 1 ["food"]
        [sampleVisit "visit_1" "2024-06-01", sampleVisit "visit_2" "2023-05-01",
         sampleVisit "visit_3" "2024-06-15"]]).map YearEntry.year).Nodup ∧
    (Statistics.monthlyChartData sampleLocaleCompare
      [sampleMarker 1 ["food"]
        [sampleVisit "visit_1" "2024-06-01", sampleVisit "visit_2" "2023-05-01",
         sampleVisit "visit_3" "2024-06-15"]]).Pairwise
        (fun x y => sampleLocaleCompare x.month y.month ≤ 0) :=
  ⟨sampleLocaleCompare_consistent, by decide,
    (chartData_sorted sampleLocaleCompare sampleLocaleCompare_consistent
      [sampleMarker 1 ["food"]
        [sampleVisit "visit_1" "2024-06-01", sampleVisit "visit_2" "2023-05-01",
         sampleVisit "visit_3" "2024-06-15"]]).2.2.1,
    (chartData_sorted sampleLocaleCompare sampleLocaleCompare_consistent
      [sampleMarker 1 ["food"]
        [sampleVisit "visit_1" "2024-06-01", sampleVisit "visit_2" "2023-05-01",
         sampleVisit "visit_3" "2024-06-15"]]).1.2.2.2.1⟩

/-- C15 as stated fails: two visits whose date strings are the two canonically
equivalent spellings of the letter U+00E9 (precomposed, and `e` with U+0301) give two
buckets with distinct keys that `localeCompare` must report as equal; the chart
keeps them in insertion order, which is not strictly ascending (the keys tie
under the comparator, and in code point order the first key is the larger
one). -/
theorem chartData_tie_counterexample :
    (Statistics.monthlyChartData sampleLocaleCompare
      [sampleMarker 1 ["food"]
        [sampleVisit "visit_1" "\u00e9", sampleVisit "visit_2" "e\u0301"]]).map
        (fun e => (e.month, e.visits))
      = [("\u00e9", StatValue.count 1), ("e\u0301", StatValue.count 1)] ∧
    "\u00e9" ≠ "e\u0301" ∧
    sampleLocaleCompare "\u00e9" "e\u0301" = 0 ∧
    compareCodePoints ("\u00e9".toList.map Char.toNat) ("e\u0301".toList.map Char.toNat)
      = 1 ∧
    ¬ (Statistics.monthlyChartData sampleLocaleCompare
      [sampleMarker 1 ["food"]
        [sampleVisit "visit_1" "\u00e9", sampleVisit "visit_2" "e\u0301"]]).Pairwise
        (fun x y => sampleLocaleCompare x.month y.month < 0) := by
  decide


/-! ## Rankings and totals -/

theorem locationCompare_descending :
    DescendingBy locationCompare (fun _ : LocationCount => True)
      (fun e => (e.visits : Int)) := by
  intro a b _ _
  rfl

/-- C16: the ranking of the statistics page and that of the poster are the same
list: the first five entries of the `{ name, visits }` entries of the markers
stably sorted by `visits`, largest first. The sorted list is a permutation of
the entries with non-increasing counts in which, for every count, the entries
with that count appear in their original order; the ranking has
`min 5 (number of markers)` entries, and no entry left out has more visits than
an entry of the ranking. -/
theorem topLocations_spec (markers : List Marker) :
    MapPoster.topLocations markers = Statistics.locationsByVisits markers ∧
    ∃ sorted : List LocationCount,
      sorted.Perm (locationEntries markers) ∧
      sorted.Pairwise (fun x y => y.visits ≤ x.visits) ∧
      (∀ c : Nat, sorted.filter (fun e => decide (e.visits = c)) =
        (locationEntries markers).filter (fun e => decide (e.visits = c))) ∧
      Statistics.locationsByVisits markers = sorted.take 5 ∧
      (Statistics.locationsByVisits markers).length = min 5 markers.length ∧
      (Statistics.locationsByVisits markers).Pairwise (fun x y => y.visits ≤ x.visits) ∧
      ∀ x ∈ sorted.drop 5, ∀ y ∈ Statistics.locationsByVisits markers,
        x.visits ≤ y.visits := by
  refine ⟨rfl, arraySort locationCompare (locationEntries markers), ?_, ?_, ?_, rfl, ?_, ?_, ?_⟩
  · exact arraySort_perm _ _
  · refine (arraySort_pairwise locationCompare_descending _ (fun _ _ => trivial)).imp ?_
    intro a b hab
    exact_mod_cast hab
  · intro c
    refine arraySort_filter locationCompare_descending _ ?_ _ (fun _ _ => trivial)
    intro a b _ _ hpa hpb
    have ea : a.visits = c := by simpa using hpa
    have eb : b.visits = c := by simpa using hpb
    simp [ea, eb]
  · simp [Statistics.locationsByVisits, length_arraySort]
  · have hs : (arraySort locationCompare (locationEntries markers)).Pairwise
        (fun x y => y.visits ≤ x.visits) := by
      refine (arraySort_pairwise locationCompare_descending _ (fun _ _ => trivial)).imp ?_
      intro a b hab
      exact_mod_cast hab
    exact hs.sublist (List.take_sublist _ _)
  · intro x hx y hy
    have hs : (arraySort locationCompare (locationEntries markers)).Pairwise
        (fun x y => y.visits ≤ x.visits) := by
      refine (arraySort_pairwise locationCompare_descending _ (fun _ _ => trivial)).imp ?_
      intro a b hab
      exact_mod_cast hab
    rw [← List.take_append_drop 5 (arraySort locationCompare (locationEntries markers)),
      List.pairwise_append] at hs
    exact hs.2.2 y hy x hx

theorem foldl_add_eq_sum {β : Type} (f : β → Nat) (l : List β) (acc : Nat) :
    l.foldl (fun sum x => sum + f x) acc = acc + (l.map f).sum := by
  induction l generalizing acc with
  | nil => simp
  | cons x l ih => simp [ih, Nat.add_assoc]

/-- C17: the total marker count is the length of the list and the total visit
count is the sum of the visit counts of the markers (0 for a marker without a
visits list); the statistics page, the poster and the metadata of the export
document (computed from the same list read back from storage) give these same
two numbers. -/
theorem totals_agree (markers : List Marker) :
    Statistics.totalLocations markers = markers.length ∧
    Statistics.totalVisits markers = (markers.map visitCount).sum ∧
    (MapPoster.stats markers).totalLocations = markers.length ∧
    (MapPoster.stats markers).totalVisits = (markers.map visitCount).sum ∧
    (exportMetadata (some markers)).totalMarkers = markers.length ∧
    (exportMetadata (some markers)).totalVisits = (markers.map visitCount).sum := by
  have h := foldl_add_eq_sum (fun m : Marker => (m.visits.getD []).length) markers 0
  simp only [Nat.zero_add] at h
  exact ⟨rfl, h, rfl, h, rfl, h⟩


/-! ## Distinct dates and distinct names -/

theorem foldl_setAdd_spec {α : Type} [DecidableEq α] (l acc : List α) (hacc : acc.Nodup) :
    (l.foldl setAdd acc).Nodup ∧ ∀ x, x ∈ l.foldl setAdd acc ↔ x ∈ acc ∨ x ∈ l := by
  induction l generalizing acc with
  | nil => simp [hacc]
  | cons a l ih =>
    rw [List.foldl_cons]
    by_cases ha : a ∈ acc
    · have e : setAdd acc a = acc := by simp [setAdd, ha]
      rw [e]
      refine ⟨(ih acc hacc).1, ?_⟩
      intro x
      rw [(ih acc hacc).2 x, List.mem_cons]
      constructor
      · rintro (h | h)
        · exact Or.inl h
        · exact Or.inr (Or.inr h)
      · rintro (h | h | h)
        · exact Or.inl h
        · exact Or.inl (h ▸ ha)
        · exact Or.inr h
    · have e : setAdd acc a = acc ++ [a] := by simp [setAdd, ha]
      rw [e]
      have hnd : (acc ++ [a]).Nodup := by
        rw [List.nodup_append]
        refine ⟨hacc, List.nodup_singleton _, ?_⟩
        intro x hx hx2
        rw [List.mem_singleton] at hx2
        exact ha (hx2 ▸ hx)
      refine ⟨(ih _ hnd).1, ?_⟩
      intro x
      rw [(ih _ hnd).2 x, List.mem_append, List.mem_singleton, List.mem_cons]
      constructor
      · rintro ((h | h) | h)
        · exact Or.inl h
        · exact Or.inr (Or.inl h)
        · exact Or.inr (Or.inr h)
      · rintro (h | h | h)
        · exact Or.inl (Or.inl h)
        · exact Or.inl (Or.inr h)
        · exact Or.inr h

/-- The size of `new Set(values)` is the number of distinct values. -/
theorem length_newSet {α : Type} [DecidableEq α] (l : List α) :
    (newSet l).length = l.toFinset.card := by
  have h := foldl_setAdd_spec l [] List.nodup_nil
  unfold newSet
  rw [← List.toFinset_card_of_nodup h.1]
  congr 1
  ext x
  simp [h.2 x]

theorem foldl_setAdd_map {α β : Type} [DecidableEq α] (g : β → α) (l : List β)
    (acc : List α) :
    l.foldl (fun set x => setAdd set (g x)) acc = (l.map g).foldl setAdd acc := by
  rw [List.foldl_map]

theorem Statistics.uniqueDates_eq (markers : List Marker) :
    Statistics.uniqueDates markers = newSet (visitDates markers) := by
  unfold Statistics.uniqueDates newSet visitDates
  suffices hgen : ∀ acc : List String,
      markers.foldl
        (fun uniqueDates marker =>
          (marker.visits.getD []).foldl
            (fun uniqueDates visit => setAdd uniqueDates visit.visitDate) uniqueDates)
        acc =
      (markers.flatMap fun marker =>
        (marker.visits.getD []).map Visit.visitDate).foldl setAdd acc from hgen []
  induction markers with
  | nil => intro acc; rfl
  | cons m ms ih =>
    intro acc
    rw [List.foldl_cons, ih, List.flatMap_cons, List.foldl_append,
      foldl_setAdd_map Visit.visitDate]

/-- C18: the "days traveled" figure of the statistics page and of the poster is
the number of distinct `visitDate` strings over all visits of all markers;
strings are compared as strings, so two spellings of one calendar day count as
two days. -/
theorem totalDays_distinct_strings (markers : List Marker) :
    Statistics.totalDays markers = (visitDates markers).toFinset.card ∧
    (MapPoster.stats markers).uniqueDates = (visitDates markers).toFinset.card ∧
    Statistics.totalDays
      [sampleMarker 1 ["food"]
        [sampleVisit "visit_1" "2024-05-01", sampleVisit "visit_2" "2024-05-01",
         sampleVisit "visit_3" "2024-05-01T00:00:00.000Z"]] = 2 := by
  refine ⟨?_, ?_, by decide⟩
  · unfold Statistics.totalDays
    rw [Statistics.uniqueDates_eq, length_newSet]
  · show (newSet (visitDates markers)).length = _
    rw [length_newSet]

theorem Statistics.cities_eq (markers : List Marker) :
    Statistics.cities markers =
      newSet ((markers.map Marker.name).filter fun name => decide (name ≠ "")) := by
  unfold Statistics.cities newSet
  suffices hgen : ∀ acc : List String,
      markers.foldl
        (fun cities marker => if marker.name ≠ "" then setAdd cities marker.name else cities)
        acc =
      ((markers.map Marker.name).filter fun name => decide (name ≠ "")).foldl setAdd acc
    from hgen []
  induction markers with
  | nil => intro acc; rfl
  | cons m ms ih =>
    intro acc
    rw [List.foldl_cons, ih, List.map_cons, List.filter_cons]
    by_cases h : m.name = ""
    · simp [h]
    · simp [h]

/-- C19 (amended): the statistics page counts the distinct non-empty marker
names (`citiesCount`), the poster counts the distinct marker names, the empty
name included (`stats.countries`); when no marker of the list has an empty name
both report the number of distinct values of the name field. -/
theorem distinct_names (markers : List Marker) :
    Statistics.citiesCount markers =
      ((markers.map Marker.name).filter fun name => decide (name ≠ "")).toFinset.card ∧
    (MapPoster.stats markers).countries = (markers.map Marker.name).toFinset.card ∧
    ((∀ m ∈ markers, m.name ≠ "") →
      Statistics.citiesCount markers = (markers.map Marker.name).toFinset.card ∧
      Statistics.citiesCount markers = (MapPoster.stats markers).countries) := by
  have h1 : Statistics.citiesCount markers =
      ((markers.map Marker.name).filter fun name => decide (name ≠ "")).toFinset.card := by
    unfold Statistics.citiesCount
    rw [Statistics.cities_eq, length_newSet]
  have h2 : (MapPoster.stats markers).countries = (markers.map Marker.name).toFinset.card := by
    show (newSet (markers.map fun m => m.name)).length = _
    rw [length_newSet]
  refine ⟨h1, h2, ?_⟩
  intro hne
  have hf : ((markers.map Marker.name).filter fun name => decide (name ≠ "")) =
      markers.map Marker.name := by
    rw [List.filter_eq_self]
    intro name hname
    obtain ⟨m, hm, rfl⟩ := List.mem_map.1 hname
    simpa using hne m hm
  rw [h1, h2, hf]
  exact ⟨rfl, rfl⟩

/-- Witness of C19 (amended): two markers named "Tokyo Tower". -/
theorem distinct_names_witness :
    (∀ m ∈ [sampleMarker 1 [] [], sampleMarker 2 [] []], m.name ≠ "") ∧
    Statistics.citiesCount [sampleMarker 1 [] [], sampleMarker 2 [] []] = 1 ∧
    Statistics.citiesCount [sampleMarker 1 [] [], sampleMarker 2 [] []] =
      ([sampleMarker 1 [] [], sampleMarker 2 [] []].map Marker.name).toFinset.card ∧
    Statistics.citiesCount [sampleMarker 1 [] [], sampleMarker 2 [] []] =
      (MapPoster.stats [sampleMarker 1 [] [], sampleMarker 2 [] []]).countries :=
  ⟨by decide, by decide,
    ((distinct_names [sampleMarker 1 [] [], sampleMarker 2 [] []]).2.2 (by decide)).1,
    ((distinct_names [sampleMarker 1 [] [], sampleMarker 2 [] []]).2.2 (by decide)).2⟩

/-- C19 as stated fails: for a list of one marker whose name is the empty string
the statistics page reports 0 distinct names and the poster reports 1, the
number of distinct values of the name field. -/
theorem distinct_names_counterexample :
    Statistics.citiesCount [{ sampleMarker 1 [] [] with name := "" }] = 0 ∧
    (MapPoster.stats [{ sampleMarker 1 [] [] with name := "" }]).countries = 1 ∧
    ([{ sampleMarker 1 [] [] with name := "" }].map Marker.name).toFinset.card = 1 := by
  decide

/-! ## Tag lookup -/

/-- C20: `getTagById` is a total function: for the id of a predefined tag it
returns that tag, and for every other input (an unknown id, the empty string, a
missing id) it returns the default tag; its result is always a tag of the
registry or the default tag. -/
theorem getTagById_fail_soft (id : Option String) :
    (∀ tag ∈ PREDEFINED_TAGS, id = some tag.id → getTagById id = tag) ∧
    ((∀ tag ∈ PREDEFINED_TAGS, id ≠ some tag.id) → getTagById id = DEFAULT_TAG) ∧
    getTagById none = DEFAULT_TAG ∧ getTagById (some "") = DEFAULT_TAG ∧
    (getTagById id = DEFAULT_TAG ∨ getTagById id ∈ PREDEFINED_TAGS) := by
  have hall : ∀ tag ∈ PREDEFINED_TAGS, getTagById (some tag.id) = tag := by decide
  refine ⟨?_, ?_, by decide, by decide, ?_⟩
  · intro tag htag e
    rw [e]
    exact hall tag htag
  · intro hno
    unfold getTagById
    have hf : PREDEFINED_TAGS.find? (fun tag => decide (some tag.id = id)) = none := by
      rw [List.find?_eq_none]
      intro tag htag hq
      have e : some tag.id = id := by simpa using hq
      exact hno tag htag e.symm
    rw [hf]
  · unfold getTagById
    cases hf : PREDEFINED_TAGS.find? (fun tag => decide (some tag.id = id)) with
    | none => exact Or.inl rfl
    | some tag => exact Or.inr (List.mem_of_find?_eq_some hf)

/-- Witness of C20: a known id and an unknown id. -/
theorem getTagById_fail_soft_witness :
    (getTagById (some "food")).name = "美食探索" ∧
    getTagById (some "constructor") = DEFAULT_TAG :=
  ⟨by decide,
    (getTagById_fail_soft (some "constructor")).2.1 (by decide)⟩


/-! ## Primary tag -/

/-- C21: `getPrimaryTag` returns the default tag for a missing or empty tag list
and `getTagById` of the first element otherwise; two lists with the same first
element have the same primary tag. -/
theorem getPrimaryTag_spec :
    getPrimaryTag none = DEFAULT_TAG ∧
    getPrimaryTag (some []) = DEFAULT_TAG ∧
    (∀ (t : String) (rest : List String),
      getPrimaryTag (some (t :: rest)) = getTagById (some t)) ∧
    (∀ (t : String) (rest1 rest2 : List String),
      getPrimaryTag (some (t :: rest1)) = getPrimaryTag (some (t :: rest2))) ∧
    (∀ tags : Option (List String), getPrimaryTag tags =
      if (tags.getD []).length = 0 then DEFAULT_TAG else getTagById (tags.getD []).head?) := by
  refine ⟨rfl, rfl, fun _ _ => rfl, fun _ _ _ => rfl, ?_⟩
  intro tags
  cases tags with
  | none => rfl
  | some l =>
    cases l with
    | nil => rfl
    | cons t rest => rfl

/-! ## Validation of the add-marker form -/

theorem sum_units_dropWhile (p : Char → Bool) (l : List Char) :
    ((l.dropWhile p).map fun c => if c.toNat < 0x10000 then 1 else 2).sum ≤
      (l.map fun c => if c.toNat < 0x10000 then 1 else 2).sum := by
  induction l with
  | nil => simp
  | cons c cs ih =>
    simp only [List.dropWhile_cons]
    split
    · simp only [List.map_cons, List.sum_cons]
      omega
    · exact le_refl _

theorem sum_units_reverse (l : List Char) :
    (l.reverse.map fun c => if c.toNat < 0x10000 then 1 else 2).sum =
      (l.map fun c => if c.toNat < 0x10000 then 1 else 2).sum := by
  rw [List.map_reverse, List.sum_reverse]

/-- Trimming never lengthens a string. -/
theorem jsLength_jsTrim_le (s : String) : jsLength (jsTrim s) ≤ jsLength s := by
  unfold jsLength jsTrim
  show (((((s.toList.dropWhile isTrimChar).reverse.dropWhile isTrimChar).reverse).map
    fun c => if c.toNat < 0x10000 then 1 else 2).sum) ≤ _
  rw [sum_units_reverse]
  refine le_trans (sum_units_dropWhile _ _) ?_
  rw [sum_units_reverse]
  exact sum_units_dropWhile _ _

theorem validateMarkerForm_iff (f : MarkerFormState) :
    validateMarkerForm f = true ↔
      (jsTrim f.name ≠ "" ∧ jsLength f.name ≤ 50 ∧ f.visitDate ≠ "" ∧
        jsLength f.notes ≤ 500) := by
  have hnotes : jsLength "" ≤ 500 := by decide
  unfold validateMarkerForm markerFormErrors
  by_cases h1 : jsTrim f.name = ""
  · simp [h1]
  · by_cases h2 : jsLength f.name > 50
    · simp [h1, h2]
    · by_cases h3 : f.visitDate = ""
      · simp [h1, h2, h3]
      · by_cases h4 : jsLength f.notes > 500
        · have h5 : f.notes ≠ "" := by
            intro e
            rw [e] at h4
            omega
          simp [h1, h2, h3, h4, h5]
        · simp [h1, h2, h3, h4]
          omega

/-- C22: the validation of the add-marker form accepts a form state exactly when
the name is non-empty after trimming and has at most 50 characters, the visit
date is non-empty and the notes have at most 500 characters (lengths as the
`length` property counts them, in UTF-16 code units); the form submits exactly
when validation accepts, and what it submits has the trimmed name, which is
non-empty and has at most 50 characters, and a visits list of exactly one visit
carrying the form's visit date. -/
theorem addMarkerForm_validation (f : MarkerFormState) (nowMs : Int) (nowIso : String) :
    (validateMarkerForm f = true ↔
      (jsTrim f.name ≠ "" ∧ jsLength f.name ≤ 50 ∧ f.visitDate ≠ "" ∧
        jsLength f.notes ≤ 500)) ∧
    ((AddMarkerForm.handleSubmit f nowMs nowIso).isSome = validateMarkerForm f) ∧
    ∀ d, AddMarkerForm.handleSubmit f nowMs nowIso = some d →
      d.name = jsTrim f.name ∧ d.name ≠ "" ∧ jsLength d.name ≤ 50 ∧
      ∃ v, d.visits = [v] ∧ v.visitDate = f.visitDate ∧ v.visitDate ≠ "" := by
  refine ⟨validateMarkerForm_iff f, ?_, ?_⟩
  · unfold AddMarkerForm.handleSubmit
    cases validateMarkerForm f <;> simp
  · intro d hd
    unfold AddMarkerForm.handleSubmit at hd
    by_cases hv : validateMarkerForm f = true
    · rw [if_pos hv] at hd
      have h := (validateMarkerForm_iff f).1 hv
      injection hd with hd
      subst hd
      refine ⟨rfl, h.1, le_trans (jsLength_jsTrim_le f.name) h.2.1, _, rfl, rfl, h.2.2.1⟩
    · rw [if_neg hv] at hd
      cases hd

/-- Witness of C22: the sample form state is accepted and submitted. -/
theorem addMarkerForm_validation_witness :
    (AddMarkerForm.handleSubmit sampleMarkerForm 1714550400000
      "2024-05-01T08:00:00.000Z").map (fun d => (d.name, d.visits.map Visit.visitDate))
      = some ("Tokyo Tower", ["2024-05-01"]) ∧
    ∀ d, AddMarkerForm.handleSubmit sampleMarkerForm 1714550400000
        "2024-05-01T08:00:00.000Z" = some d →
      d.name = jsTrim sampleMarkerForm.name ∧ d.name ≠ "" ∧ jsLength d.name ≤ 50 ∧
      ∃ v, d.visits = [v] ∧ v.visitDate = sampleMarkerForm.visitDate ∧ v.visitDate ≠ "" :=
  ⟨by decide,
    (addMarkerForm_validation sampleMarkerForm 1714550400000
      "2024-05-01T08:00:00.000Z").2.2⟩

/-! ## Tag selection -/

/-- C23: on a duplicate-free selection of at most `maxTags` tags, the list that
`handleToggleTag` passes to `onChange` is duplicate-free and has at most
`maxTags` entries; toggling a selected tag passes the selection without that tag
(a sublist of the selection, so the remaining tags keep their order), toggling
an unselected tag below the limit passes the selection with the tag appended,
and toggling an unselected tag at the limit calls nothing. -/
theorem handleToggleTag_invariant (selectedTags : List String) (maxTags : Nat)
    (tagId : String) (hnodup : selectedTags.Nodup) (hlen : selectedTags.length ≤ maxTags) :
    (∀ r, handleToggleTag selectedTags maxTags tagId = some r →
      r.Nodup ∧ r.length ≤ maxTags ∧
      (r.filter fun id => decide (id ≠ tagId)) = selectedTags.filter
        (fun id => decide (id ≠ tagId))) ∧
    (tagId ∈ selectedTags →
      handleToggleTag selectedTags maxTags tagId =
        some (selectedTags.filter fun id => decide (id ≠ tagId)) ∧
      (selectedTags.filter fun id => decide (id ≠ tagId)).Sublist selectedTags ∧
      tagId ∉ selectedTags.filter fun id => decide (id ≠ tagId)) ∧
    (tagId ∉ selectedTags → selectedTags.length < maxTags →
      handleToggleTag selectedTags maxTags tagId = some (selectedTags ++ [tagId])) ∧
    (tagId ∉ selectedTags → selectedTags.length = maxTags →
      handleToggleTag selectedTags maxTags tagId = none) := by
  refine ⟨?_, ?_, ?_, ?_⟩
  · intro r hr
    unfold handleToggleTag at hr
    by_cases hmem : tagId ∈ selectedTags
    · rw [if_pos hmem] at hr
      injection hr with hr
      subst hr
      refine ⟨hnodup.filter _, le_trans (List.length_filter_le _ _) hlen, ?_⟩
      rw [List.filter_filter]
      simp
    · rw [if_neg hmem] at hr
      by_cases hlt : selectedTags.length < maxTags
      · rw [if_pos hlt] at hr
        injection hr with hr
        subst hr
        refine ⟨?_, ?_, ?_⟩
        · rw [List.nodup_append]
          refine ⟨hnodup, List.nodup_singleton _, ?_⟩
          intro x hx hx2
          rw [List.mem_singleton] at hx2
          exact hmem (hx2 ▸ hx)
        · simp only [List.length_append, List.length_singleton]
          omega
        · simp [List.filter_append]
      · rw [if_neg hlt] at hr
        cases hr
  · intro hmem
    refine ⟨by simp [handleToggleTag, hmem], List.filter_sublist _, ?_⟩
    simp [List.mem_filter]
  · intro hmem hlt
    simp [handleToggleTag, hmem, hlt]
  · intro hmem heq
    simp [handleToggleTag, hmem, heq]

/-- Witness of C23: a full selection of three tags; removing one, and toggling a
fourth. -/
theorem handleToggleTag_invariant_witness :
    ["food", "culture", "relax"].Nodup ∧ ["food", "culture", "relax"].length ≤ 3 ∧
    handleToggleTag ["food", "culture", "relax"] 3 "culture" = some ["food", "relax"] ∧
    handleToggleTag ["food", "culture", "relax"] 3 "family" = none ∧
    (∀ r, handleToggleTag ["food", "culture", "relax"] 3 "culture" = some r →
      r.Nodup ∧ r.length ≤ 3 ∧
      (r.filter fun id => decide (id ≠ "culture")) = ["food", "culture", "relax"].filter
        (fun id => decide (id ≠ "culture"))) :=
  ⟨by decide, by decide, by decide, by decide,
    (handleToggleTag_invariant ["food", "culture", "relax"] 3 "culture" (by decide)
      (by decide)).1⟩


/-! ## Import and export -/

theorem faults_eq_noFaults (faults : StorageFaults) (h : faults.raises = false) :
    faults = noFaults := by
  cases faults
  simp_all [StorageFaults.raises, noFaults]

theorem importParsed_array_cases (faults : StorageFaults) (markers : List Marker)
    (avatar : Option String) (confirmed : Bool) (storage : Storage) :
    (importParsed faults (ParsedDocument.value (MarkersField.array markers) avatar) confirmed
        storage = (ImportOutcome.rejected "文件解析失败，请确保文件格式正确", storage) ∧
      faults.raises = true) ∨
    importParsed faults (ParsedDocument.value (MarkersField.array markers) avatar) confirmed
        storage = (ImportOutcome.cancelled, storage) ∨
    (importParsed faults (ParsedDocument.value (MarkersField.array markers) avatar) confirmed
        storage = (ImportOutcome.rejected "文件解析失败，请确保文件格式正确",
          { travelMarkers := some markers, userAvatar := storage.userAvatar }) ∧
      faults.setAvatar = true) ∨
    (∃ a, importParsed faults (ParsedDocument.value (MarkersField.array markers) avatar)
        confirmed storage = (ImportOutcome.imported markers.length,
          { travelMarkers := some markers, userAvatar := a })) := by
  unfold importParsed
  simp only
  by_cases h1 : faults.getItem = true
  · rw [if_pos h1]
    exact Or.inl ⟨rfl, by simp [StorageFaults.raises, h1]⟩
  rw [if_neg h1]
  by_cases h2 : (storage.travelMarkers.isSome && faults.parseStored) = true
  · rw [if_pos h2]
    simp only [Bool.and_eq_true] at h2
    exact Or.inl ⟨rfl, by simp [StorageFaults.raises, h2.2]⟩
  rw [if_neg h2]
  by_cases h3 : ((match storage.travelMarkers with
      | some existing => decide (existing.length > 0)
      | none => false) && !confirmed) = true
  · rw [if_pos h3]
    exact Or.inr (Or.inl rfl)
  rw [if_neg h3]
  by_cases h4 : faults.setMarkers = true
  · rw [if_pos h4]
    exact Or.inl ⟨rfl, by simp [StorageFaults.raises, h4]⟩
  rw [if_neg h4]
  cases avatar with
  | none => exact Or.inr (Or.inr (Or.inr ⟨_, rfl⟩))
  | some a =>
    simp only
    by_cases h5 : a ≠ ""
    · rw [if_pos h5]
      by_cases h6 : faults.setAvatar = true
      · rw [if_pos h6]
        exact Or.inr (Or.inr (Or.inl ⟨rfl, h6⟩))
      · rw [if_neg h6]
        exact Or.inr (Or.inr (Or.inr ⟨_, rfl⟩))
    · rw [if_neg h5]
      exact Or.inr (Or.inr (Or.inr ⟨_, rfl⟩))

/-- An import that ends with an error notice has left the store as it was,
unless the write of the avatar raised: then the markers entry is already
replaced by the array of the document. -/
theorem importParsed_rejected_storage (faults : StorageFaults) (doc : ParsedDocument)
    (confirmed : Bool) (storage : Storage)
    (hrej : (importParsed faults doc confirmed storage).1.isRejected = true) :
    (importParsed faults doc confirmed storage).2 = storage ∨
    (faults.setAvatar = true ∧ ∃ markers avatar,
      doc = ParsedDocument.value (MarkersField.array markers) avatar ∧
      (importParsed faults doc confirmed storage).2 =
        { travelMarkers := some markers, userAvatar := storage.userAvatar }) := by
  cases doc with
  | null => left; rfl
  | value field avatar =>
    cases field with
    | missing => left; rfl
    | other t => left; rfl
    | array markers =>
      rcases importParsed_array_cases faults markers avatar confirmed storage with
        ⟨h, _⟩ | h | ⟨h, hs⟩ | ⟨a, h⟩
      · left; rw [h]
      · left; rw [h]
      · right
        exact ⟨hs, markers, avatar, rfl, by rw [h]⟩
      · rw [h] at hrej
        simp [ImportOutcome.isRejected] at hrej

/-- The error notice after a partial write: when only the write of the avatar
raises, the import of a document with a marker array and an avatar ends with the
error notice although the stored marker collection is already replaced. -/
theorem importParsed_partial_write :
    (importParsed avatarQuotaExceeded
      (ParsedDocument.value (MarkersField.array []) (some "data:image/png;base64,BBBB")) true
      sampleStorage).1.isRejected = true ∧
    (importParsed avatarQuotaExceeded
      (ParsedDocument.value (MarkersField.array []) (some "data:image/png;base64,BBBB")) true
      sampleStorage).2 =
        { travelMarkers := some [], userAvatar := sampleStorage.userAvatar } ∧
    sampleStorage.markers.length = 2 := by
  decide

/-- C24 (amended): a parsed document whose `markers` property is missing or is
not an array is rejected with an error notice whatever local storage does, and
the stored markers and avatar are left as they were; an import the user declines
also leaves them as they were; a document whose `markers` is an array ends with
an error notice only when a storage call raises; and when no storage call
raises, the import ends with an error notice exactly when `markers` is missing
or is not an array. -/
theorem importParsed_rejection (faults : StorageFaults) (doc : ParsedDocument)
    (confirmed : Bool) (storage : Storage) :
    (markersMissingOrNotArray doc = true →
      (importParsed faults doc confirmed storage).1.isRejected = true ∧
      (importParsed faults doc confirmed storage).2 = storage) ∧
    ((importParsed faults doc confirmed storage).1 = ImportOutcome.cancelled →
      (importParsed faults doc confirmed storage).2 = storage) ∧
    (markersMissingOrNotArray doc = false →
      (importParsed faults doc confirmed storage).1.isRejected = true →
      faults.raises = true) ∧
    (faults.raises = false →
      (importParsed faults doc confirmed storage).1.isRejected =
        markersMissingOrNotArray doc) := by
  refine ⟨?_, ?_, ?_, ?_⟩
  · intro hm
    cases doc with
    | null => exact ⟨rfl, rfl⟩
    | value field avatar =>
      cases field with
      | missing => exact ⟨rfl, rfl⟩
      | other t => exact ⟨rfl, rfl⟩
      | array markers => simp [markersMissingOrNotArray] at hm
  · intro hc
    cases doc with
    | null => rfl
    | value field avatar =>
      cases field with
      | missing => rfl
      | other t => rfl
      | array markers =>
        rcases importParsed_array_cases faults markers avatar confirmed storage with
          ⟨h, _⟩ | h | ⟨h, _⟩ | ⟨a, h⟩
        · rw [h]
        · rw [h]
        · rw [h] at hc
          simp at hc
        · rw [h] at hc
          simp at hc
  · intro hm hrej
    cases doc with
    | null => simp [markersMissingOrNotArray] at hm
    | value field avatar =>
      cases field with
      | missing => simp [markersMissingOrNotArray] at hm
      | other t => simp [markersMissingOrNotArray] at hm
      | array markers =>
        rcases importParsed_array_cases faults markers avatar confirmed storage with
          ⟨_, hr⟩ | h | ⟨_, hs⟩ | ⟨a, h⟩
        · exact hr
        · rw [h] at hrej
          simp [ImportOutcome.isRejected] at hrej
        · simp [StorageFaults.raises, hs]
        · rw [h] at hrej
          simp [ImportOutcome.isRejected] at hrej
  · intro hf
    cases doc with
    | null => rfl
    | value field avatar =>
      cases field with
      | missing => rfl
      | other t => rfl
      | array markers =>
        rcases importParsed_array_cases faults markers avatar confirmed storage with
          ⟨_, hr⟩ | h | ⟨_, hs⟩ | ⟨a, h⟩
        · rw [hf] at hr
          cases hr
        · rw [h]
          rfl
        · have : faults.raises = true := by simp [StorageFaults.raises, hs]
          rw [hf] at this
          cases this
        · rw [h]
          rfl

/-- Witness of C24 (amended): on a full local storage a document whose `markers`
is a string is rejected and the store is untouched; on a local storage whose
calls all return, the exported document of the same store is not rejected. -/
theorem importParsed_rejection_witness :
    markersMissingOrNotArray (ParsedDocument.value (MarkersField.other true) none) = true ∧
    noFaults.raises = false ∧
    ((importParsed quotaExceeded (ParsedDocument.value (MarkersField.other true) none) true
        sampleStorage).1.isRejected = true ∧
      (importParsed quotaExceeded (ParsedDocument.value (MarkersField.other true) none) true
        sampleStorage).2 = sampleStorage) ∧
    (importParsed noFaults
      (handleExportData sampleStorage "2024-07-01T00:00:00.000Z").parsed true
      sampleStorage).1.isRejected =
      markersMissingOrNotArray
        (handleExportData sampleStorage "2024-07-01T00:00:00.000Z").parsed ∧
    (importParsed noFaults
      (handleExportData sampleStorage "2024-07-01T00:00:00.000Z").parsed true
      sampleStorage).1 = ImportOutcome.imported 2 :=
  ⟨by decide, by decide,
    (importParsed_rejection quotaExceeded (ParsedDocument.value (MarkersField.other true) none)
      true sampleStorage).1 (by decide),
    (importParsed_rejection noFaults
      (handleExportData sampleStorage "2024-07-01T00:00:00.000Z").parsed true
      sampleStorage).2.2.2 (by decide),
    by decide⟩

/-- C24 as stated fails: on a full local storage the import of a document whose
`markers` is an array (the exported document of the store itself) ends with the
error notice of the `catch` block; the store is left as it was. -/
theorem importParsed_quota_counterexample :
    markersMissingOrNotArray
      (handleExportData sampleStorage "2024-07-01T00:00:00.000Z").parsed = false ∧
    (importParsed quotaExceeded
      (handleExportData sampleStorage "2024-07-01T00:00:00.000Z").parsed true
      sampleStorage).1 = ImportOutcome.rejected "文件解析失败，请确保文件格式正确" ∧
    (importParsed quotaExceeded
      (handleExportData sampleStorage "2024-07-01T00:00:00.000Z").parsed true
      sampleStorage).1.isRejected = true ∧
    (importParsed quotaExceeded
      (handleExportData sampleStorage "2024-07-01T00:00:00.000Z").parsed true
      sampleStorage).2 = sampleStorage := by
  decide

/-- C25: when no storage call raises, importing the document produced by export
into a store without markers (no entry, or an empty array; no confirmation is
asked for) succeeds and leaves as stored collection exactly the collection of
the exporting store, in the same order; and a confirmed import of any document
with a marker array into any store succeeds and leaves exactly that array as
stored collection. -/
theorem export_import_roundtrip (faults : StorageFaults) (source target : Storage)
    (nowIso : String) (confirmed : Bool) (hfaults : faults.raises = false)
    (hempty : target.markers = []) :
    (importParsed faults (handleExportData source nowIso).parsed confirmed target).1 =
      ImportOutcome.imported source.markers.length ∧
    (importParsed faults (handleExportData source nowIso).parsed confirmed target).2.markers =
      source.markers ∧
    (importParsed faults (handleExportData source nowIso).parsed confirmed
      target).2.travelMarkers = some source.markers ∧
    (handleExportData source nowIso).metadata.totalMarkers = source.markers.length ∧
    ∀ (markers : List Marker) (avatar : Option String) (store : Storage),
      (importParsed faults (ParsedDocument.value (MarkersField.array markers) avatar) true
        store).1 = ImportOutcome.imported markers.length ∧
      (importParsed faults (ParsedDocument.value (MarkersField.array markers) avatar) true
        store).2.travelMarkers = some markers := by
  rw [faults_eq_noFaults faults hfaults]
  have hno : (match target.travelMarkers with
      | some existing => decide (existing.length > 0)
      | none => false) = false := by
    unfold Storage.markers at hempty
    cases ht : target.travelMarkers with
    | none => rfl
    | some l =>
      rw [ht] at hempty
      simp only [Option.getD_some] at hempty
      simp [hempty]
  have hsrc : (handleExportData source nowIso).markers = source.markers := by
    unfold handleExportData Storage.markers
    cases source.travelMarkers <;> rfl
  have himp : ∀ (markers : List Marker) (avatar : Option String) (store : Storage)
      (c : Bool),
      ((match store.travelMarkers with
        | some existing => decide (existing.length > 0)
        | none => false) && !c) = false →
      (importParsed noFaults (ParsedDocument.value (MarkersField.array markers) avatar) c
        store).1 = ImportOutcome.imported markers.length ∧
      (importParsed noFaults (ParsedDocument.value (MarkersField.array markers) avatar) c
        store).2.travelMarkers = some markers := by
    intro markers avatar store c hc
    simp only [importParsed, noFaults, Bool.and_false, Bool.false_eq_true, if_false, hc]
    cases avatar with
    | none => exact ⟨rfl, rfl⟩
    | some a =>
      simp only
      split_ifs <;> exact ⟨rfl, rfl⟩
  have h1 := himp (handleExportData source nowIso).markers
    (handleExportData source nowIso).userAvatar target confirmed (by rw [hno]; rfl)
  rw [hsrc] at h1
  have hp : (handleExportData source nowIso).parsed =
      ParsedDocument.value (MarkersField.array source.markers)
        (handleExportData source nowIso).userAvatar := by
    unfold ExportDocument.parsed
    rw [hsrc]
  rw [hp]
  refine ⟨h1.1, ?_, h1.2, ?_, ?_⟩
  · show ((importParsed noFaults
      (ParsedDocument.value (MarkersField.array source.markers)
        (handleExportData source nowIso).userAvatar) confirmed
      target).2.travelMarkers).getD [] = source.markers
    rw [h1.2]
    rfl
  · unfold handleExportData exportMetadata Storage.markers
    cases source.travelMarkers <;> rfl
  · intro markers avatar store
    exact himp markers avatar store true (by simp)

/-- Witness of C25: the sample store exported and imported into an empty store. -/
theorem export_import_roundtrip_witness :
    noFaults.raises = false ∧
    ({ travelMarkers := none, userAvatar := none } : Storage).markers = [] ∧
    (importParsed noFaults
      (handleExportData sampleStorage "2024-07-01T00:00:00.000Z").parsed false
      { travelMarkers := none, userAvatar := none }).2 = sampleStorage ∧
    (importParsed noFaults
      (handleExportData sampleStorage "2024-07-01T00:00:00.000Z").parsed false
      { travelMarkers := none, userAvatar := none }).2.markers = sampleStorage.markers :=
  ⟨by decide, rfl, by decide,
    (export_import_roundtrip noFaults sampleStorage
      { travelMarkers := none, userAvatar := none }
      "2024-07-01T00:00:00.000Z" false (by decide) rfl).2.1⟩

/-! ## Marker detail view -/

/-- The marker after a render of `MarkerDetail` has, in place of its visits
array, the sorted list the view shows. -/
theorem MarkerDetail.render_marker (parse : DateParser) (marker : Marker) :
    (MarkerDetail.render parse marker).marker =
      { marker with
        visits := marker.visits.map fun _ => (MarkerDetail.render parse marker).visits } := by
  unfold MarkerDetail.render
  cases h : marker.visits with
  | none =>
    simp only [Option.map_none']
    cases marker
    simp_all
  | some visits => simp

/-- C26, evaluation at the failing input: rendering `MarkerDetail` for a marker
whose visits are stored in the order 2024-05-01, 2024-06-01 shows them newest
first and leaves the marker's own visits array in that new order. -/
theorem MarkerDetail.render_reorders_visits :
    (sampleMarker 1 ["food"]
      [sampleVisit "visit_1" "2024-05-01", sampleVisit "visit_2" "2024-06-01"]).visits
      = some [sampleVisit "visit_1" "2024-05-01", sampleVisit "visit_2" "2024-06-01"] ∧
    (MarkerDetail.render parseIsoDate (sampleMarker 1 ["food"]
      [sampleVisit "visit_1" "2024-05-01", sampleVisit "visit_2" "2024-06-01"])).visits
      = [sampleVisit "visit_2" "2024-06-01", sampleVisit "visit_1" "2024-05-01"] ∧
    (MarkerDetail.render parseIsoDate (sampleMarker 1 ["food"]
      [sampleVisit "visit_1" "2024-05-01", sampleVisit "visit_2" "2024-06-01"])).marker.visits
      = some [sampleVisit "visit_2" "2024-06-01", sampleVisit "visit_1" "2024-05-01"] := by
  decide


/-! ## Zoom level of a search result -/

/-- The zoom chosen from a place rank between 1 and 20, whatever the type. -/
theorem zoom_of_rank (location : SearchLocation) (r : Int)
    (hr : location.placeRank = some r) (h1 : 1 ≤ r) (h20 : r ≤ 20) :
    getZoomLevelForLocationType location = ZoomValue.level
      (if r ≤ 4 then 8 else if r ≤ 8 then 10 else if r ≤ 12 then 12
       else if r ≤ 16 then 14 else if r ≤ 18 then 15 else 16) := by
  have h0 : r ≠ 0 := by omega
  unfold getZoomLevelForLocationType
  simp only [hr, if_pos h0]
  split_ifs <;> rfl

/-- The zoom chosen from the type when the rank is missing, 0 or above 20. -/
theorem zoom_without_rank (location : SearchLocation)
    (hr : location.placeRank = none ∨ location.placeRank = some 0 ∨
      ∃ r : Int, location.placeRank = some r ∧ 20 < r) :
    getZoomLevelForLocationType location = zoomByType location.type := by
  unfold getZoomLevelForLocationType
  rcases hr with h | h | ⟨r, h, hlt⟩
  · simp [h]
  · simp [h]
  · have h0 : r ≠ 0 := by omega
    simp only [h, if_pos h0]
    split_ifs <;> first | rfl | omega

/-- The zoom read from `zoomMap` for a type that names no inherited property: the
listed zoom, or 14 for a type that is not listed or absent; always between 8
and 17. -/
theorem zoomByType_of_not_inherited (type : Option String)
    (hsafe : type.getD "undefined" ∉ objectPrototypeKeys) :
    (∀ n, (type.getD "undefined", n) ∈ zoomMap → zoomByType type = ZoomValue.level n) ∧
    ((∀ n, (type.getD "undefined", n) ∉ zoomMap) → zoomByType type = ZoomValue.level 14) ∧
    ∃ z, zoomByType type = ZoomValue.level z ∧ 8 ≤ z ∧ z ≤ 17 := by
  have hnd : (zoomMap.map Prod.fst).Nodup := by decide
  have hvals : ∀ kv ∈ zoomMap, kv.2 ≠ 0 ∧ 8 ≤ kv.2 ∧ kv.2 ≤ 17 := by decide
  refine ⟨?_, ?_, ?_⟩
  · intro n hn
    have hget := Dict.get_of_mem zoomMap hnd _ hn
    simp only at hget
    have hne := (hvals _ hn).1
    simp only at hne
    simp [zoomByType, Dict.lookup, hget, hne]
  · intro hno
    have hget : Dict.get zoomMap (type.getD "undefined") = none := by
      rw [Dict.get_eq_none_iff]
      intro hmem
      obtain ⟨kv, hkv, e⟩ := List.mem_map.1 hmem
      exact hno kv.2 (by rw [← e]; exact hkv)
    simp [zoomByType, Dict.lookup, hget, hsafe]
  · cases hget : Dict.get zoomMap (type.getD "undefined") with
    | none =>
      exact ⟨14, by simp [zoomByType, Dict.lookup, hget, hsafe], by omega, by omega⟩
    | some n =>
      have hmem : (type.getD "undefined", n) ∈ zoomMap := by
        have hk : type.getD "undefined" ∈ zoomMap.map Prod.fst := by
          by_contra hc
          rw [(Dict.get_eq_none_iff zoomMap _).2 hc] at hget
          cases hget
        obtain ⟨kv, hkv, e⟩ := List.mem_map.1 hk
        have h2 := Dict.get_of_mem zoomMap hnd kv hkv
        rw [e, hget] at h2
        injection h2 with h2
        have : kv = (type.getD "undefined", n) := by
          rw [← e, h2]
        rw [← this]
        exact hkv
      have hv := hvals _ hmem
      simp only at hv
      exact ⟨n, by simp [zoomByType, Dict.lookup, hget, hv.1], hv.2.1, hv.2.2⟩

/-- The claim of C27 outside the failing case: for every search result whose type
names no inherited property, or whose place rank is between 1 and 20, the
result is a zoom level between 8 and 17; between ranks 1 and 20 the level
depends on the rank only and never decreases when the rank grows. -/
theorem getZoomLevel_spec :
    (∀ location : SearchLocation,
      (location.type.getD "undefined" ∉ objectPrototypeKeys ∨
        ∃ r : Int, location.placeRank = some r ∧ 1 ≤ r ∧ r ≤ 20) →
      ∃ z, getZoomLevelForLocationType location = ZoomValue.level z ∧ 8 ≤ z ∧ z ≤ 17) ∧
    (∀ (l1 l2 : SearchLocation) (r1 r2 : Int) (z1 z2 : Nat),
      l1.placeRank = some r1 → l2.placeRank = some r2 → 1 ≤ r1 → r1 ≤ r2 → r2 ≤ 20 →
      getZoomLevelForLocationType l1 = ZoomValue.level z1 →
      getZoomLevelForLocationType l2 = ZoomValue.level z2 → z1 ≤ z2) ∧
    (∀ (l1 l2 : SearchLocation) (r : Int),
      l1.placeRank = some r → l2.placeRank = some r → 1 ≤ r → r ≤ 20 →
      getZoomLevelForLocationType l1 = getZoomLevelForLocationType l2) := by
  refine ⟨?_, ?_, ?_⟩
  · intro location h
    by_cases hrank : ∃ r : Int, location.placeRank = some r ∧ 1 ≤ r ∧ r ≤ 20
    · obtain ⟨r, hr, h1, h20⟩ := hrank
      rw [zoom_of_rank location r hr h1 h20]
      refine ⟨_, rfl, ?_, ?_⟩ <;> split_ifs <;> omega
    · have hsafe : location.type.getD "undefined" ∉ objectPrototypeKeys := by
        rcases h with h | h
        · exact h
        · exact absurd h hrank
      have hbytype : getZoomLevelForLocationType location = zoomByType location.type ∨
          ∃ z, getZoomLevelForLocationType location = ZoomValue.level z ∧ 8 ≤ z ∧ z ≤ 17 := by
        cases hp : location.placeRank with
        | none => exact Or.inl (zoom_without_rank location (Or.inl hp))
        | some r =>
          by_cases h0 : r = 0
          · exact Or.inl (zoom_without_rank location (Or.inr (Or.inl (h0 ▸ hp))))
          · by_cases h20 : 20 < r
            · exact Or.inl (zoom_without_rank location (Or.inr (Or.inr ⟨r, hp, h20⟩)))
            · right
              have hneg : r ≤ 4 := by
                by_contra hc
                exact hrank ⟨r, hp, by omega, by omega⟩
              refine ⟨8, ?_, by omega, by omega⟩
              unfold getZoomLevelForLocationType
              simp [hp, h0, hneg]
      rcases hbytype with e | e
      · rw [e]
        exact (zoomByType_of_not_inherited location.type hsafe).2.2
      · exact e
  · intro l1 l2 r1 r2 z1 z2 h1 h2 hlo hle hhi e1 e2
    rw [zoom_of_rank l1 r1 h1 hlo (by omega)] at e1
    rw [zoom_of_rank l2 r2 h2 (by omega) hhi] at e2
    injection e1 with e1
    injection e2 with e2
    subst e1
    subst e2
    split_ifs <;> omega
  · intro l1 l2 r h1 h2 hlo hhi
    rw [zoom_of_rank l1 r h1 hlo hhi, zoom_of_rank l2 r h2 hlo hhi]

/-- C27, evaluation at the failing input: for a search result without place rank
whose type is `constructor`, a type that `zoomMap` does not list,
`zoomMap[type] || 14` reads the inherited property `Object.prototype.constructor`
and the function returns that value, not the zoom 14 and not a number at all. -/
theorem getZoomLevel_inherited_type :
    (∀ n, ("constructor", n) ∉ zoomMap) ∧
    getZoomLevelForLocationType { type := some "constructor", placeRank := none }
      = ZoomValue.inherited "constructor" ∧
    getZoomLevelForLocationType { type := some "constructor", placeRank := none }
      ≠ ZoomValue.level 14 ∧
    getZoomLevelForLocationType { type := some "hamlet", placeRank := none }
      = ZoomValue.level 14 := by
  refine ⟨?_, by decide, by decide, by decide⟩
  intro n hn
  have hall : ∀ kv ∈ zoomMap, kv.1 ≠ "constructor" := by decide
  exact hall _ hn rfl


/-! ## Visit operations touch one marker only -/

theorem map_scoped (markerId : MarkerId) (g : Marker → Marker) (prev : List Marker) :
    (prev.map fun marker => if marker.id = markerId then g marker else marker).length
      = prev.length ∧
    (∀ (i : Nat) (m : Marker), prev[i]? = some m → m.id ≠ markerId →
      (prev.map fun marker => if marker.id = markerId then g marker else marker)[i]?
        = some m) ∧
    ((∀ m ∈ prev, m.id ≠ markerId) →
      (prev.map fun marker => if marker.id = markerId then g marker else marker) = prev) := by
  refine ⟨by simp, ?_, ?_⟩
  · intro i m hm hid
    simp [List.getElem?_map, hm, hid]
  · intro hall
    conv_rhs => rw [← List.map_id prev]
    apply List.map_congr_left
    intro m hm
    simp [hall m hm]

/-- C28: `handleAddVisit`, `handleEditVisit` (also through the visit form) and
`handleDeleteVisit` (confirmed or declined) return a list of the same length in
which every position holding a marker with another id holds the same marker as
before; when no marker has the given id, the list is returned unchanged. -/
theorem visit_operations_scoped (markerId : MarkerId) (visit : Visit) (visitId : String)
    (f : VisitFormState) (nowMs : Int) (formIso nowIso : String) (confirmed : Bool)
    (prev : List Marker) :
    ((handleAddVisit markerId visit nowIso prev).length = prev.length ∧
      (handleEditVisit markerId visit nowIso prev).length = prev.length ∧
      (submitVisitEdit markerId visit f nowMs formIso nowIso prev).length = prev.length ∧
      (handleDeleteVisit confirmed markerId visitId nowIso prev).length = prev.length) ∧
    (∀ (i : Nat) (m : Marker), prev[i]? = some m → m.id ≠ markerId →
      (handleAddVisit markerId visit nowIso prev)[i]? = some m ∧
      (handleEditVisit markerId visit nowIso prev)[i]? = some m ∧
      (submitVisitEdit markerId visit f nowMs formIso nowIso prev)[i]? = some m ∧
      (handleDeleteVisit confirmed markerId visitId nowIso prev)[i]? = some m) ∧
    ((∀ m ∈ prev, m.id ≠ markerId) →
      handleAddVisit markerId visit nowIso prev = prev ∧
      handleEditVisit markerId visit nowIso prev = prev ∧
      submitVisitEdit markerId visit f nowMs formIso nowIso prev = prev ∧
      handleDeleteVisit confirmed markerId visitId nowIso prev = prev) := by
  have hadd := map_scoped markerId (fun marker =>
    { marker with
      visits := some (marker.visits.getD [] ++ [visit])
      updatedAt := some nowIso }) prev
  have hedit : ∀ u : Visit, _ := fun u => map_scoped markerId (fun marker =>
    { marker with
      visits := some ((marker.visits.getD []).map fun w =>
        if w.id = u.id then u else w)
      updatedAt := some nowIso }) prev
  have hdel := map_scoped markerId (fun marker =>
    { marker with
      visits := some ((marker.visits.getD []).filter fun w => decide (w.id ≠ visitId))
      updatedAt := some nowIso }) prev
  have hsub : ∀ P : List Marker → Prop, P prev → (∀ u, P (handleEditVisit markerId u nowIso prev)) →
      P (submitVisitEdit markerId visit f nowMs formIso nowIso prev) := by
    intro P h0 h1
    unfold submitVisitEdit
    cases VisitRecordForm.handleSubmit (some visit) f nowMs formIso with
    | none => exact h0
    | some u => exact h1 u
  have hdelP : ∀ P : List Marker → Prop, P prev →
      P (prev.map fun marker => if marker.id = markerId then
        { marker with
          visits := some ((marker.visits.getD []).filter fun w => decide (w.id ≠ visitId))
          updatedAt := some nowIso } else marker) →
      P (handleDeleteVisit confirmed markerId visitId nowIso prev) := by
    intro P h0 h1
    unfold handleDeleteVisit
    cases confirmed with
    | false => simpa using h0
    | true => simpa using h1
  refine ⟨⟨hadd.1, (hedit visit).1, ?_, ?_⟩, ?_, ?_⟩
  · exact hsub (fun l => l.length = prev.length) rfl (fun u => (hedit u).1)
  · exact hdelP (fun l => l.length = prev.length) rfl hdel.1
  · intro i m hm hid
    refine ⟨hadd.2.1 i m hm hid, (hedit visit).2.1 i m hm hid, ?_, ?_⟩
    · exact hsub (fun l => l[i]? = some m) hm (fun u => (hedit u).2.1 i m hm hid)
    · exact hdelP (fun l => l[i]? = some m) hm (hdel.2.1 i m hm hid)
  · intro hall
    refine ⟨hadd.2.2 hall, (hedit visit).2.2 hall, ?_, ?_⟩
    · exact hsub (fun l => l = prev) rfl (fun u => (hedit u).2.2 hall)
    · exact hdelP (fun l => l = prev) rfl (hdel.2.2 hall)

/-- Witness of C28: operations addressed to id 2 on a list that holds only id 1. -/
theorem visit_operations_scoped_witness :
    (∀ m ∈ [sampleMarker 1 ["food"] [sampleVisit "visit_1" "2024-05-01"]],
      m.id ≠ MarkerId.num 2) ∧
    (handleAddVisit (MarkerId.num 2) (sampleVisit "visit_2" "2024-06-01")
        "2024-06-02T00:00:00.000Z"
        [sampleMarker 1 ["food"] [sampleVisit "visit_1" "2024-05-01"]]
      = [sampleMarker 1 ["food"] [sampleVisit "visit_1" "2024-05-01"]] ∧
    handleEditVisit (MarkerId.num 2) (sampleVisit "visit_2" "2024-06-01")
        "2024-06-02T00:00:00.000Z"
        [sampleMarker 1 ["food"] [sampleVisit "visit_1" "2024-05-01"]]
      = [sampleMarker 1 ["food"] [sampleVisit "visit_1" "2024-05-01"]] ∧
    submitVisitEdit (MarkerId.num 2) (sampleVisit "visit_2" "2024-06-01") sampleVisitForm
        1720000000000 "2024-07-03T00:00:00.000Z" "2024-06-02T00:00:00.000Z"
        [sampleMarker 1 ["food"] [sampleVisit "visit_1" "2024-05-01"]]
      = [sampleMarker 1 ["food"] [sampleVisit "visit_1" "2024-05-01"]] ∧
    handleDeleteVisit true (MarkerId.num 2) "visit_1" "2024-06-02T00:00:00.000Z"
        [sampleMarker 1 ["food"] [sampleVisit "visit_1" "2024-05-01"]]
      = [sampleMarker 1 ["food"] [sampleVisit "visit_1" "2024-05-01"]]) :=
  ⟨by decide,
    (visit_operations_scoped (MarkerId.num 2) (sampleVisit "visit_2" "2024-06-01") "visit_1"
      sampleVisitForm 1720000000000 "2024-07-03T00:00:00.000Z" "2024-06-02T00:00:00.000Z"
      true [sampleMarker 1 ["food"] [sampleVisit "visit_1" "2024-05-01"]]).2.2 (by decide)⟩


/-! ## Yearly counts as the roll-up of monthly counts -/

theorem takeUnits_takeUnits (m n : Nat) (hmn : m ≤ n) (l : List Char) :
    takeUnits m (takeUnits n l) = takeUnits m l := by
  induction l generalizing m n with
  | nil => simp [takeUnits]
  | cons c cs ih =>
    by_cases hn : (if c.toNat < 0x10000 then 1 else 2) ≤ n
    · rw [takeUnits, if_pos hn]
      by_cases hm : (if c.toNat < 0x10000 then 1 else 2) ≤ m
      · rw [takeUnits, if_pos hm, takeUnits, if_pos hm, ih _ _ (by omega)]
      · rw [takeUnits, if_neg hm, takeUnits, if_neg hm]
    · have hm : ¬ (if c.toNat < 0x10000 then 1 else 2) ≤ m := by omega
      rw [takeUnits, if_neg hn]
      conv_rhs => rw [takeUnits, if_neg hm]
      simp [takeUnits]

/-- The first four characters of the first seven are the first four. -/
theorem substring0_four_of_seven (d : String) :
    substring0 (substring0 d 7) 4 = substring0 d 4 := by
  show String.mk (takeUnits 4 (takeUnits 7 d.toList)) = String.mk (takeUnits 4 d.toList)
  rw [takeUnits_takeUnits 4 7 (by omega)]

/-- Sum of the counts of the entries whose key satisfies `p`. -/
theorem sumWhere_set_count (p : String → Bool) (stats : Dict StatValue) (k : String)
    (n : Nat) (hget : Dict.get stats k = some (StatValue.count n)) :
    ((valuesWhere p (Dict.set stats k (StatValue.count (n + 1)))).map
        StatValue.countOf).sum =
      ((valuesWhere p stats).map StatValue.countOf).sum + (if p k = true then 1 else 0) := by
  induction stats with
  | nil => simp [Dict.get] at hget
  | cons a rest ih =>
    obtain ⟨k1, v1⟩ := a
    by_cases h1 : k1 = k
    · subst h1
      simp only [Dict.get, if_true] at hget
      injection hget with hget
      subst hget
      simp only [Dict.set, if_true, valuesWhere, List.filter_cons]
      by_cases hp : p k1 = true
      · simp [hp, StatValue.countOf]
        omega
      · simp [hp]
    · simp only [Dict.get, if_neg h1] at hget
      have ih2 := ih hget
      simp only [valuesWhere] at ih2
      simp only [Dict.set, if_neg h1, valuesWhere, List.filter_cons]
      by_cases hp : p k1 = true
      · simp only [hp, if_true, List.map_cons, List.sum_cons, ih2]
        omega
      · simp only [hp]
        simpa using ih2

theorem sumWhere_set_new (p : String → Bool) (stats : Dict StatValue) (k : String)
    (hget : Dict.get stats k = none) :
    ((valuesWhere p (Dict.set stats k (StatValue.count 1))).map StatValue.countOf).sum =
      ((valuesWhere p stats).map StatValue.countOf).sum + (if p k = true then 1 else 0) := by
  have hk := (Dict.get_eq_none_iff stats k).1 hget
  rw [dict_set_append stats k _ hk]
  simp only [valuesWhere, List.filter_append, List.map_append, List.sum_append,
    List.filter_cons, List.filter_nil]
  by_cases hp : p k = true
  · simp [hp, StatValue.countOf]
  · simp [hp]

theorem sumWhere_bumpStat (p : String → Bool) (stats : Dict StatValue) (done : List String)
    (key : String) (hkey : key ∉ objectPrototypeKeys)
    (hstats : ∀ k, Dict.get stats k =
      if done.count k = 0 then none else some (StatValue.count (done.count k))) :
    ((valuesWhere p (bumpStat stats key)).map StatValue.countOf).sum =
      ((valuesWhere p stats).map StatValue.countOf).sum + (if p key = true then 1 else 0) := by
  have hk := hstats key
  unfold bumpStat Dict.lookup
  by_cases h0 : done.count key = 0
  · rw [if_pos h0] at hk
    simp only [hk, if_neg hkey]
    exact sumWhere_set_new p stats key hk
  · rw [if_neg h0] at hk
    simp only [hk]
    exact sumWhere_set_count p stats key _ hk

theorem sumWhere_foldl_bumpStat (p : String → Bool) (keys done : List String)
    (stats : Dict StatValue) (hkeys : ∀ k ∈ keys, k ∉ objectPrototypeKeys)
    (hstats : ∀ k, Dict.get stats k =
      if done.count k = 0 then none else some (StatValue.count (done.count k))) :
    ((valuesWhere p (keys.foldl bumpStat stats)).map StatValue.countOf).sum =
      ((valuesWhere p stats).map StatValue.countOf).sum + (keys.filter p).length := by
  induction keys generalizing done stats with
  | nil => simp
  | cons key rest ih =>
    have hk := hkeys key (List.mem_cons_self _ _)
    have h1 := bumpStat_counts stats done key hk hstats
    have h2 := ih (done ++ [key]) (bumpStat stats key)
      (fun k hk2 => hkeys k (List.mem_cons_of_mem _ hk2)) h1
    rw [List.foldl_cons, h2, sumWhere_bumpStat p stats done key hk hstats, List.filter_cons]
    by_cases hp : p key = true
    · simp [hp]
      omega
    · simp [hp]

/-- Every value of a counting object built from keys that are not inherited is a
number. -/
theorem all_isCount_of_safe (n : Nat) (markers : List Marker)
    (hsafe : ∀ d ∈ datedEntries markers, substring0 d n ∉ objectPrototypeKeys) :
    ∀ kv ∈ markers.foldl (bumpMarker n) [], kv.2.isCount = true := by
  intro kv hkv
  have hnd : ((markers.foldl (bumpMarker n) []).map Prod.fst).Nodup := by
    rw [foldl_bumpMarker_eq]
    exact foldl_bumpStat_nodup _ _ (by simp)
  have hget := Dict.get_of_mem _ hnd kv hkv
  rw [stats_get_of_safe n markers hsafe kv.1] at hget
  split at hget
  · cases hget
  · injection hget with hget
    rw [← hget]
    rfl

/-- The sum of the counts under the keys satisfying `p`, for a counting object
built from keys that are not inherited: the number of dated entries whose key
satisfies `p`. -/
theorem sumWhere_of_safe (p : String → Bool) (n : Nat) (markers : List Marker)
    (hsafe : ∀ d ∈ datedEntries markers, substring0 d n ∉ objectPrototypeKeys) :
    sumStatValues (valuesWhere p (markers.foldl (bumpMarker n) [])) =
      some ((datedEntries markers).filter fun d => p (substring0 d n)).length := by
  have hall : (valuesWhere p (markers.foldl (bumpMarker n) [])).all StatValue.isCount
      = true := by
    rw [List.all_eq_true]
    intro v hv
    obtain ⟨kv, hkv, rfl⟩ := List.mem_map.1 hv
    exact all_isCount_of_safe n markers hsafe kv (List.mem_filter.1 hkv).1
  have hsum := sumWhere_foldl_bumpStat p ((datedEntries markers).map fun d => substring0 d n)
    [] []
    (by
      intro key hkey
      obtain ⟨d, hd, rfl⟩ := List.mem_map.1 hkey
      exact hsafe d hd)
    (by intro k; simp [Dict.get])
  rw [← foldl_bumpMarker_eq] at hsum
  unfold sumStatValues
  rw [if_pos hall, hsum]
  simp only [valuesWhere, List.filter_nil, List.map_nil, List.sum_nil, Nat.zero_add,
    List.filter_map, List.length_map]
  rfl

theorem not_inherited_of_noValueOf (markers : List Marker) (h : NoValueOfDate markers) :
    ∀ d ∈ datedEntries markers, substring0 d 7 ∉ objectPrototypeKeys :=
  fun d hd hin => h d hd (substring0_seven_inherited d hin)

/-- The claim of C29 outside the failing case: when no dated entry begins with
`valueOf`, the count of every year key of `yearlyStats` is the sum of the counts
of the month keys of `monthlyStats` whose first four characters are that year
key, and the yearly counts and the monthly counts both add up to the number of
dated entries. -/
theorem yearly_rollup (markers : List Marker) (hsafe : NoValueOfDate markers) :
    (∀ (y : String) (n : Nat),
      Dict.get (Statistics.yearlyStats markers) y = some (StatValue.count n) →
      sumStatValues
        (valuesWhere (fun k => decide (substring0 k 4 = y)) (Statistics.monthlyStats markers))
        = some n) ∧
    sumStatValues (valuesWhere (fun _ => true) (Statistics.yearlyStats markers))
      = some (datedEntries markers).length ∧
    sumStatValues (valuesWhere (fun _ => true) (Statistics.monthlyStats markers))
      = some (datedEntries markers).length := by
  have h7 := not_inherited_of_noValueOf markers hsafe
  have h4 : ∀ d ∈ datedEntries markers, substring0 d 4 ∉ objectPrototypeKeys :=
    fun d _ => substring0_four_not_inherited d
  refine ⟨?_, ?_, ?_⟩
  · intro y n hy
    rw [yearlyStats_get markers y] at hy
    have hn : n = bucketCount 4 markers y := by
      split at hy
      · cases hy
      · injection hy with hy
        injection hy with hy
        exact hy.symm
    have hsum := sumWhere_of_safe (fun k => decide (substring0 k 4 = y)) 7 markers h7
    unfold Statistics.monthlyStats
    rw [hsum, hn]
    simp only [substring0_four_of_seven, bucketCount]
  · have hsum := sumWhere_of_safe (fun _ => true) 4 markers h4
    unfold Statistics.yearlyStats
    rw [hsum]
    simp
  · have hsum := sumWhere_of_safe (fun _ => true) 7 markers h7
    unfold Statistics.monthlyStats
    rw [hsum]
    simp

/-- C29, evaluation at the failing input: for a marker whose only visit carries
the date string `valueOf`, `yearlyStats` maps the year key `valu` to 1, but the
only month key beginning with `valu` is `valueOf`, whose value in `monthlyStats`
is a text, not a number: the monthly values do not add up to the yearly
count. -/
theorem yearly_rollup_fails_on_inherited_key :
    Dict.get (Statistics.yearlyStats [valueOfMarker]) "valu" = some (StatValue.count 1) ∧
    valuesWhere (fun k => decide (substring0 k 4 = "valu"))
      (Statistics.monthlyStats [valueOfMarker]) = [StatValue.text "valueOf" 1] ∧
    sumStatValues (valuesWhere (fun k => decide (substring0 k 4 = "valu"))
      (Statistics.monthlyStats [valueOfMarker])) = none ∧
    sumStatValues (valuesWhere (fun _ => true) (Statistics.yearlyStats [valueOfMarker]))
      = some 1 ∧
    sumStatValues (valuesWhere (fun _ => true) (Statistics.monthlyStats [valueOfMarker]))
      = none := by
  decide

/-! ## Chart total, total visits and timeline length -/

theorem sumStatValues_perm (l1 l2 : List StatValue) (h : l1.Perm l2) :
    sumStatValues l1 = sumStatValues l2 := by
  unfold sumStatValues
  have hall : l1.all StatValue.isCount = l2.all StatValue.isCount := by
    rw [Bool.eq_iff_iff, List.all_eq_true, List.all_eq_true]
    exact ⟨fun hx x hm => hx x (h.mem_iff.2 hm), fun hx x hm => hx x (h.mem_iff.1 hm)⟩
  rw [hall, (h.map StatValue.countOf).sum_eq]

theorem monthlyChartData_visits_perm (localeCompare : LocaleCompare) (markers : List Marker) :
    ((Statistics.monthlyChartData localeCompare markers).map MonthEntry.visits).Perm
      (valuesWhere (fun _ => true) (Statistics.monthlyStats markers)) := by
  have h := (sortedEntries_perm localeCompare (Statistics.monthlyStats markers)).map Prod.snd
  simpa [Statistics.monthlyChartData, valuesWhere, List.map_map, Function.comp] using h

theorem length_flattenedPairs (parse : DateParser) (markers : List Marker) :
    (flattenedPairs parse markers).length = (markers.map visitCount).sum := by
  induction markers with
  | nil => rfl
  | cons m ms ih =>
    simp only [flattenedPairs, List.flatMap_cons, List.length_append, List.length_map,
      List.map_cons, List.sum_cons] at ih ⊢
    rw [ih]
    rfl

theorem length_datedEntries (markers : List Marker)
    (hlegacy : ∀ m ∈ markers, m.visitDate = none)
    (hdates : ∀ m ∈ markers, ∀ v ∈ m.visits.getD [], v.visitDate ≠ "") :
    (datedEntries markers).length = (markers.map visitCount).sum := by
  induction markers with
  | nil => rfl
  | cons m ms ih =>
    have h1 := hlegacy m (List.mem_cons_self _ _)
    have h2 := hdates m (List.mem_cons_self _ _)
    have ih2 := ih (fun x hx => hlegacy x (List.mem_cons_of_mem _ hx))
      (fun x hx => hdates x (List.mem_cons_of_mem _ hx))
    have hf : ((m.visits.getD []).filter fun visit => decide (visit.visitDate ≠ "")) =
        m.visits.getD [] := by
      rw [List.filter_eq_self]
      intro v hv
      simpa using h2 v hv
    simp only [datedEntries, List.flatMap_cons, List.length_append, List.map_cons,
      List.sum_cons] at ih2 ⊢
    rw [ih2]
    have hm : (markerDates m).length = visitCount m := by
      unfold markerDates
      rw [h1, hf]
      simp [visitCount]
    rw [hm]

/-- The claim of C30 outside the failing case: on a marker list without legacy
top-level dates in which every visit has a non-empty date and no date begins
with `valueOf`, the visits values of `monthlyChartData` add up to `totalVisits`,
which is also the length of the sidebar timeline. -/
theorem chart_total_eq_totalVisits (localeCompare : LocaleCompare) (parse : DateParser)
    (markers : List Marker) (hlegacy : ∀ m ∈ markers, m.visitDate = none)
    (hdates : ∀ m ∈ markers, ∀ v ∈ m.visits.getD [], v.visitDate ≠ "")
    (hsafe : NoValueOfDate markers) :
    sumStatValues ((Statistics.monthlyChartData localeCompare markers).map MonthEntry.visits)
      = some (Statistics.totalVisits markers) ∧
    Statistics.totalVisits markers = (timelineMemories parse markers).length := by
  have htotal : Statistics.totalVisits markers = (markers.map visitCount).sum := by
    have h := foldl_add_eq_sum (fun m : Marker => (m.visits.getD []).length) markers 0
    simp only [Nat.zero_add] at h
    exact h
  refine ⟨?_, ?_⟩
  · rw [sumStatValues_perm _ _ (monthlyChartData_visits_perm localeCompare markers),
      (yearly_rollup markers hsafe).2.2, length_datedEntries markers hlegacy hdates, htotal]
  · rw [htotal, (timelineMemories_perm parse markers).length_eq, length_flattenedPairs]

/-- C30, evaluation at the failing input: a marker without legacy date whose only
visit carries the non-empty date string `valueOf` has one visit and a timeline
of one entry, but the only visits value of `monthlyChartData` is a text, so the
chart values do not add up to 1. -/
theorem chart_total_fails_on_inherited_key :
    valueOfMarker.visitDate = none ∧
    (∀ v ∈ valueOfMarker.visits.getD [], v.visitDate ≠ "") ∧
    Statistics.totalVisits [valueOfMarker] = 1 ∧
    (timelineMemories parseIsoDate [valueOfMarker]).length = 1 ∧
    (Statistics.monthlyChartData sampleLocaleCompare [valueOfMarker]).map MonthEntry.visits
      = [StatValue.text "valueOf" 1] ∧
    sumStatValues
      ((Statistics.monthlyChartData sampleLocaleCompare [valueOfMarker]).map MonthEntry.visits)
      = none := by
  decide

end TravelFootprint
